import Mathlib

/-!
Shallow embedding of tsickle's `type_translator.ts` (the `TypeTranslator`
class and the free functions around it) in Lean 4.

Modelling conventions:
- TypeScript object identity (used by `Set<ts.Type>`, `Map<ts.Symbol, string>`,
  `===` comparisons) is modelled by numeric ids (`tid` on types, `sid` on
  symbols).  The "seen" recursion set is a list of type ids and the alias
  scope a list of (symbol id, string) pairs with most-recent-first lookup,
  matching last-writer-wins `Map.set`/`Map.get` semantics.
- Calls into the TypeScript checker that merely fetch a component of a type
  (`target`, `typeArguments`, union members, signatures of a type, the type
  of a member symbol at the reference node, index types, the base type of a
  literal type) are inlined as fields of the type node, so the type value is
  the finite tree of checker answers the translator will consume.
- Checker/host calls that are external collaborators (`symbolToEntityName`,
  `getAliasedSymbol`, `moduleNameAsIdentifier`, `path.normalize`,
  `ensureSymbolDeclared`) are fields of an `Env` of oracle functions.
- Mutable instance state (`seenAnonymousTypes`, `symbolsToAliasedNames`,
  collected `warn` messages) is threaded explicitly through a `St` value.
- JavaScript exceptions (`throw new Error(...)` and the `TypeError`s raised
  by dereferencing `undefined`) are modelled with `Except TErr`.
- Numeric flag constants are the TypeScript 3.x enum values used by this
  version of tsickle.
-/

namespace TsickleTT

/-! ## TypeScript flag constants (typescript 3.x numeric values) -/

namespace TypeFlags

def Any : Nat := 1
def Unknown : Nat := 2
def StringF : Nat := 4
def NumberF : Nat := 8
def BooleanF : Nat := 16
def Enum : Nat := 32
def BigIntF : Nat := 64
def StringLiteral : Nat := 128
def NumberLiteral : Nat := 256
def BooleanLiteral : Nat := 512
def EnumLiteral : Nat := 1024
def BigIntLiteral : Nat := 2048
def ESSymbol : Nat := 4096
def UniqueESSymbol : Nat := 8192
def Void : Nat := 16384
def Undefined : Nat := 32768
def Null : Nat := 65536
def Never : Nat := 131072
def TypeParameter : Nat := 262144
def ObjectF : Nat := 524288
def Union : Nat := 1048576
def Intersection : Nat := 2097152
def Index : Nat := 4194304
def IndexedAccess : Nat := 8388608
def Conditional : Nat := 16777216
def Substitution : Nat := 33554432
def NonPrimitive : Nat := 67108864

end TypeFlags

namespace ObjectFlags

def Class : Nat := 1
def Interface : Nat := 2
def Reference : Nat := 4
def Tuple : Nat := 8
def Anonymous : Nat := 16
def Mapped : Nat := 32
def Instantiated : Nat := 64
def ObjectLiteral : Nat := 128

end ObjectFlags

namespace SymbolFlags

def FunctionF : Nat := 16
def Method : Nat := 8192
def TypeParameter : Nat := 262144
def Alias : Nat := 2097152
/-- `ts.SymbolFlags.Value`, the composite mask of all value-space flags. -/
def Value : Nat := 111551

end SymbolFlags

namespace ModifierFlags

def Export : Nat := 1
def Ambient : Nat := 2

end ModifierFlags

/-- `lastFlag = ts.TypeFlags.Substitution; mask = (lastFlag << 1) - 1`
(line 390-391 of `type_translator.ts`). -/
def flagsMask : Nat := 67108863

/-! ## Source files and declarations -/

/-- The capabilities of a `ts.SourceFile` consumed by the translator:
its file name, `isDeclarationFile`, and whether `ts.isExternalModule`
holds of it. -/
structure SF where
  fileName : String
  isDeclarationFile : Bool
  isExternalModule : Bool
deriving Repr, DecidableEq

/-- A `ts.Declaration` as consumed by the translator: its combined modifier
flags, whether it is a `ModuleDeclaration` (and, if so, whether its name is
a string literal, with that text), the source file it resides in, and its
parent.  A parent that is the source file itself is recorded in
`parentFile`; a parent that is another declaration in `parentDecl`
(a `ts.SourceFile` node contributes no modifier flags and is not a module
declaration, so eliding it from the parent chain preserves the walks the
translator performs). -/
inductive Decl where
  | mk : (modFlags : Nat) → (isModuleDecl : Bool) → (moduleStrName : Option String) →
      (sf : SF) → (parentFile : Option SF) → (parentDecl : Option Decl) → Decl

def Decl.modFlags : Decl → Nat | .mk a _ _ _ _ _ => a

def Decl.isModuleDecl : Decl → Bool | .mk _ a _ _ _ _ => a

def Decl.moduleStrName : Decl → Option String | .mk _ _ a _ _ _ => a

def Decl.sf : Decl → SF | .mk _ _ _ a _ _ => a

def Decl.parentFile : Decl → Option SF | .mk _ _ _ _ a _ => a

def Decl.parentDecl : Decl → Option Decl | .mk _ _ _ _ _ a => a

/-! ## The mutual type/symbol/signature model -/

mutual

/-- The capabilities of a `ts.Type` consumed by the translator.
`tid` models object identity.  `target`/`typeArgs` are the
`ts.TypeReference` fields; `unionTypes` the `ts.UnionType.types` list;
`ctorSigs`/`callSigs` the construct/call signatures the checker reports for
the type; `strIndexTy`/`numIndexTy` the checker's
`getIndexTypeOfType(type, String/Number)` answers; `enumBase` the checker's
`getBaseTypeOfLiteralType(type)` answer (`none` means the checker returns
the very same type object). -/
inductive Ty where
  | mk : (tid : Nat) → (flags : Nat) → (objFlags : Nat) → (symbol : Option Sym) →
      (target : Option Ty) → (typeArgs : Option (List Ty)) →
      (unionTypes : List Ty) →
      (ctorSigs : List Sig) → (callSigs : List Sig) →
      (strIndexTy : Option Ty) → (numIndexTy : Option Ty) →
      (enumBase : Option Ty) → Ty

/-- The capabilities of a `ts.Symbol` consumed by the translator.  `sid`
models object identity.  `members` maps member names to the checker's
`getTypeOfSymbolAtLocation(memberSymbol, node)` answer for the member
symbol.  `parent` is the internal `symbol.parent` field. -/
inductive Sym where
  | mk : (sid : Nat) → (flags : Nat) → (name : String) →
      (decls : Option (List Decl)) →
      (members : Option (List (String × Ty))) → (parent : Option Sym) → Sym

/-- A `ts.Signature`: its optional declaration, the types of its
`parameters` symbols at the reference node (inlining
`getTypeOfSymbolAtLocation(param, node)`), and the checker's
`getReturnTypeOfSignature`/`getReturnType` answer. -/
inductive Sig where
  | mk : (sigDecl : Option SigDecl) → (params : List Ty) → (ret : Ty) → Sig

/-- A signature declaration: whether its kind is `JSDocSignature`, its
optional `typeParameters` (each carrying the checker's
`getSymbolAtLocation(tpd.name)` answer), and its parameter declarations.
The `ts.Declaration` aspects of the node are irrelevant to the translator. -/
inductive SigDecl where
  | mk : (isJSDoc : Bool) → (typeParams : Option (List (Option Sym))) →
      (paramDecls : List PDecl) → SigDecl

/-- A `ts.ParameterDeclaration`: presence of `questionToken` and
`dotDotDotToken`, whether its name's text is `this`, and (for a `this`
parameter) the checker's `getTypeAtLocation` answer for its type
annotation, if any. -/
inductive PDecl where
  | mk : (questionTok : Bool) → (dotsTok : Bool) → (nameIsThis : Bool) →
      (thisTy : Option Ty) → PDecl

end

def Ty.tid : Ty → Nat | .mk a _ _ _ _ _ _ _ _ _ _ _ => a

def Ty.flags : Ty → Nat | .mk _ a _ _ _ _ _ _ _ _ _ _ => a

def Ty.objFlags : Ty → Nat | .mk _ _ a _ _ _ _ _ _ _ _ _ => a

def Ty.symbol : Ty → Option Sym | .mk _ _ _ a _ _ _ _ _ _ _ _ => a

def Ty.target : Ty → Option Ty | .mk _ _ _ _ a _ _ _ _ _ _ _ => a

def Ty.typeArgs : Ty → Option (List Ty) | .mk _ _ _ _ _ a _ _ _ _ _ _ => a

def Ty.unionTypes : Ty → List Ty | .mk _ _ _ _ _ _ a _ _ _ _ _ => a

def Ty.ctorSigs : Ty → List Sig | .mk _ _ _ _ _ _ _ a _ _ _ _ => a

def Ty.callSigs : Ty → List Sig | .mk _ _ _ _ _ _ _ _ a _ _ _ => a

def Ty.strIndexTy : Ty → Option Ty | .mk _ _ _ _ _ _ _ _ _ a _ _ => a

def Ty.numIndexTy : Ty → Option Ty | .mk _ _ _ _ _ _ _ _ _ _ a _ => a

def Ty.enumBase : Ty → Option Ty | .mk _ _ _ _ _ _ _ _ _ _ _ a => a

def Sym.sid : Sym → Nat | .mk a _ _ _ _ _ => a

def Sym.flags : Sym → Nat | .mk _ a _ _ _ _ => a

def Sym.name : Sym → String | .mk _ _ a _ _ _ => a

def Sym.decls : Sym → Option (List Decl) | .mk _ _ _ a _ _ => a

def Sym.members : Sym → Option (List (String × Ty)) | .mk _ _ _ _ a _ => a

def Sym.parent : Sym → Option Sym | .mk _ _ _ _ _ a => a

def Sig.sigDecl : Sig → Option SigDecl | .mk a _ _ => a

def Sig.params : Sig → List Ty | .mk _ a _ => a

def Sig.ret : Sig → Ty | .mk _ _ a => a

def SigDecl.isJSDoc : SigDecl → Bool | .mk a _ _ => a

def SigDecl.typeParams : SigDecl → Option (List (Option Sym)) | .mk _ a _ => a

def SigDecl.paramDecls : SigDecl → List PDecl | .mk _ _ a => a

def PDecl.questionTok : PDecl → Bool | .mk a _ _ _ => a

def PDecl.dotsTok : PDecl → Bool | .mk _ a _ _ => a

def PDecl.nameIsThis : PDecl → Bool | .mk _ _ a _ => a

def PDecl.thisTy : PDecl → Option Ty | .mk _ _ _ a => a

/-- The `ts.EntityName` tree produced by `typeChecker.symbolToEntityName`,
each identifier carrying its internal `symbol` field and its identifier
text (inlining `getIdentifierText`). -/
inductive EntityName where
  | ident : (sym : Sym) → (text : String) → EntityName
  | qualified : (left : EntityName) → (sym : Sym) → (text : String) → EntityName

/-! ## Environment and state -/

/-- External collaborators handed to (or reachable from) a `TypeTranslator`
instance: the annotator host's `moduleNameAsIdentifier`, the checker's
entity-name/alias queries, Node's `path.normalize`, the `ensureSymbolDeclared`
callback (modelled by its effect on the alias scope), the source-file name of
the reference node `this.node`, the `isForExterns` switch and the raw
`pathBlackList` constructor argument. -/
structure Env where
  isForExterns : Bool
  pathBlackList : Option (List String)
  normalizePath : String → String
  moduleNameAsIdentifier : String → String
  symbolToEntityName : Sym → Option EntityName
  getAliasedSymbol : Sym → Sym
  ensureSymbolDeclared : Sym → List (Nat × String) → List (Nat × String)
  nodeFileName : String

/-- The mutable state of a `TypeTranslator` instance: the
`seenAnonymousTypes` set (type ids), the `symbolsToAliasedNames` scope
(symbol id to alias, most recent entry first) and the accumulated `warn`
messages. -/
structure St where
  seen : List Nat
  aliases : List (Nat × String)
  warnings : List String
deriving Repr, DecidableEq

/-- `Map.get` on the alias scope: first (most recent) entry for the id. -/
def aliasGet (m : List (Nat × String)) (sid : Nat) : Option String :=
  (m.find? (fun e => e.1 = sid)).map (fun e => e.2)

/-- `Map.set` on the alias scope. -/
def aliasSet (m : List (Nat × String)) (sid : Nat) (v : String) :
    List (Nat × String) :=
  (sid, v) :: m

/-- `warn(msg)`, modelled as collecting the message. -/
def warnSt (st : St) (msg : String) : St :=
  { st with warnings := st.warnings ++ [msg] }

/-- Errors thrown during translation: the two `throw new Error(...)` sites
and the `TypeError`s JavaScript raises when `convertParams` dereferences a
missing parameter declaration (`paramDecl.questionToken` with `paramDecl`
undefined) or an empty `typeArguments` array in a rest-parameter position
(`translate(typeRef.typeArguments[0])` with the array empty). -/
inductive TErr where
  | unknownTypeFlags : Nat → TErr
  | referenceLoop : TErr
  | missingParamDecl : TErr
  | emptyRestTypeArgs : TErr
deriving Repr, DecidableEq

/-! ## Free helper functions from type_translator.ts -/

/-- `isValidClosurePropertyName`: the regex `^[a-zA-Z_][a-zA-Z0-9_]*$`. -/
def isValidClosurePropertyName (name : String) : Bool :=
  match name.data with
  | [] => false
  | c :: cs => (c.isAlpha || c = '_') && cs.all (fun d => d.isAlphanum || d = '_')

/-- Word characters for the `\b` boundary in `isBuiltinLibDTS`'s regex. -/
def isWordChar (c : Char) : Bool :=
  c.isAlphanum || c = '_'

/-- Whether `l` begins with the characters of `p`. -/
def startsWithChars : List Char → List Char → Bool
  | [], _ => true
  | _ :: _, [] => false
  | p :: ps, c :: cs => p = c && startsWithChars ps cs

/-- The part after `lib.` in `isBuiltinLibDTS`'s regex:
`(?:[^/]+\.)?d\.ts` anchored at the end of the string. -/
def libDtsTail (r : List Char) : Bool :=
  (r == "d.ts".data) ||
  (decide (4 ≤ r.length) && (r.drop (r.length - 4) == "d.ts".data) &&
    (let mid := r.take (r.length - 4)
     decide (2 ≤ mid.length) && (mid.getLast? == some '.') &&
       (mid.take (mid.length - 1)).all (fun c => c != '/')))

/-- Scan for a match of `\blib\.(?:[^/]+\.)?d\.ts$` starting at each
position; `prev` is the character before the current position. -/
def libDtsScan : Option Char → List Char → Bool
  | prev, l =>
    ((match prev with | none => true | some c => !isWordChar c) &&
      startsWithChars "lib.".data l && libDtsTail (l.drop 4)) ||
    (match l with
     | [] => false
     | c :: cs => libDtsScan (some c) cs)

/-- `isBuiltinLibDTS(fileName)`: `fileName.match(/\blib\.(?:[^/]+\.)?d\.ts$/) != null`. -/
def isBuiltinLibDTS (fileName : String) : Bool :=
  libDtsScan none fileName.data

/-- `isClosureProvidedType(symbol)`. -/
def isClosureProvidedType (symbol : Sym) : Bool :=
  match symbol.decls with
  | none => false
  | some ds => ds.any (fun n => isBuiltinLibDTS n.sf.fileName)

/-- The inner climb of `getContainingAmbientModuleDeclaration`: walk the
parent chain looking for a module declaration with a string-literal name. -/
def climbAmbientModule : Decl → Option Decl
  | .mk mf imd msn sf pf none =>
    if imd && msn.isSome then some (.mk mf imd msn sf pf none) else none
  | .mk mf imd msn sf pf (some q) =>
    if imd && msn.isSome then some (.mk mf imd msn sf pf (some q))
    else climbAmbientModule q

/-- `getContainingAmbientModuleDeclaration(declarations)`. -/
def getContainingAmbientModuleDeclaration (declarations : List Decl) :
    Option Decl :=
  declarations.findSome? (fun d =>
    match d.parentDecl with
    | some p => climbAmbientModule p
    | none => none)

/-- `isTopLevelExternal(declarations)`. -/
def isTopLevelExternal (declarations : List Decl) : Bool :=
  declarations.any (fun d =>
    match d.parentFile with
    | some sf => sf.isExternalModule
    | none => false)

/-- `isDeclaredInSameFile(this.node, d)`, comparing source files by name. -/
def isDeclaredInSameFile (env : Env) (d : Decl) : Bool :=
  d.sf.fileName = env.nodeFileName

/-- Modelled from the spec: `hasModifierFlag` from the missing
`transformer_util.ts` — the data model exposes "combined modifier flags
(including an 'ambient' bit and an 'export' bit)"; the check is whether the
given bit is set. -/
def hasModifierFlag (d : Decl) (flag : Nat) : Bool :=
  d.modFlags &&& flag != 0

/-- Whether the ambient modifier bit is set anywhere on the declaration or
its ancestor declarations. -/
def ambientInChain : Decl → Bool
  | .mk mf _ _ _ _ none => mf &&& ModifierFlags.Ambient != 0
  | .mk mf _ _ _ _ (some q) =>
    (mf &&& ModifierFlags.Ambient != 0) || ambientInChain q

/-- Whether some declaration on the chain (the node itself included) is a
module declaration. -/
def moduleDeclInChain : Decl → Bool
  | .mk _ imd _ _ _ none => imd
  | .mk _ imd _ _ _ (some q) => imd || moduleDeclInChain q

/-- Modelled from the spec: `isAmbient` from the missing
`transformer_util.ts` — per the spec, a declaration is ambient when it is in
a declaration file or has an ambient modifier anywhere up its ancestor
chain. -/
def isAmbientDecl (d : Decl) : Bool :=
  d.sf.isDeclarationFile || ambientInChain d

/-- The standalone `isBlacklisted(pathBlackList, symbol)` at the bottom of
`type_translator.ts`.  `norm` is `path.normalize`; the blacklist argument
is expected to hold already-normalized paths (the constructor normalizes
them). -/
def isBlacklisted (norm : String → String) (pathBlackList : Option (List String))
    (symbol : Sym) : Bool :=
  match pathBlackList with
  | none => false
  | some bl =>
    match symbol.decls with
    | none => false
    | some ds => ds.all (fun n => bl.contains (norm n.sf.fileName))

/-- The translator's `pathBlackList` after the constructor's normalization
of every entry. -/
def normalizedBlackList (env : Env) : Option (List String) :=
  env.pathBlackList.map (fun l => l.map env.normalizePath)

/-- `TypeTranslator.isBlackListed(symbol)`. -/
def isBlackListedInst (env : Env) (symbol : Sym) : Bool :=
  isBlacklisted env.normalizePath (normalizedBlackList env) symbol

/-- `blacklistTypeParameters(blacklist, decls)` (the blacklist map is
`this.symbolsToAliasedNames`, i.e. the state's alias scope). -/
def blacklistTypeParameters (st : St) (decls : Option (List (Option Sym))) : St :=
  match decls with
  | none => st
  | some l =>
    if l.isEmpty then st
    else
      l.foldl
        (fun st tpdSym =>
          match tpdSym with
          | none => warnSt st "type parameter with no symbol"
          | some sym => { st with aliases := aliasSet st.aliases sym.sid "?" })
        st

/-! ## symbolToString and the mangled name prefix -/

/-- `maybeGetMangledNamePrefix(symbol)`. -/
def maybeGetMangledNamePrefix (env : Env) (symbol : Sym) : String :=
  match symbol.decls with
  | none => ""
  | some declarations =>
    let ambientModuleDeclaration : Option Decl :=
      if !isTopLevelExternal declarations then
        getContainingAmbientModuleDeclaration declarations
      else none
    if !isTopLevelExternal declarations && ambientModuleDeclaration.isNone then ""
    else if !env.isForExterns &&
        !(declarations.all (fun d =>
            isDeclaredInSameFile env d && isAmbientDecl d &&
            hasModifierFlag d ModifierFlags.Export)) then ""
    else
      let fileName :=
        match ambientModuleDeclaration with
        | some am => (am.moduleStrName).getD ""
        | none => ((declarations.head?).map (fun d => d.sf.fileName)).getD ""
      env.moduleNameAsIdentifier fileName ++ "."

/-- `stripClutzNamespace(name)`: `name.startsWith('ಠ_ಠ.clutz.')` and
`name.substring(prefixLength)`, written out over the character list (every
character involved is in the basic plane, so JavaScript UTF-16 units,
TypeScript string indices and Lean characters coincide here). -/
def stripClutzNamespace (name : String) : String :=
  if startsWithChars "ಠ_ಠ.clutz.".data name.data then
    String.mk (name.data.drop ("ಠ_ಠ.clutz.".data.length))
  else name

/-- The alias-symbol dereference at the head of each
`writeEntityWithSymbols` segment. -/
def derefAlias (env : Env) (s : Sym) : Sym :=
  if s.flags &&& SymbolFlags.Alias ≠ 0 then env.getAliasedSymbol s else s

/-- One segment of `writeEntityWithSymbols`: dereference an alias symbol,
consult the alias scope (an empty-string alias is falsy and ignored), and
otherwise append the identifier text, with the mangled prefix exactly when
no text has accumulated yet. -/
def writeSegment (env : Env) (amap : List (Nat × String)) (str : String)
    (s : Sym) (text : String) : String :=
  let symbol := derefAlias env s
  let app :=
    str ++ (if str.length = 0 then maybeGetMangledNamePrefix env symbol ++ text else text)
  match aliasGet amap symbol.sid with
  | some al => if al = "" then app else al
  | none => app

/-- `writeEntityWithSymbols`, with the accumulated text passed explicitly. -/
def writeEntity (env : Env) (amap : List (Nat × String)) :
    String → EntityName → String
  | str, .ident s text => writeSegment env amap str s text
  | str, .qualified l s text =>
    writeSegment env amap (writeEntity env amap str l ++ ".") s text

/-- The conditional `ensureSymbolDeclared` call at the top of
`symbolToString`. -/
def ensureStep (env : Env) (st : St) (sym : Sym) : St :=
  if !env.isForExterns && sym.flags &&& SymbolFlags.TypeParameter = 0 then
    { st with aliases := env.ensureSymbolDeclared sym st.aliases }
  else st

/-- `symbolToString(sym)`. -/
def symbolToString (env : Env) (st : St) (sym : Sym) : Option String × St :=
  let st1 := ensureStep env st sym
  match env.symbolToEntityName sym with
  | none => (none, st1)
  | some name => (some (stripClutzNamespace (writeEntity env st1.aliases "" name)), st1)

/-! ## Size lemmas for the translation recursion -/

theorem sizeOf_target_lt {t g : Ty} (h : t.target = some g) :
    sizeOf g < sizeOf t := by
  cases t with
  | mk a b c d e f g' h' i j k l =>
    simp only [Ty.target] at h
    subst h
    simp
    omega

theorem sizeOf_typeArgs_lt {t : Ty} {l : List Ty} (h : t.typeArgs = some l) :
    sizeOf l < sizeOf t := by
  cases t with
  | mk a b c d e f g' h' i j k m =>
    simp only [Ty.typeArgs] at h
    subst h
    simp
    omega

theorem sizeOf_unionTypes_lt (t : Ty) : sizeOf t.unionTypes < sizeOf t := by
  cases t with
  | mk a b c d e f g' h' i j k m =>
    simp only [Ty.unionTypes]
    simp
    omega

theorem sizeOf_ctorSigsList_lt (t : Ty) : sizeOf t.ctorSigs < sizeOf t := by
  cases t with
  | mk a b c d e f g' h' i j k m =>
    simp only [Ty.ctorSigs]
    simp
    omega

theorem sizeOf_callSigsList_lt (t : Ty) : sizeOf t.callSigs < sizeOf t := by
  cases t with
  | mk a b c d e f g' h' i j k m =>
    simp only [Ty.callSigs]
    simp
    omega

theorem sizeOf_ctorSigs_mem_lt {t : Ty} {sg : Sig} (h : sg ∈ t.ctorSigs) :
    sizeOf sg < sizeOf t := by
  cases t with
  | mk a b c d e f g' h' i j k m =>
    simp only [Ty.ctorSigs] at h
    have h2 := List.sizeOf_lt_of_mem h
    simp
    omega

theorem sizeOf_callSigs_mem_lt {t : Ty} {sg : Sig} (h : sg ∈ t.callSigs) :
    sizeOf sg < sizeOf t := by
  cases t with
  | mk a b c d e f g' h' i j k m =>
    simp only [Ty.callSigs] at h
    have h2 := List.sizeOf_lt_of_mem h
    simp
    omega

theorem sizeOf_strIndexTy_lt {t u : Ty} (h : t.strIndexTy = some u) :
    sizeOf u < sizeOf t := by
  cases t with
  | mk a b c d e f g' h' i j k m =>
    simp only [Ty.strIndexTy] at h
    subst h
    simp
    omega

theorem sizeOf_numIndexTy_lt {t u : Ty} (h : t.numIndexTy = some u) :
    sizeOf u < sizeOf t := by
  cases t with
  | mk a b c d e f g' h' i j k m =>
    simp only [Ty.numIndexTy] at h
    subst h
    simp
    omega

theorem sizeOf_members_lt {t : Ty} {s : Sym} {mems : List (String × Ty)}
    (h1 : t.symbol = some s) (h2 : s.members = some mems) :
    sizeOf mems < sizeOf t := by
  cases t with
  | mk a b c d e f g' h' i j k m =>
    simp only [Ty.symbol] at h1
    subst h1
    cases s with
    | mk sa sb sc sd se sf' =>
      simp only [Sym.members] at h2
      subst h2
      simp
      omega

theorem sizeOf_pair_snd_lt {f : String} {u : Ty} {mems : List (String × Ty)}
    (h : (f, u) ∈ mems) : sizeOf u < sizeOf mems := by
  have h2 := List.sizeOf_lt_of_mem h
  simp at h2
  omega

theorem sizeOf_sig_ret_lt (sg : Sig) : sizeOf sg.ret < sizeOf sg := by
  cases sg with
  | mk a b c =>
    simp only [Sig.ret]
    simp

theorem sizeOf_sig_params_lt (sg : Sig) : sizeOf sg.params < sizeOf sg := by
  cases sg with
  | mk a b c =>
    simp only [Sig.params]
    simp
    omega

theorem sizeOf_sigDecl_lt {sg : Sig} {d : SigDecl} (h : sg.sigDecl = some d) :
    sizeOf d < sizeOf sg := by
  cases sg with
  | mk a b c =>
    simp only [Sig.sigDecl] at h
    subst h
    simp
    omega

theorem sizeOf_paramDecls_mem_lt {d : SigDecl} {p : PDecl}
    (h : p ∈ d.paramDecls) : sizeOf p < sizeOf d := by
  cases d with
  | mk a b c =>
    simp only [SigDecl.paramDecls] at h
    have h2 := List.sizeOf_lt_of_mem h
    simp
    omega

theorem sizeOf_thisTy_lt {p : PDecl} {tt : Ty} (h : p.thisTy = some tt) :
    sizeOf tt < sizeOf p := by
  cases p with
  | mk a b c d =>
    simp only [PDecl.thisTy] at h
    subst h
    simp
    omega

theorem sizeOf_ty_typeArgs_head_lt {p : Ty} {a : Ty} {rest : List Ty}
    (h : p.typeArgs = some (a :: rest)) : sizeOf a < sizeOf p := by
  have h1 := sizeOf_typeArgs_lt h
  have h2 : sizeOf a < sizeOf (a :: rest) := by simp; omega
  omega

/-! ## Rendering helpers -/

/-- `Array.prototype.join(sep)`. -/
def joinSep (sep : String) : List String → String
  | [] => ""
  | [x] => x
  | x :: xs => x ++ sep ++ joinSep sep xs

/-- `parts.filter((el, idx) => parts.indexOf(el) === idx)`: drop later
duplicates, keeping first occurrences in order. -/
def dedupFirst (parts : List String) : List String :=
  (parts.enum.filter (fun p => parts.indexOf p.2 = p.1)).map (fun p => p.2)

/-- The tail of `translateUnion`: deduplicate the member translations and
either return the single remaining element or parenthesize the `|`-join. -/
def renderUnionParts (parts : List String) : String :=
  match dedupFirst parts with
  | [p] => p
  | ps => "(" ++ joinSep "|" ps ++ ")"

/-- `typeToDebugString(type)` is a diagnostic rendering interpolated into
warnings and thrown errors; the translator's behavior never depends on its
content, so the model keeps only the flags component. -/
def typeToDebugString (t : Ty) : String :=
  "\x7btype flags:" ++ toString t.flags ++ "\x7d"

/-- `translateEnumLiteral(type)` (it performs no recursive translation). -/
def translateEnumLiteral (env : Env) (t : Ty) (st : St) : String × St :=
  let base := t.enumBase.getD t
  match base.symbol with
  | none => ("?", warnSt st "EnumLiteralType without a symbol")
  | some s0 =>
    let sym? : Option Sym := if base.tid = t.tid then s0.parent else some s0
    match sym? with
    | none => ("?", st)
    | some s =>
      match symbolToString env st s with
      | (none, st1) => ("?", st1)
      | (some nm, st1) => if nm = "" then ("?", st1) else ("!" ++ nm, st1)

/-- The declarations list the early-exit loop of `translate` iterates over:
`type.symbol.declarations || []` when there is a symbol, else nothing. -/
def symbolDecls (t : Ty) : List Decl :=
  match t.symbol with
  | some s => s.decls.getD []
  | none => []

/-- The `isModule` boolean computed at the top of `translate`. -/
def isModuleOf (t : Ty) : Bool :=
  (symbolDecls t).any (fun d => d.sf.isExternalModule)

/-- The `isAmbient` boolean computed at the top of `translate` (any
declaration in a declaration file, or with the ambient modifier anywhere on
its ancestor chain). -/
def isAmbientOf (t : Ty) : Bool :=
  (symbolDecls t).any (fun d => d.sf.isDeclarationFile || ambientInChain d)

/-- The `isInNamespace` boolean computed at the top of `translate` (any
declaration with a module declaration on its ancestor chain, itself
included). -/
def isInNamespaceOf (t : Ty) : Bool :=
  (symbolDecls t).any (fun d => moduleDeclInChain d)

/-! ## The recursive translation -/

mutual

/-- `TypeTranslator.translate(type)`. -/
def translate (env : Env) (t : Ty) (st : St) : Except TErr (String × St) :=
  -- NonPrimitive occurs on its own on the lower case "object" type.
  if t.flags = TypeFlags.NonPrimitive then .ok ("!Object", st)
  -- Avoid infinite loops on recursive type literals.
  else if t.tid ∈ st.seen then .ok ("?", st)
  else
    if isInNamespaceOf t && !isAmbientOf t then .ok ("?", st)
    else if env.isForExterns && isModuleOf t && !isAmbientOf t then .ok ("?", st)
    else
      let masked := t.flags &&& flagsMask
      if masked = TypeFlags.Any then .ok ("?", st)
      else if masked = TypeFlags.Unknown then .ok ("*", st)
      else if masked = TypeFlags.StringF ∨ masked = TypeFlags.StringLiteral then
        .ok ("string", st)
      else if masked = TypeFlags.NumberF ∨ masked = TypeFlags.NumberLiteral then
        .ok ("number", st)
      else if masked = TypeFlags.BooleanF ∨ masked = TypeFlags.BooleanLiteral then
        .ok ("boolean", st)
      else if masked = TypeFlags.Enum then
        match t.symbol with
        | none => .ok ("?", warnSt st "EnumType without a symbol")
        | some s =>
          -- `return this.symbolToString(type.symbol) || '?';`
          match symbolToString env st s with
          | (none, st1) => .ok ("?", st1)
          | (some nm, st1) => .ok (if nm = "" then "?" else nm, st1)
      else if masked = TypeFlags.ESSymbol ∨ masked = TypeFlags.UniqueESSymbol then
        .ok ("symbol", st)
      else if masked = TypeFlags.Void then .ok ("void", st)
      else if masked = TypeFlags.Undefined then .ok ("undefined", st)
      else if masked = TypeFlags.BigIntF then .ok ("bigintPlaceholder", st)
      else if masked = TypeFlags.Null then .ok ("null", st)
      else if masked = TypeFlags.Never then
        .ok ("?", warnSt st "should not emit a 'never' type")
      else if masked = TypeFlags.TypeParameter then
        match t.symbol with
        | none => .ok ("?", warnSt st "TypeParameter without a symbol")
        | some s =>
          let px := if s.flags &&& SymbolFlags.TypeParameter = 0 then "!" else ""
          match symbolToString env st s with
          | (none, st1) => .ok ("?", st1)
          | (some nm, st1) =>
            if nm = "" then .ok ("?", st1) else .ok (px ++ nm, st1)
      else if masked = TypeFlags.ObjectF then translateObject env t st
      else if masked = TypeFlags.Union then translateUnion env t st
      else if masked = TypeFlags.Conditional ∨ masked = TypeFlags.Substitution then
        .ok ("?", warnSt st "emitting ? for conditional/substitution type")
      else if masked = TypeFlags.Intersection ∨ masked = TypeFlags.Index ∨
          masked = TypeFlags.IndexedAccess then
        .ok ("?", warnSt st ("unhandled type flags: " ++ toString t.flags))
      -- default: handle cases where multiple flags are set.
      else if t.flags &&& TypeFlags.Union ≠ 0 then translateUnion env t st
      else if t.flags &&& TypeFlags.EnumLiteral ≠ 0 then
        .ok (translateEnumLiteral env t st)
      else .error (.unknownTypeFlags t.flags)
termination_by sizeOf t * 8 + 5
decreasing_by
  all_goals simp_wf
  all_goals omega

/-- `TypeTranslator.translateUnion(type)`. -/
def translateUnion (env : Env) (t : Ty) (st : St) : Except TErr (String × St) :=
  match translateList env t.unionTypes st with
  | .error e => .error e
  | .ok (parts, st1) => .ok (renderUnionParts parts, st1)
termination_by sizeOf t * 8 + 4
decreasing_by all_goals (simp_wf; have := sizeOf_unionTypes_lt t; omega)

/-- Sequential translation of a list of types (`type.types.map(t => this.translate(t))`
and `typeArguments.map(t => this.translate(t))`, with the instance state
threaded in order). -/
def translateList (env : Env) (ts : List Ty) (st : St) :
    Except TErr (List String × St) :=
  match ts with
  | [] => .ok ([], st)
  | u :: rest =>
    match translate env u st with
    | .error e => .error e
    | .ok (s, st1) =>
      match translateList env rest st1 with
      | .error e => .error e
      | .ok (ss, st2) => .ok (s :: ss, st2)
termination_by sizeOf ts * 8
decreasing_by
  all_goals simp_wf
  all_goals omega

/-- `TypeTranslator.translateObject(type)`. -/
def translateObject (env : Env) (t : Ty) (st : St) : Except TErr (String × St) :=
  if (match t.symbol with
      | some s => isBlackListedInst env s
      | none => false) then .ok ("?", st)
  else if t.objFlags &&& ObjectFlags.Class ≠ 0 then
    match t.symbol with
    | none => .ok ("?", warnSt st "class has no symbol")
    | some s =>
      match symbolToString env st s with
      | (none, st1) => .ok ("?", st1)
      | (some nm, st1) => if nm = "" then .ok ("?", st1) else .ok ("!" ++ nm, st1)
  else if t.objFlags &&& ObjectFlags.Interface ≠ 0 then
    match t.symbol with
    | none => .ok ("?", warnSt st "interface has no symbol")
    | some s =>
      if s.flags &&& SymbolFlags.Value ≠ 0 ∧ isClosureProvidedType s = false then
        .ok ("?", warnSt st
          ("type/symbol conflict for " ++ s.name ++ ", using \x7b?\x7d for now"))
      else
        -- `return '!' + this.symbolToString(type.symbol);` has no falsy
        -- guard: JavaScript coerces an undefined result to "undefined".
        match symbolToString env st s with
        | (none, st1) => .ok ("!undefined", st1)
        | (some nm, st1) => .ok ("!" ++ nm, st1)
  else if t.objFlags &&& ObjectFlags.Reference ≠ 0 then
    match h : t.target with
    | none => .error .referenceLoop
    | some tgt =>
      if tgt.objFlags &&& ObjectFlags.Tuple ≠ 0 then .ok ("!Array<?>", st)
      else if tgt.tid = t.tid then .error .referenceLoop
      else
        match translate env tgt st with
        | .error e => .error e
        | .ok (typeStr, st1) =>
          -- `?<?>` is illegal syntax in Closure Compiler.
          if typeStr = "?" then .ok ("?", st1)
          else
            match h2 : t.typeArgs with
            | none => .ok (typeStr, st1)
            | some args =>
              match translateList env args st1 with
              | .error e => .error e
              | .ok (ps, st2) =>
                .ok (typeStr ++ "<" ++ joinSep ", " ps ++ ">", st2)
  else if t.objFlags &&& ObjectFlags.Anonymous ≠ 0 then
    match t.symbol with
    | none => .ok ("?", warnSt st "anonymous type has no symbol")
    | some s =>
      if s.flags &&& SymbolFlags.FunctionF ≠ 0 ∨ s.flags &&& SymbolFlags.Method ≠ 0 then
        match h : t.callSigs with
        | [sg] => signatureToClosure env sg st
        | _ => .ok ("?", warnSt st "unhandled anonymous type with multiple call signatures")
      else translateAnonymousType env t st
  else .ok ("?", warnSt st ("unhandled type " ++ typeToDebugString t))
termination_by sizeOf t * 8 + 4
decreasing_by
  all_goals simp_wf
  all_goals first
    | omega
    | (have hsz := sizeOf_target_lt h; omega)
    | (have hsz := sizeOf_typeArgs_lt h2; omega)
    | (have hmem : sg ∈ t.callSigs := by rw [h]; exact List.mem_singleton.mpr rfl
       have := sizeOf_callSigs_mem_lt hmem; omega)

/-- `TypeTranslator.translateAnonymousType(type)`. -/
def translateAnonymousType (env : Env) (t : Ty) (st : St) :
    Except TErr (String × St) :=
  -- `this.seenAnonymousTypes.add(type);` happens before anything else.
  let st0 := { st with seen := t.tid :: st.seen }
  match hs : t.symbol with
  | none => .ok ("?", warnSt st0 "anonymous type has no symbol")
  | some s =>
    match hm : s.members with
    | none => .ok ("?", warnSt st0 "anonymous type has no symbol")
    | some mems =>
      match hc : t.ctorSigs with
      | ctor :: _ =>
        match hd : ctor.sigDecl with
        | none =>
          .ok ("?", warnSt st0
            "unhandled anonymous type with constructor signature but no declaration")
        | some d =>
          if d.isJSDoc then
            .ok ("?", warnSt st0 "unhandled JSDoc based constructor signature")
          else
            let st1 := blacklistTypeParameters st0 d.typeParams
            match convertParamsGo env ctor.params d.paramDecls st1 with
            | .error e => .error e
            | .ok (params, st2) =>
              let paramsStr :=
                if params.length ≠ 0 then ", " ++ joinSep ", " params else ""
              match translate env ctor.ret st2 with
              | .error e => .error e
              | .ok (constructedType, st3) =>
                .ok ("function(new: (" ++ constructedType ++ ")" ++ paramsStr ++ "): ?", st3)
      | [] =>
        match anonMembers env mems false false [] st0 with
        | .error e => .error e
        | .ok (callable, indexable, fields, st1) =>
          if fields.isEmpty then
            if callable && !indexable then
              match h : t.callSigs with
              | [sg] => signatureToClosure env sg st1
              | _ => .ok ("?", warnSt st1 "unhandled anonymous type")
            else if indexable && !callable then
              match hi : t.strIndexTy with
              | some valTy =>
                match translate env valTy st1 with
                | .error e => .error e
                | .ok (v, st2) => .ok ("!Object<string," ++ v ++ ">", st2)
              | none =>
                match hn : t.numIndexTy with
                | some valTy =>
                  match translate env valTy st1 with
                  | .error e => .error e
                  | .ok (v, st2) => .ok ("!Object<number," ++ v ++ ">", st2)
                | none => .ok ("!Object<?,?>", warnSt st1 "unknown index key type")
            else if !callable && !indexable then .ok ("*", st1)
            else .ok ("?", warnSt st1 "unhandled anonymous type")
          else
            if !callable && !indexable then
              .ok ("\x7b" ++ joinSep ", " fields ++ "\x7d", st1)
            else .ok ("?", warnSt st1 "unhandled anonymous type")
termination_by sizeOf t * 8 + 3
decreasing_by
  all_goals simp_wf
  all_goals first
    | omega
    | (have hmem : ctor ∈ t.ctorSigs := by rw [hc]; exact List.mem_cons_self _ _
       have h5 := sizeOf_ctorSigs_mem_lt hmem
       first
         | (have hsz := sizeOf_sig_params_lt ctor; omega)
         | (have hsz := sizeOf_sig_ret_lt ctor; omega))
    | (have hsz := sizeOf_members_lt hs hm; omega)
    | (have hmem : sg ∈ t.callSigs := by rw [h]; exact List.mem_singleton.mpr rfl
       have := sizeOf_callSigs_mem_lt hmem; omega)
    | (have hsz := sizeOf_strIndexTy_lt hi; omega)
    | (have hsz := sizeOf_numIndexTy_lt hn; omega)

/-- The member walk of `translateAnonymousType` (the `for (const field of
type.symbol.members.keys())` loop), accumulating the `callable`/`indexable`
flags and the rendered fields. -/
def anonMembers (env : Env) (mems : List (String × Ty))
    (callable indexable : Bool) (fields : List String) (st : St) :
    Except TErr (Bool × Bool × List String × St) :=
  match mems with
  | [] => .ok (callable, indexable, fields, st)
  | (field, mty) :: rest =>
    if field = "__call" then anonMembers env rest true indexable fields st
    else if field = "__index" then anonMembers env rest callable true fields st
    else if !isValidClosurePropertyName field then
      anonMembers env rest callable indexable fields
        (warnSt st ("omitting inexpressible property name: " ++ field))
    else
      match translate env mty st with
      | .error e => .error e
      | .ok (mstr, st1) =>
        anonMembers env rest callable indexable
          (fields ++ [field ++ ": " ++ mstr]) st1
termination_by sizeOf mems * 8
decreasing_by
  all_goals simp_wf
  all_goals omega

/-- `TypeTranslator.signatureToClosure(sig)` up to the `this`-parameter
handling; the rest is `finishSignature`. -/
def signatureToClosure (env : Env) (sg : Sig) (st : St) :
    Except TErr (String × St) :=
  match hd : sg.sigDecl with
  | none => .ok ("Function", warnSt st "signature without declaration")
  | some d =>
    if d.isJSDoc then .ok ("Function", warnSt st "signature with JSDoc declaration")
    else
      let st0 := blacklistTypeParameters st d.typeParams
      match hp : d.paramDecls with
      | p :: rest =>
        if p.nameIsThis then
          match ht : p.thisTy with
          | some tt =>
            match translate env tt st0 with
            | .error e => .error e
            | .ok (tstr, st1) =>
              finishSignature env sg rest
                ("function(" ++ "this: (" ++ tstr ++ ")" ++
                  (if rest.isEmpty then "" else ", ")) st1
          | none =>
            finishSignature env sg rest "function("
              (warnSt st0 "this type without type")
        else finishSignature env sg (p :: rest) "function(" st0
      | [] => finishSignature env sg [] "function(" st0
termination_by sizeOf sg * 8 + 2
decreasing_by
  all_goals simp_wf
  all_goals first
    | omega
    | (have h5 := sizeOf_sigDecl_lt hd
       have hmem : p ∈ d.paramDecls := by rw [hp]; exact List.mem_cons_self _ _
       have h6 := sizeOf_paramDecls_mem_lt hmem
       have h7 := sizeOf_thisTy_lt ht; omega)

/-- The tail of `signatureToClosure`: parameter conversion, closing
parenthesis, and the return type. -/
def finishSignature (env : Env) (sg : Sig) (paramDecls : List PDecl)
    (typeStr : String) (st : St) : Except TErr (String × St) :=
  match convertParamsGo env sg.params paramDecls st with
  | .error e => .error e
  | .ok (params, st1) =>
    let typeStr1 := typeStr ++ joinSep ", " params ++ ")"
    match translate env sg.ret st1 with
    | .error e => .error e
    | .ok (retType, st2) =>
      -- `if (retType) { typeStr += ': ' + retType; }`
      .ok (if retType = "" then typeStr1 else typeStr1 ++ ": " ++ retType, st2)
termination_by sizeOf sg * 8 + 1
decreasing_by
  all_goals simp_wf
  all_goals first
    | (have hsz := sizeOf_sig_params_lt sg; omega)
    | (have hsz := sizeOf_sig_ret_lt sg; omega)

/-- `TypeTranslator.convertParams(sig, paramDecls)`: the loop body, walking
`sig.parameters` (here already resolved to their types at the reference
node) in parallel with the declarations.  Reading `paramDecls[i]` past the
end of the list is the JavaScript `TypeError` modelled by
`TErr.missingParamDecl`; an empty-but-present `typeArguments` array on a
rest parameter makes `typeArguments[0]` undefined and `translate(undefined)`
throw, modelled by `TErr.emptyRestTypeArgs`. -/
def convertParamsGo (env : Env) (params : List Ty) (pds : List PDecl) (st : St) :
    Except TErr (List String × St) :=
  match params with
  | [] => .ok ([], st)
  | p :: ps =>
    match pds with
    | [] => .error .missingParamDecl
    | d :: ds =>
      let optional := d.questionTok
      let varArgs := d.dotsTok
      if varArgs then
        if p.flags &&& TypeFlags.ObjectF = 0 then
          match convertParamsGo env ps ds
              (warnSt st "var args type is not an object type") with
          | .error e => .error e
          | .ok (rest, st1) => .ok ("!Array<?>" :: rest, st1)
        else if p.objFlags &&& ObjectFlags.Reference = 0 then
          match convertParamsGo env ps ds
              (warnSt st "unsupported var args type (not an array reference)") with
          | .error e => .error e
          | .ok (rest, st1) => .ok ("!Array<?>" :: rest, st1)
        else
          match ha : p.typeArgs with
          | none => convertParamsGo env ps ds st
          | some [] => .error .emptyRestTypeArgs
          | some (a :: _) =>
            match translate env a st with
            | .error e => .error e
            | .ok (tstr, st1) =>
              let entry := "..." ++ tstr
              let entry1 := if optional then entry ++ "=" else entry
              match convertParamsGo env ps ds st1 with
              | .error e => .error e
              | .ok (rest, st2) => .ok (entry1 :: rest, st2)
      else
        match translate env p st with
        | .error e => .error e
        | .ok (tstr, st1) =>
          let entry := if optional then tstr ++ "=" else tstr
          match convertParamsGo env ps ds st1 with
          | .error e => .error e
          | .ok (rest, st2) => .ok (entry :: rest, st2)
termination_by sizeOf params * 8
decreasing_by
  all_goals simp_wf
  all_goals first
    | omega
    | (have hsz := sizeOf_ty_typeArgs_head_lt ha; omega)

end

/-! ## Concrete fixtures used by witnesses and counterexamples -/

/-- A trivial oracle environment: no entity names, identity path functions,
no blacklist, externs mode off. -/
def env0 : Env :=
  ⟨false, none, fun s => s, fun s => s, fun _ => none, fun s => s, fun _ m => m, "f.ts"⟩

/-- The empty translator state. -/
def st0 : St := ⟨[], [], []⟩

/-- A bare type with the given identity and flags and no other structure. -/
def tyBase (id fl : Nat) : Ty := .mk id fl 0 none none none [] [] [] none none none

/-! ## Shared helper lemmas -/

/-- The recursion-set early exit of `translate`: a type already in the seen
set translates to `?` with the state untouched, unless its flags are
exactly `NonPrimitive` (that check runs first). -/
theorem translate_seen (env : Env) (t : Ty) (st : St)
    (h1 : t.tid ∈ st.seen) (h2 : t.flags ≠ TypeFlags.NonPrimitive) :
    translate env t st = .ok ("?", st) := by
  rw [translate.eq_def]
  simp [h1, h2]

/-- A bundle of simp lemmas that unfold the numeric flag constants. -/
theorem flag_consts :
    TypeFlags.NonPrimitive = 67108864 ∧ flagsMask = 67108863 := ⟨rfl, rfl⟩

/-- Dispatch lemma: a type whose masked flags equal the Object flag (and
which passes the early exits) is handed to `translateObject`. -/
theorem translate_eq_object (env : Env) (t : Ty) (st : St)
    (hseen : t.tid ∉ st.seen)
    (hmask : t.flags &&& flagsMask = TypeFlags.ObjectF)
    (hns : (isInNamespaceOf t && !isAmbientOf t) = false)
    (hext : (env.isForExterns && isModuleOf t && !isAmbientOf t) = false) :
    translate env t st = translateObject env t st := by
  have hnp : t.flags ≠ TypeFlags.NonPrimitive := by
    intro h
    rw [h] at hmask
    exact absurd hmask (by decide)
  rw [translate.eq_def]
  simp [hnp, hseen, hns, hext, hmask, TypeFlags.ObjectF, TypeFlags.Any,
    TypeFlags.Unknown, TypeFlags.StringF, TypeFlags.StringLiteral,
    TypeFlags.NumberF, TypeFlags.NumberLiteral, TypeFlags.BooleanF,
    TypeFlags.BooleanLiteral, TypeFlags.Enum, TypeFlags.ESSymbol,
    TypeFlags.UniqueESSymbol, TypeFlags.Void, TypeFlags.Undefined,
    TypeFlags.BigIntF, TypeFlags.Null, TypeFlags.Never, TypeFlags.TypeParameter]

/-- Branch lemma: `translateObject` on an anonymous-flagged (and otherwise
unflagged) object type whose symbol is not function/method-flagged and not
blacklisted defers to `translateAnonymousType`. -/
theorem translateObject_eq_anon (env : Env) (t : Ty) (st : St) (s : Sym)
    (hsym : t.symbol = some s)
    (hnotbl : isBlackListedInst env s = false)
    (hcls : t.objFlags &&& ObjectFlags.Class = 0)
    (hintf : t.objFlags &&& ObjectFlags.Interface = 0)
    (href : t.objFlags &&& ObjectFlags.Reference = 0)
    (hanon : t.objFlags &&& ObjectFlags.Anonymous ≠ 0)
    (hfun : s.flags &&& SymbolFlags.FunctionF = 0)
    (hmeth : s.flags &&& SymbolFlags.Method = 0) :
    translateObject env t st = translateAnonymousType env t st := by
  rw [translateObject.eq_def]
  simp [hsym, hnotbl, hcls, hintf, href, hanon, hfun, hmeth]

/-- Branch lemma: `translateAnonymousType` with no construct signatures and
a single ordinary member renders a braced field list (after the member walk
threads the state). -/
theorem translateAnonymousType_single (env : Env) (t : Ty) (st : St)
    (s : Sym) (f : String) (u : Ty)
    (hs : t.symbol = some s)
    (hm : s.members = some [(f, u)])
    (hc : t.ctorSigs = [])
    (hf1 : f ≠ "__call") (hf2 : f ≠ "__index")
    (hfv : isValidClosurePropertyName f = true)
    (mstr : String) (st2 : St)
    (hmember : translate env u { st with seen := t.tid :: st.seen } =
      .ok (mstr, st2)) :
    translateAnonymousType env t st =
      .ok ("\x7b" ++ (f ++ ": " ++ mstr) ++ "\x7d", st2) := by
  rw [translateAnonymousType.eq_def]
  split
  next hs' => rw [hs] at hs'; exact Option.noConfusion hs'
  next s' hs' =>
    rw [hs] at hs'
    injection hs' with hss
    subst hss
    split
    next hm' => rw [hm] at hm'; exact Option.noConfusion hm'
    next mems hm' =>
      rw [hm] at hm'
      injection hm' with hmm
      subst hmm
      split
      next ctor tail hc' => rw [hc] at hc'; exact List.noConfusion hc'
      next hc' =>
        simp only [anonMembers]
        simp [hf1, hf2, hfv, hmember, joinSep]

/-! ## Claim C1 -/

/-- **C1.** For every type whose identity is already in the Recursion Set
when `translate` is entered, the translator returns `"?"` with the state
untouched (so without recursing into the type's structure); the membership
test precedes all dispatch except the exact-NonPrimitive check.
Consequently a type with a recursive anonymous member translates without
divergence, emitting `?` at the recursion point: an anonymous object type
whose member refers back to the type's own identity renders as
`{member: ?}`, the only state change being the Recursion-Set entry that
`translateAnonymousType` adds before descending (the result is independent
of the recursive member's structure). -/
theorem claim_C1 :
    (∀ (env : Env) (t : Ty) (st : St),
        t.tid ∈ st.seen → t.flags ≠ TypeFlags.NonPrimitive →
        translate env t st = .ok ("?", st)) ∧
    (∀ (env : Env) (t : Ty) (st : St) (s : Sym) (f : String) (u : Ty),
        t.flags &&& flagsMask = TypeFlags.ObjectF →
        t.objFlags &&& ObjectFlags.Class = 0 →
        t.objFlags &&& ObjectFlags.Interface = 0 →
        t.objFlags &&& ObjectFlags.Reference = 0 →
        t.objFlags &&& ObjectFlags.Anonymous ≠ 0 →
        t.symbol = some s → s.decls = none →
        s.flags &&& SymbolFlags.FunctionF = 0 →
        s.flags &&& SymbolFlags.Method = 0 →
        s.members = some [(f, u)] →
        t.ctorSigs = [] →
        t.tid ∉ st.seen →
        env.pathBlackList = none →
        f ≠ "__call" → f ≠ "__index" →
        isValidClosurePropertyName f = true →
        u.tid = t.tid →
        u.flags ≠ TypeFlags.NonPrimitive →
        translate env t st =
          .ok ("\x7b" ++ (f ++ ": " ++ "?") ++ "\x7d",
            { st with seen := t.tid :: st.seen })) := by
  constructor
  · exact translate_seen
  · intro env t st s f u hmask hcls hintf href hanon hsym hdecls hfun hmeth hmem
      hctor hseen hbl hf1 hf2 hfv hutid hunp
    have hsd : symbolDecls t = [] := by simp [symbolDecls, hsym, hdecls]
    have hns : (isInNamespaceOf t && !isAmbientOf t) = false := by
      simp [isInNamespaceOf, isAmbientOf, hsd]
    have hext : (env.isForExterns && isModuleOf t && !isAmbientOf t) = false := by
      simp [isModuleOf, hsd]
    have hnotbl : isBlackListedInst env s = false := by
      simp [isBlackListedInst, isBlacklisted, normalizedBlackList, hbl]
    have hmember : translate env u { st with seen := t.tid :: st.seen } =
        .ok ("?", { st with seen := t.tid :: st.seen }) := by
      refine translate_seen env u _ ?_ hunp
      simp [hutid]
    rw [translate_eq_object env t st hseen hmask hns hext,
      translateObject_eq_anon env t st s hsym hnotbl hcls hintf href hanon hfun hmeth,
      translateAnonymousType_single env t st s f u hsym hmem hctor hf1 hf2 hfv
        "?" _ hmember]

/-- The symbol of the concrete recursive anonymous type used as witness. -/
def symRecW : Sym := .mk 11 0 "t" none (some [("self", tyBase 4 524288)]) none

/-- A concrete anonymous object type whose single member `self` has the
type's own identity (id 4), modelling `type A = {self: A}`. -/
def tyRecW : Ty := .mk 4 524288 16 (some symRecW) none none [] [] [] none none none

theorem claim_C1_witness :
    translate env0 (tyBase 1 1) { st0 with seen := [1] } =
      .ok ("?", { st0 with seen := [1] }) ∧
    translate env0 tyRecW st0 =
      .ok ("\x7b" ++ ("self" ++ ": " ++ "?") ++ "\x7d",
        { st0 with seen := tyRecW.tid :: st0.seen }) := by
  constructor
  · exact claim_C1.1 env0 (tyBase 1 1) { st0 with seen := [1] }
      (by decide) (by decide)
  · exact claim_C1.2 env0 tyRecW st0 symRecW "self" (tyBase 4 524288)
      (by decide) (by decide) (by decide) (by decide) (by decide) rfl rfl
      (by decide) (by decide) rfl rfl (by decide) rfl (by decide) (by decide)
      (by decide) rfl (by decide)

/-! ## Claim C2 -/

/-- **C2 (amended).** In externs mode, a type with a symbol some of whose
declarations reside in an external-module source file and none of whose
declarations is ambient translates to `"?"` — provided the type's flags are
not exactly `NonPrimitive` (the `!Object` special case runs before the
externs check, which is what the counterexample exhibits). -/
theorem claim_C2 (env : Env) (t : Ty) (st : St) (s : Sym)
    (hext : env.isForExterns = true)
    (hsym : t.symbol = some s)
    (hmod : isModuleOf t = true)
    (hamb : isAmbientOf t = false)
    (hnp : t.flags ≠ TypeFlags.NonPrimitive) :
    translate env t st = .ok ("?", st) := by
  by_cases hseen : t.tid ∈ st.seen
  · exact translate_seen env t st hseen hnp
  · rw [translate.eq_def]
    simp [hnp, hseen, hamb, hmod, hext]

/-- An external-module (non-declaration) source file. -/
def sfExt : SF := ⟨"m.ts", false, true⟩

/-- A non-ambient declaration residing in `sfExt`. -/
def declExt : Decl := .mk 0 false none sfExt none none

/-- A symbol declared (only) by `declExt`. -/
def symExt : Sym := .mk 20 0 "o" (some [declExt]) none none

/-- A type whose flags are exactly `NonPrimitive` carrying `symExt`. -/
def tyNPx : Ty := .mk 9 67108864 0 (some symExt) none none [] [] [] none none none

/-- A type with flags `Any` carrying `symExt`. -/
def tyAnyExt : Ty := .mk 9 1 0 (some symExt) none none [] [] [] none none none

/-- An externs-mode environment. -/
def envExt : Env :=
  ⟨true, none, fun s => s, fun s => s, fun _ => none, fun s => s, fun _ m => m, "f.ts"⟩

theorem claim_C2_counterexample :
    envExt.isForExterns = true ∧
    tyNPx.symbol = some symExt ∧
    isModuleOf tyNPx = true ∧
    isAmbientOf tyNPx = false ∧
    translate envExt tyNPx st0 = .ok ("!Object", st0) ∧
    "!Object" ≠ "?" := by
  refine ⟨rfl, rfl, by decide, by decide, ?_, by decide⟩
  rw [translate.eq_def]
  simp [tyNPx, Ty.flags, TypeFlags.NonPrimitive]

/-! ## Claim C4 -/

/-- `translateUnion` is exactly: thread `translate` over the members in
order, then deduplicate the strings keeping first occurrences and either
emit the single remaining element or the parenthesized `|`-join. -/
theorem translateUnion_map (env : Env) (t : Ty) (st : St) :
    translateUnion env t st =
      (translateList env t.unionTypes st).map
        (fun r => (renderUnionParts r.1, r.2)) := by
  rw [translateUnion.eq_def]
  cases h : translateList env t.unionTypes st with
  | error e => simp [Except.map]
  | ok r => cases r; simp [Except.map]

/-- **C4.** For every union type (union flag set, and — as for every union
type the checker produces — no symbol and not in the recursion set), the
translation equals: map `translate` over the members in order (threading
the state), remove later duplicates by exact string equality keeping first
occurrences in order, and if exactly one string remains return it,
otherwise join the strings with `|` inside one pair of parentheses. -/
theorem claim_C4 (env : Env) (t : Ty) (st : St)
    (hunion : t.flags &&& TypeFlags.Union ≠ 0)
    (hsym : t.symbol = none)
    (hseen : t.tid ∉ st.seen) :
    translate env t st =
      (translateList env t.unionTypes st).map
        (fun r => (renderUnionParts r.1, r.2)) := by
  have hnp : t.flags ≠ TypeFlags.NonPrimitive := by
    intro h
    rw [h] at hunion
    exact hunion (by decide)
  have hsd : symbolDecls t = [] := by simp [symbolDecls, hsym]
  have hns : (isInNamespaceOf t && !isAmbientOf t) = false := by
    simp [isInNamespaceOf, isAmbientOf, hsd]
  have hext : (env.isForExterns && isModuleOf t && !isAmbientOf t) = false := by
    simp [isModuleOf, hsd]
  have hmb : t.flags &&& flagsMask &&& TypeFlags.Union ≠ 0 := by
    have e : flagsMask &&& TypeFlags.Union = TypeFlags.Union := by decide
    rw [Nat.and_assoc, e]
    exact hunion
  have hne : ∀ c : Nat, c &&& TypeFlags.Union = 0 → t.flags &&& flagsMask ≠ c := by
    intro c hc h
    rw [h, hc] at hmb
    exact hmb rfl
  rw [translate.eq_def, ← translateUnion_map env t st]
  by_cases hm : t.flags &&& flagsMask = TypeFlags.Union
  · simp [hnp, hseen, hns, hext, hm, TypeFlags.Union,
      TypeFlags.Any, TypeFlags.Unknown, TypeFlags.StringF, TypeFlags.StringLiteral,
      TypeFlags.NumberF, TypeFlags.NumberLiteral, TypeFlags.BooleanF,
      TypeFlags.BooleanLiteral, TypeFlags.Enum, TypeFlags.ESSymbol,
      TypeFlags.UniqueESSymbol, TypeFlags.Void, TypeFlags.Undefined,
      TypeFlags.BigIntF, TypeFlags.Null, TypeFlags.Never, TypeFlags.TypeParameter,
      TypeFlags.ObjectF]
  · simp [hnp, hseen, hns, hext, hm, hunion,
      hne 1 (by decide), hne 2 (by decide), hne 4 (by decide), hne 128 (by decide),
      hne 8 (by decide), hne 256 (by decide), hne 16 (by decide), hne 512 (by decide),
      hne 32 (by decide), hne 4096 (by decide), hne 8192 (by decide),
      hne 16384 (by decide), hne 32768 (by decide), hne 64 (by decide),
      hne 65536 (by decide), hne 131072 (by decide), hne 262144 (by decide),
      hne 524288 (by decide), hne 2097152 (by decide), hne 4194304 (by decide),
      hne 8388608 (by decide), hne 16777216 (by decide), hne 33554432 (by decide),
      TypeFlags.Any, TypeFlags.Unknown, TypeFlags.StringF, TypeFlags.StringLiteral,
      TypeFlags.NumberF, TypeFlags.NumberLiteral, TypeFlags.BooleanF,
      TypeFlags.BooleanLiteral, TypeFlags.Enum, TypeFlags.ESSymbol,
      TypeFlags.UniqueESSymbol, TypeFlags.Void, TypeFlags.Undefined,
      TypeFlags.BigIntF, TypeFlags.Null, TypeFlags.Never, TypeFlags.TypeParameter,
      TypeFlags.ObjectF, TypeFlags.Conditional, TypeFlags.Substitution,
      TypeFlags.Intersection, TypeFlags.Index, TypeFlags.IndexedAccess]

/-! ## Claim C9 -/

/-- **C9 (amended).** For every object-kind type (masked flags equal to the
Object flag) whose symbol is blacklisted, `translate` returns `"?"` with
the state unchanged — in particular no warning is recorded: the blacklist
is a silent pass-through.  (The original claim quantified over every kind
of type; the counterexample shows an enum-kind type with a blacklisted
symbol translating to its name instead.) -/
theorem claim_C9 (env : Env) (t : Ty) (st : St) (s : Sym)
    (hmask : t.flags &&& flagsMask = TypeFlags.ObjectF)
    (hsym : t.symbol = some s)
    (hbl : isBlackListedInst env s = true) :
    translate env t st = .ok ("?", st) := by
  have hnp : t.flags ≠ TypeFlags.NonPrimitive := by
    intro h
    rw [h] at hmask
    exact absurd hmask (by decide)
  by_cases hseen : t.tid ∈ st.seen
  · exact translate_seen env t st hseen hnp
  · have hobj : translateObject env t st = .ok ("?", st) := by
      rw [translateObject.eq_def]
      simp [hsym, hbl]
    rw [translate.eq_def]
    simp [hnp, hseen, hmask, hobj, TypeFlags.ObjectF, TypeFlags.Any,
      TypeFlags.Unknown, TypeFlags.StringF, TypeFlags.StringLiteral,
      TypeFlags.NumberF, TypeFlags.NumberLiteral, TypeFlags.BooleanF,
      TypeFlags.BooleanLiteral, TypeFlags.Enum, TypeFlags.ESSymbol,
      TypeFlags.UniqueESSymbol, TypeFlags.Void, TypeFlags.Undefined,
      TypeFlags.BigIntF, TypeFlags.Null, TypeFlags.Never, TypeFlags.TypeParameter]

/-- The source file named by the blacklist fixture. -/
def sfBL : SF := ⟨"bl.ts", false, false⟩

/-- A declaration residing in the blacklisted file. -/
def declBL : Decl := .mk 0 false none sfBL none none

/-- A symbol all of whose declarations are in the blacklisted file. -/
def symBL : Sym := .mk 40 0 "E" (some [declBL]) none none

/-- An environment whose path blacklist contains `bl.ts` and whose checker
resolves any symbol to the single-identifier entity name `E` carrying
`symBL`. -/
def envBL : Env :=
  ⟨false, some ["bl.ts"], fun s => s, fun s => s,
    fun _ => some (.ident symBL "E"), fun s => s, fun _ m => m, "f.ts"⟩

/-- An enum-kind type (flags `Enum`) whose symbol is blacklisted. -/
def tyEnumBL : Ty := .mk 41 32 0 (some symBL) none none [] [] [] none none none

/-- An object-kind class type whose symbol is blacklisted. -/
def tyObjBL : Ty := .mk 42 524288 1 (some symBL) none none [] [] [] none none none

theorem claim_C9_counterexample :
    isBlackListedInst envBL symBL = true ∧
    translate envBL tyEnumBL st0 = .ok ("E", st0) ∧
    "E" ≠ "?" := by
  refine ⟨by decide, ?_, by decide⟩
  have em : (32 : Nat) &&& 67108863 = 32 := by decide
  rw [translate.eq_def]
  simp [tyEnumBL, symBL, declBL, sfBL, envBL, st0, Ty.flags, Ty.tid, Ty.symbol,
    isInNamespaceOf, isAmbientOf, isModuleOf, symbolDecls, moduleDeclInChain,
    ambientInChain, Decl.sf, Decl.parentFile, Decl.parentDecl, Decl.modFlags,
    Decl.isModuleDecl, SF.isExternalModule, SF.isDeclarationFile, flagsMask, em,
    TypeFlags.NonPrimitive, TypeFlags.Any, TypeFlags.Unknown, TypeFlags.StringF,
    TypeFlags.StringLiteral, TypeFlags.NumberF, TypeFlags.NumberLiteral,
    TypeFlags.BooleanF, TypeFlags.BooleanLiteral, TypeFlags.Enum,
    symbolToString, ensureStep, SymbolFlags.TypeParameter, Sym.flags, Sym.sid,
    Sym.decls, writeEntity, writeSegment, aliasGet, SymbolFlags.Alias,
    maybeGetMangledNamePrefix, isTopLevelExternal,
    getContainingAmbientModuleDeclaration, stripClutzNamespace]
  decide

theorem claim_C9_witness :
    tyObjBL.flags &&& flagsMask = TypeFlags.ObjectF ∧
    isBlackListedInst envBL symBL = true ∧
    translate envBL tyObjBL st0 = .ok ("?", st0) :=
  ⟨by decide, by decide, claim_C9 envBL tyObjBL st0 symBL (by decide) rfl (by decide)⟩

/-! ## The input contract (for claims C7 and C10) -/

/-- Whether `translate`'s primary dispatch covers the type's flags: masked
flags matching one of the switch cases, the union or enum-literal bit set
(the default case's two recoveries), or the `NonPrimitive` early return.
Exactly the complement triggers `throw new Error('unknown type flags ...')`. -/
def coveredFlags (t : Ty) : Bool :=
  let m := t.flags &&& flagsMask
  (t.flags == TypeFlags.NonPrimitive) || (m == 1) || (m == 2) || (m == 4) ||
  (m == 128) || (m == 8) || (m == 256) || (m == 16) || (m == 512) ||
  (m == 32) || (m == 4096) || (m == 8192) || (m == 16384) || (m == 32768) ||
  (m == 64) || (m == 65536) || (m == 131072) || (m == 262144) ||
  (m == 524288) || (m == 1048576) || (m == 16777216) || (m == 33554432) ||
  (m == 2097152) || (m == 4194304) || (m == 8388608) ||
  (t.flags &&& TypeFlags.Union != 0) || (t.flags &&& TypeFlags.EnumLiteral != 0)

/-- For reference-flagged types: the target exists and is not the type
itself (the self-cycle `throw`), unless the tuple special case applies. -/
def refCond (t : Ty) : Bool :=
  if t.objFlags &&& ObjectFlags.Reference != 0 then
    match t.target with
    | none => false
    | some g => (g.objFlags &&& ObjectFlags.Tuple != 0) || (g.tid != t.tid)
  else true

/-- A rest-parameter type with the reference flag must not carry an
empty-but-present type-argument list (else `typeArguments[0]` is undefined
and `translate(undefined)` throws a `TypeError`). -/
def noEmptyRefArgs (p : Ty) : Bool :=
  match p.typeArgs with
  | some [] => p.objFlags &&& ObjectFlags.Reference == 0
  | _ => true

/-- The parameter-declaration list `signatureToClosure` hands to
`convertParams` after consuming a leading `this` parameter. -/
def effParamDecls (d : SigDecl) : List PDecl :=
  match d.paramDecls with
  | [] => []
  | p :: rest => if p.nameIsThis then rest else p :: rest

mutual

/-- The upstream API contract on a type tree, sufficient for `translate` to
return normally: dispatch coverage and reference sanity at every node, and
signature declarations listing at least as many parameter declarations as
the signature has parameters. -/
def goodTy (t : Ty) : Bool :=
  coveredFlags t && refCond t &&
  (match htg : t.target with | some g => goodTy g | none => true) &&
  (match hta : t.typeArgs with | some l => goodTyList l | none => true) &&
  goodTyList t.unionTypes &&
  goodSigList t.ctorSigs && goodSigList t.callSigs &&
  (match hsi : t.strIndexTy with | some u => goodTy u | none => true) &&
  (match hni : t.numIndexTy with | some u => goodTy u | none => true) &&
  (match hs : t.symbol with
   | some s =>
     (match hm : s.members with
      | some mems => goodMembers mems
      | none => true)
   | none => true)
termination_by sizeOf t * 2 + 1
decreasing_by
  all_goals simp_wf
  all_goals first
    | (have hsz := sizeOf_target_lt htg; omega)
    | (have hsz := sizeOf_typeArgs_lt hta; omega)
    | (have hsz := sizeOf_unionTypes_lt t; omega)
    | (have hsz := sizeOf_ctorSigsList_lt t; omega)
    | (have hsz := sizeOf_callSigsList_lt t; omega)
    | (have hsz := sizeOf_strIndexTy_lt hsi; omega)
    | (have hsz := sizeOf_numIndexTy_lt hni; omega)
    | (have hsz := sizeOf_members_lt hs hm; omega)
    | omega

def goodTyList (l : List Ty) : Bool :=
  match l with
  | [] => true
  | u :: rest => goodTy u && goodTyList rest
termination_by sizeOf l * 2 + 1
decreasing_by all_goals simp_wf <;> omega

def goodMembers (l : List (String × Ty)) : Bool :=
  match l with
  | [] => true
  | (_, u) :: rest => goodTy u && goodMembers rest
termination_by sizeOf l * 2 + 1
decreasing_by all_goals simp_wf <;> omega

def goodSigList (l : List Sig) : Bool :=
  match l with
  | [] => true
  | sg :: rest => goodSig sg && goodSigList rest
termination_by sizeOf l * 2 + 1
decreasing_by all_goals simp_wf <;> omega

def goodSig (sg : Sig) : Bool :=
  goodTyList sg.params && goodTy sg.ret &&
  sg.params.all noEmptyRefArgs &&
  (match hd : sg.sigDecl with
   | none => true
   | some d =>
     d.isJSDoc ||
     (decide (sg.params.length ≤ d.paramDecls.length) &&
      decide (sg.params.length ≤ (effParamDecls d).length) &&
      goodPDecls d.paramDecls))
termination_by sizeOf sg * 2 + 1
decreasing_by
  all_goals simp_wf
  all_goals first
    | (have hsz := sizeOf_sig_params_lt sg; omega)
    | (have hsz := sizeOf_sig_ret_lt sg; omega)
    | (have h1 := sizeOf_sigDecl_lt hd
       cases d with
       | mk a b c =>
         simp only [SigDecl.paramDecls]
         simp at h1 ⊢
         omega)

def goodPDecls (l : List PDecl) : Bool :=
  match l with
  | [] => true
  | p :: rest =>
    (match hth : p.thisTy with | some tt => goodTy tt | none => true) && goodPDecls rest
termination_by sizeOf l * 2 + 1
decreasing_by
  all_goals simp_wf
  all_goals first
    | (have h1 := sizeOf_thisTy_lt hth; omega)
    | omega

end

/-! ### Extraction lemmas for the input contract -/

theorem goodTyList_cons (u : Ty) (rest : List Ty) :
    goodTyList (u :: rest) = (goodTy u && goodTyList rest) := by
  rw [goodTyList.eq_def]

theorem band_true {a b : Bool} (h : (a && b) = true) : a = true ∧ b = true := by
  simp only [Bool.and_eq_true] at h
  exact h

theorem goodTyList_head {u : Ty} {rest : List Ty}
    (h : goodTyList (u :: rest) = true) : goodTy u = true :=
  (band_true (goodTyList_cons u rest ▸ h)).1

theorem goodTyList_tail {u : Ty} {rest : List Ty}
    (h : goodTyList (u :: rest) = true) : goodTyList rest = true :=
  (band_true (goodTyList_cons u rest ▸ h)).2

theorem goodMembers_cons (f : String) (u : Ty) (rest : List (String × Ty)) :
    goodMembers ((f, u) :: rest) = (goodTy u && goodMembers rest) := by
  rw [goodMembers.eq_def]

theorem goodMembers_head {f : String} {u : Ty} {rest : List (String × Ty)}
    (h : goodMembers ((f, u) :: rest) = true) : goodTy u = true :=
  (band_true (goodMembers_cons f u rest ▸ h)).1

theorem goodMembers_tail {f : String} {u : Ty} {rest : List (String × Ty)}
    (h : goodMembers ((f, u) :: rest) = true) : goodMembers rest = true :=
  (band_true (goodMembers_cons f u rest ▸ h)).2

theorem goodSigList_cons (sg : Sig) (rest : List Sig) :
    goodSigList (sg :: rest) = (goodSig sg && goodSigList rest) := by
  rw [goodSigList.eq_def]

theorem goodSigList_of_eq {l : List Sig} {sg : Sig} {rest : List Sig}
    (h : goodSigList l = true) (he : l = sg :: rest) : goodSig sg = true := by
  subst he
  exact (band_true (goodSigList_cons sg rest ▸ h)).1

theorem goodTy_covered {t : Ty} (h : goodTy t = true) : coveredFlags t = true := by
  rw [goodTy.eq_def] at h
  simp only [Bool.and_eq_true] at h
  obtain ⟨⟨⟨⟨⟨⟨⟨⟨⟨hg1, hg2⟩, hg3⟩, hg4⟩, hg5⟩, hg6⟩, hg7⟩, hg8⟩, hg9⟩, hg10⟩ := h
  exact hg1

theorem goodTy_refCond {t : Ty} (h : goodTy t = true) : refCond t = true := by
  rw [goodTy.eq_def] at h
  simp only [Bool.and_eq_true] at h
  obtain ⟨⟨⟨⟨⟨⟨⟨⟨⟨hg1, hg2⟩, hg3⟩, hg4⟩, hg5⟩, hg6⟩, hg7⟩, hg8⟩, hg9⟩, hg10⟩ := h
  exact hg2

theorem goodTy_target {t g : Ty} (h : goodTy t = true) (hg : t.target = some g) :
    goodTy g = true := by
  rw [goodTy.eq_def] at h
  simp only [Bool.and_eq_true] at h
  obtain ⟨⟨⟨⟨⟨⟨⟨⟨⟨hg1, hg2⟩, hg3⟩, hg4⟩, hg5⟩, hg6⟩, hg7⟩, hg8⟩, hg9⟩, hg10⟩ := h
  split at hg3
  next g' heq => rw [hg] at heq; injection heq with e; subst e; exact hg3
  next heq => rw [hg] at heq; cases heq

theorem goodTy_typeArgs {t : Ty} {l : List Ty} (h : goodTy t = true)
    (hg : t.typeArgs = some l) : goodTyList l = true := by
  rw [goodTy.eq_def] at h
  simp only [Bool.and_eq_true] at h
  obtain ⟨⟨⟨⟨⟨⟨⟨⟨⟨hg1, hg2⟩, hg3⟩, hg4⟩, hg5⟩, hg6⟩, hg7⟩, hg8⟩, hg9⟩, hg10⟩ := h
  split at hg4
  next l' heq => rw [hg] at heq; injection heq with e; subst e; exact hg4
  next heq => rw [hg] at heq; cases heq

theorem goodTy_unionTypes {t : Ty} (h : goodTy t = true) :
    goodTyList t.unionTypes = true := by
  rw [goodTy.eq_def] at h
  simp only [Bool.and_eq_true] at h
  obtain ⟨⟨⟨⟨⟨⟨⟨⟨⟨hg1, hg2⟩, hg3⟩, hg4⟩, hg5⟩, hg6⟩, hg7⟩, hg8⟩, hg9⟩, hg10⟩ := h
  exact hg5

theorem goodTy_ctorSigs {t : Ty} (h : goodTy t = true) :
    goodSigList t.ctorSigs = true := by
  rw [goodTy.eq_def] at h
  simp only [Bool.and_eq_true] at h
  obtain ⟨⟨⟨⟨⟨⟨⟨⟨⟨hg1, hg2⟩, hg3⟩, hg4⟩, hg5⟩, hg6⟩, hg7⟩, hg8⟩, hg9⟩, hg10⟩ := h
  exact hg6

theorem goodTy_callSigs {t : Ty} (h : goodTy t = true) :
    goodSigList t.callSigs = true := by
  rw [goodTy.eq_def] at h
  simp only [Bool.and_eq_true] at h
  obtain ⟨⟨⟨⟨⟨⟨⟨⟨⟨hg1, hg2⟩, hg3⟩, hg4⟩, hg5⟩, hg6⟩, hg7⟩, hg8⟩, hg9⟩, hg10⟩ := h
  exact hg7

theorem goodTy_strIndex {t u : Ty} (h : goodTy t = true)
    (hg : t.strIndexTy = some u) : goodTy u = true := by
  rw [goodTy.eq_def] at h
  simp only [Bool.and_eq_true] at h
  obtain ⟨⟨⟨⟨⟨⟨⟨⟨⟨hg1, hg2⟩, hg3⟩, hg4⟩, hg5⟩, hg6⟩, hg7⟩, hg8⟩, hg9⟩, hg10⟩ := h
  split at hg8
  next u' heq => rw [hg] at heq; injection heq with e; subst e; exact hg8
  next heq => rw [hg] at heq; cases heq

theorem goodTy_numIndex {t u : Ty} (h : goodTy t = true)
    (hg : t.numIndexTy = some u) : goodTy u = true := by
  rw [goodTy.eq_def] at h
  simp only [Bool.and_eq_true] at h
  obtain ⟨⟨⟨⟨⟨⟨⟨⟨⟨hg1, hg2⟩, hg3⟩, hg4⟩, hg5⟩, hg6⟩, hg7⟩, hg8⟩, hg9⟩, hg10⟩ := h
  split at hg9
  next u' heq => rw [hg] at heq; injection heq with e; subst e; exact hg9
  next heq => rw [hg] at heq; cases heq

theorem goodTy_members {t : Ty} {s : Sym} {mems : List (String × Ty)}
    (h : goodTy t = true) (hs : t.symbol = some s)
    (hm : s.members = some mems) : goodMembers mems = true := by
  rw [goodTy.eq_def] at h
  simp only [Bool.and_eq_true] at h
  obtain ⟨⟨⟨⟨⟨⟨⟨⟨⟨hg1, hg2⟩, hg3⟩, hg4⟩, hg5⟩, hg6⟩, hg7⟩, hg8⟩, hg9⟩, hg10⟩ := h
  split at hg10
  next s' heq =>
    rw [hs] at heq
    injection heq with e
    subst e
    split at hg10
    next mems' heq2 => rw [hm] at heq2; injection heq2 with e2; subst e2; exact hg10
    next heq2 => rw [hm] at heq2; cases heq2
  next heq => rw [hs] at heq; cases heq

theorem goodSig_params {sg : Sig} (h : goodSig sg = true) :
    goodTyList sg.params = true := by
  rw [goodSig.eq_def] at h
  simp only [Bool.and_eq_true] at h
  obtain ⟨⟨⟨hs1, hs2⟩, hs3⟩, hs4⟩ := h
  exact hs1

theorem goodSig_ret {sg : Sig} (h : goodSig sg = true) : goodTy sg.ret = true := by
  rw [goodSig.eq_def] at h
  simp only [Bool.and_eq_true] at h
  obtain ⟨⟨⟨hs1, hs2⟩, hs3⟩, hs4⟩ := h
  exact hs2

theorem goodSig_noEmpty {sg : Sig} (h : goodSig sg = true) :
    sg.params.all noEmptyRefArgs = true := by
  rw [goodSig.eq_def] at h
  simp only [Bool.and_eq_true] at h
  obtain ⟨⟨⟨hs1, hs2⟩, hs3⟩, hs4⟩ := h
  exact hs3

theorem goodSig_declFacts {sg : Sig} {d : SigDecl} (h : goodSig sg = true)
    (hd : sg.sigDecl = some d) (hj : d.isJSDoc = false) :
    sg.params.length ≤ d.paramDecls.length ∧
    sg.params.length ≤ (effParamDecls d).length ∧
    goodPDecls d.paramDecls = true := by
  rw [goodSig.eq_def] at h
  simp only [Bool.and_eq_true] at h
  obtain ⟨⟨⟨hs1, hs2⟩, hs3⟩, h4⟩ := h
  split at h4
  next heq => rw [hd] at heq; cases heq
  next d' heq =>
    rw [hd] at heq
    injection heq with e
    subst e
    rw [hj] at h4
    simp only [Bool.false_or, Bool.and_eq_true, decide_eq_true_eq] at h4
    exact ⟨h4.1.1, h4.1.2, h4.2⟩

theorem goodPDecls_cons_thisTy {p : PDecl} {rest : List PDecl} {tt : Ty}
    (h : goodPDecls (p :: rest) = true) (ht : p.thisTy = some tt) :
    goodTy tt = true := by
  rw [goodPDecls.eq_def] at h
  simp only [Bool.and_eq_true] at h
  obtain ⟨h1, hrest⟩ := h
  split at h1
  next tt' heq => rw [ht] at heq; injection heq with e; subst e; exact h1
  next heq => rw [ht] at heq; cases heq

theorem effParamDecls_of_this {d : SigDecl} {p : PDecl} {rest : List PDecl}
    (h : d.paramDecls = p :: rest) (ht : p.nameIsThis = true) :
    effParamDecls d = rest := by
  simp [effParamDecls, h, ht]

theorem effParamDecls_of_not_this {d : SigDecl} {p : PDecl} {rest : List PDecl}
    (h : d.paramDecls = p :: rest) (ht : p.nameIsThis = false) :
    effParamDecls d = p :: rest := by
  simp [effParamDecls, h, ht]

/-- An `Except.ok` value trivially satisfies the success existential. -/
theorem exists_okg {α β : Type} (x : α × β) :
    ∃ r s, (Except.ok x : Except TErr (α × β)) = .ok (r, s) :=
  ⟨x.1, x.2, congrArg Except.ok (Prod.mk.eta).symm⟩

instance : Nonempty St := ⟨⟨[], [], []⟩⟩

theorem nne {a : Nat} (h : ¬a ≠ 0) : a = 0 := not_ne_iff.mp h

theorem err_absurd {α β : Type} {x : Except TErr (α × β)} {e : TErr}
    (h1 : x = .error e) (h2 : ∃ r s, x = .ok (r, s)) : False := by
  rcases h2 with ⟨r, s, h⟩
  rw [h1] at h
  cases h

set_option maxHeartbeats 1000000 in
/-- Totality of the translator on contract-satisfying inputs: on every
type tree satisfying `goodTy` (and correspondingly good signatures,
lists and members), each function of the mutual `translate` block
returns `Except.ok`.  Proven by the functional induction principle of
the mutual block, one case per source branch. -/
theorem ok_pack (env : Env) :
    (∀ (t : Ty) (st : St), goodTy t = true →
        ∃ r st', translate env t st = .ok (r, st')) ∧
    (∀ (t : Ty) (st : St), goodTyList t.unionTypes = true →
        ∃ r st', translateUnion env t st = .ok (r, st')) ∧
    (∀ (l : List Ty) (st : St), goodTyList l = true →
        ∃ rs st', translateList env l st = .ok (rs, st')) ∧
    (∀ (t : Ty) (st : St), goodTy t = true →
        ∃ r st', translateObject env t st = .ok (r, st')) ∧
    (∀ (t : Ty) (st : St), goodTy t = true →
        ∃ r st', translateAnonymousType env t st = .ok (r, st')) ∧
    (∀ (sg : Sig) (st : St), goodSig sg = true →
        ∃ r st', signatureToClosure env sg st = .ok (r, st')) ∧
    (∀ (sg : Sig) (pds : List PDecl) (ts : String) (st : St),
        goodTyList sg.params = true → goodTy sg.ret = true →
        sg.params.all noEmptyRefArgs = true → sg.params.length ≤ pds.length →
        ∃ r st', finishSignature env sg pds ts st = .ok (r, st')) ∧
    (∀ (params : List Ty) (pds : List PDecl) (st : St),
        goodTyList params = true → params.all noEmptyRefArgs = true →
        params.length ≤ pds.length →
        ∃ rs st', convertParamsGo env params pds st = .ok (rs, st')) ∧
    (∀ (mems : List (String × Ty)) (c i : Bool) (fs : List String) (st : St),
        goodMembers mems = true →
        ∃ out st', anonMembers env mems c i fs st = .ok (out, st')) := by
  apply translate.mutual_induct env
  case case1 =>
    intro t st h1 hg
    rw [translate.eq_def]
    simp [h1]
    all_goals exact exists_okg _
  case case2 =>
    intro t st h1 h2 hg
    rw [translate.eq_def]
    simp [h1, h2]
    all_goals exact exists_okg _
  case case3 =>
    intro t st h1 h2 h3 hg
    rw [translate.eq_def]
    simp [h1, h2, h3]
    all_goals exact exists_okg _
  case case4 =>
    intro t st h1 h2 h3 h4 hg
    rw [translate.eq_def]
    simp [h1, h2, h3, h4]
    all_goals exact exists_okg _
  case case5 =>
    intro t st h1 h2 h3 h4 masked hp5 hg
    have hmd : masked = t.flags &&& flagsMask := rfl
    clear_value masked
    subst hmd
    rw [translate.eq_def]
    simp [h1, h2, h3, h4, hp5]
    all_goals exact exists_okg _
  case case6 =>
    intro t st h1 h2 h3 h4 masked h5 hp6 hg
    have hmd : masked = t.flags &&& flagsMask := rfl
    clear_value masked
    subst hmd
    rw [translate.eq_def]
    simp [h1, h2, h3, h4, h5, hp6]
    all_goals exact exists_okg _
  case case7 =>
    intro t st h1 h2 h3 h4 masked h5 h6 hp7 hg
    have hmd : masked = t.flags &&& flagsMask := rfl
    clear_value masked
    subst hmd
    rw [translate.eq_def]
    simp [h1, h2, h3, h4, h5, h6, hp7]
    all_goals exact exists_okg _
  case case8 =>
    intro t st h1 h2 h3 h4 masked h5 h6 h7 hp8 hg
    have hmd : masked = t.flags &&& flagsMask := rfl
    clear_value masked
    subst hmd
    rw [translate.eq_def]
    simp [h1, h2, h3, h4, h5, h6, h7, hp8]
    all_goals exact exists_okg _
  case case9 =>
    intro t st h1 h2 h3 h4 masked h5 h6 h7 h8 hp9 hg
    have hmd : masked = t.flags &&& flagsMask := rfl
    clear_value masked
    subst hmd
    rw [translate.eq_def]
    simp [h1, h2, h3, h4, h5, h6, h7, h8, hp9]
    all_goals exact exists_okg _
  case case10 =>
    intro t st h1 h2 h3 h4 masked h5 h6 h7 h8 h9 hp hsy hg
    have hmd : masked = t.flags &&& flagsMask := rfl
    clear_value masked
    subst hmd
    rw [translate.eq_def]
    simp [h1, h2, h3, h4, h5, h6, h7, h8, h9, hp, hsy]
    all_goals exact exists_okg _
  case case11 =>
    intro t st h1 h2 h3 h4 masked h5 h6 h7 h8 h9 hp sym hsy st1 hss hg
    have hmd : masked = t.flags &&& flagsMask := rfl
    clear_value masked
    subst hmd
    rw [translate.eq_def]
    simp [h1, h2, h3, h4, h5, h6, h7, h8, h9, hp, hsy, hss]
    all_goals exact exists_okg _
  case case12 =>
    intro t st h1 h2 h3 h4 masked h5 h6 h7 h8 h9 hp sym hsy nm st1 hss hg
    have hmd : masked = t.flags &&& flagsMask := rfl
    clear_value masked
    subst hmd
    rw [translate.eq_def]
    simp [h1, h2, h3, h4, h5, h6, h7, h8, h9, hp, hsy, hss]
    all_goals exact exists_okg _
  case case13 =>
    intro t st h1 h2 h3 h4 masked h5 h6 h7 h8 h9 h10 hp13 hg
    have hmd : masked = t.flags &&& flagsMask := rfl
    clear_value masked
    subst hmd
    rw [translate.eq_def]
    simp [h1, h2, h3, h4, h5, h6, h7, h8, h9, h10, hp13]
    all_goals exact exists_okg _
  case case14 =>
    intro t st h1 h2 h3 h4 masked h5 h6 h7 h8 h9 h10 h11 hp14 hg
    have hmd : masked = t.flags &&& flagsMask := rfl
    clear_value masked
    subst hmd
    rw [translate.eq_def]
    simp [h1, h2, h3, h4, h5, h6, h7, h8, h9, h10, h11, hp14]
    all_goals exact exists_okg _
  case case15 =>
    intro t st h1 h2 h3 h4 masked h5 h6 h7 h8 h9 h10 h11 h12 hp15 hg
    have hmd : masked = t.flags &&& flagsMask := rfl
    clear_value masked
    subst hmd
    rw [translate.eq_def]
    simp [h1, h2, h3, h4, h5, h6, h7, h8, h9, h10, h11, h12, hp15]
    all_goals exact exists_okg _
  case case16 =>
    intro t st h1 h2 h3 h4 masked h5 h6 h7 h8 h9 h10 h11 h12 h13 hp16 hg
    have hmd : masked = t.flags &&& flagsMask := rfl
    clear_value masked
    subst hmd
    rw [translate.eq_def]
    simp [h1, h2, h3, h4, h5, h6, h7, h8, h9, h10, h11, h12, h13, hp16]
    all_goals exact exists_okg _
  case case17 =>
    intro t st h1 h2 h3 h4 masked h5 h6 h7 h8 h9 h10 h11 h12 h13 h14 hp17 hg
    have hmd : masked = t.flags &&& flagsMask := rfl
    clear_value masked
    subst hmd
    rw [translate.eq_def]
    simp [h1, h2, h3, h4, h5, h6, h7, h8, h9, h10, h11, h12, h13, h14, hp17]
    all_goals exact exists_okg _
  case case18 =>
    intro t st h1 h2 h3 h4 masked h5 h6 h7 h8 h9 h10 h11 h12 h13 h14 h15 hp18 hg
    have hmd : masked = t.flags &&& flagsMask := rfl
    clear_value masked
    subst hmd
    rw [translate.eq_def]
    simp [h1, h2, h3, h4, h5, h6, h7, h8, h9, h10, h11, h12, h13, h14, h15, hp18]
    all_goals exact exists_okg _
  case case19 =>
    intro t st h1 h2 h3 h4 masked h5 h6 h7 h8 h9 h10 h11 h12 h13 h14 h15 h16 hp hsy hg
    have hmd : masked = t.flags &&& flagsMask := rfl
    clear_value masked
    subst hmd
    rw [translate.eq_def]
    simp [h1, h2, h3, h4, h5, h6, h7, h8, h9, h10, h11, h12, h13, h14, h15, h16, hp, hsy]
    all_goals exact exists_okg _
  case case20 =>
    intro t st h1 h2 h3 h4 masked h5 h6 h7 h8 h9 h10 h11 h12 h13 h14 h15 h16 hp sym hsy st1 hss hg
    have hmd : masked = t.flags &&& flagsMask := rfl
    clear_value masked
    subst hmd
    rw [translate.eq_def]
    simp [h1, h2, h3, h4, h5, h6, h7, h8, h9, h10, h11, h12, h13, h14, h15, h16, hp, hsy, hss]
    all_goals exact exists_okg _
  case case21 =>
    intro t st h1 h2 h3 h4 masked h5 h6 h7 h8 h9 h10 h11 h12 h13 h14 h15 h16 hp sym hsy st1 hss hg
    have hmd : masked = t.flags &&& flagsMask := rfl
    clear_value masked
    subst hmd
    rw [translate.eq_def]
    simp [h1, h2, h3, h4, h5, h6, h7, h8, h9, h10, h11, h12, h13, h14, h15, h16, hp, hsy, hss]
    all_goals exact exists_okg _
  case case22 =>
    intro t st h1 h2 h3 h4 masked h5 h6 h7 h8 h9 h10 h11 h12 h13 h14 h15 h16 hp sym hsy nm st1 hss hne hg
    have hmd : masked = t.flags &&& flagsMask := rfl
    clear_value masked
    subst hmd
    rw [translate.eq_def]
    simp [h1, h2, h3, h4, h5, h6, h7, h8, h9, h10, h11, h12, h13, h14, h15, h16, hp, hsy, hss, hne]
    all_goals exact exists_okg _
  case case23 =>
    intro t st h1 h2 h3 h4 masked h5 h6 h7 h8 h9 h10 h11 h12 h13 h14 h15 h16 h17 hp ih hg
    have hmd : masked = t.flags &&& flagsMask := rfl
    clear_value masked
    subst hmd
    rw [translate.eq_def]
    simp [h1, h2, h3, h4, h5, h6, h7, h8, h9, h10, h11, h12, h13, h14, h15, h16, h17, hp]
    exact ih hg
  case case24 =>
    intro t st h1 h2 h3 h4 masked h5 h6 h7 h8 h9 h10 h11 h12 h13 h14 h15 h16 h17 h18 hp ih hg
    have hmd : masked = t.flags &&& flagsMask := rfl
    clear_value masked
    subst hmd
    rw [translate.eq_def]
    simp [h1, h2, h3, h4, h5, h6, h7, h8, h9, h10, h11, h12, h13, h14, h15, h16, h17, h18, hp]
    exact ih (goodTy_unionTypes hg)
  case case25 =>
    intro t st h1 h2 h3 h4 masked h5 h6 h7 h8 h9 h10 h11 h12 h13 h14 h15 h16 h17 h18 h19 hp hg
    have hmd : masked = t.flags &&& flagsMask := rfl
    clear_value masked
    subst hmd
    rw [translate.eq_def]
    simp [h1, h2, h3, h4, h5, h6, h7, h8, h9, h10, h11, h12, h13, h14, h15, h16, h17, h18, h19, hp]
    all_goals exact exists_okg _
  case case26 =>
    intro t st h1 h2 h3 h4 masked h5 h6 h7 h8 h9 h10 h11 h12 h13 h14 h15 h16 h17 h18 h19 h20 hp hg
    have hmd : masked = t.flags &&& flagsMask := rfl
    clear_value masked
    subst hmd
    rw [translate.eq_def]
    simp [h1, h2, h3, h4, h5, h6, h7, h8, h9, h10, h11, h12, h13, h14, h15, h16, h17, h18, h19, h20, hp]
    all_goals exact exists_okg _
  case case27 =>
    intro t st h1 h2 h3 h4 masked h5 h6 h7 h8 h9 h10 h11 h12 h13 h14 h15 h16 h17 h18 h19 h20 h21 hp ih hg
    have hmd : masked = t.flags &&& flagsMask := rfl
    clear_value masked
    subst hmd
    rw [translate.eq_def]
    simp [h1, h2, h3, h4, h5, h6, h7, h8, h9, h10, h11, h12, h13, h14, h15, h16, h17, h18, h19, h20, h21, hp]
    exact ih (goodTy_unionTypes hg)
  case case28 =>
    intro t st h1 h2 h3 h4 masked h5 h6 h7 h8 h9 h10 h11 h12 h13 h14 h15 h16 h17 h18 h19 h20 h21 h22 hp hg
    have hmd : masked = t.flags &&& flagsMask := rfl
    clear_value masked
    subst hmd
    rw [translate.eq_def]
    simp [h1, h2, h3, h4, h5, h6, h7, h8, h9, h10, h11, h12, h13, h14, h15, h16, h17, h18, h19, h20, h21, h22, hp]
    all_goals exact ⟨_, _, (Prod.mk.eta).symm⟩
  case case29 =>
    intro t st h1 h2 h3 h4 masked h5 h6 h7 h8 h9 h10 h11 h12 h13 h14 h15 h16 h17 h18 h19 h20 h21 h22 h23 hg
    exfalso
    have hmd : masked = t.flags &&& flagsMask := rfl
    clear_value masked
    subst hmd
    have hc := goodTy_covered hg
    simp only [coveredFlags, flagsMask, TypeFlags.NonPrimitive, TypeFlags.Any,
      TypeFlags.Unknown, TypeFlags.StringF, TypeFlags.StringLiteral,
      TypeFlags.NumberF, TypeFlags.NumberLiteral, TypeFlags.BooleanF,
      TypeFlags.BooleanLiteral, TypeFlags.Enum, TypeFlags.ESSymbol,
      TypeFlags.UniqueESSymbol, TypeFlags.Void, TypeFlags.Undefined,
      TypeFlags.BigIntF, TypeFlags.Null, TypeFlags.Never,
      TypeFlags.TypeParameter, TypeFlags.ObjectF, TypeFlags.Union,
      TypeFlags.Conditional, TypeFlags.Substitution, TypeFlags.Intersection,
      TypeFlags.Index, TypeFlags.IndexedAccess, TypeFlags.EnumLiteral,
      Bool.or_eq_true, beq_iff_eq, bne_iff_ne, ne_eq] at hc h1 h5 h6 h7 h8 h9 h10 h11 h12 h13 h14 h15 h16 h17 h18 h19 h20 h21 h22 h23
    tauto
  case case30 =>
    intro t st e herr ih hg
    exact ((err_absurd herr (ih hg)).elim)
  case case31 =>
    intro t st parts st1 hok ih hg
    rw [translateUnion.eq_def]
    simp [hok]
    all_goals exact exists_okg _
  case case32 =>
    intro st hg
    rw [translateList.eq_def]
    simp
  case case33 =>
    intro st u rest e herr ih hg
    exact ((err_absurd herr (ih (goodTyList_head hg))).elim)
  case case34 =>
    intro st u rest s st1 hok e herr ih1 ih2 hg
    exact ((err_absurd herr (ih2 (goodTyList_tail hg))).elim)
  case case35 =>
    intro st u rest s st1 hok parts st2 hok2 ih1 ih2 hg
    rw [translateList.eq_def]
    simp [hok, hok2]
    all_goals exact exists_okg _
  case case36 =>
    intro t st hbl hg
    rw [translateObject.eq_def]
    simp [hbl]
    all_goals exact exists_okg _
  case case37 =>
    intro t st hbl hcls hsy hg
    rw [translateObject.eq_def]
    simp [hbl, hcls, hsy]
    all_goals exact exists_okg _
  case case38 =>
    intro t st hbl hcls sym hsy st1 hss hg
    rw [hsy] at hbl
    simp at hbl
    rw [translateObject.eq_def]
    simp [hbl, hcls, hsy, hss]
    all_goals exact exists_okg _
  case case39 =>
    intro t st hbl hcls sym hsy st1 hss hg
    rw [hsy] at hbl
    simp at hbl
    rw [translateObject.eq_def]
    simp [hbl, hcls, hsy, hss]
    all_goals exact exists_okg _
  case case40 =>
    intro t st hbl hcls sym hsy nm st1 hss hne hg
    rw [hsy] at hbl
    simp at hbl
    rw [translateObject.eq_def]
    simp [hbl, hcls, hsy, hss, hne]
    all_goals exact exists_okg _
  case case41 =>
    intro t st hbl hcls hint hsy hg
    rw [translateObject.eq_def]
    simp [hbl, hcls, hint, hsy]
    all_goals exact exists_okg _
  case case42 =>
    intro t st hbl hcls hint sym hsy hcf hg
    rw [hsy] at hbl
    simp at hbl
    rw [translateObject.eq_def]
    simp [hbl, hcls, hint, hsy, hcf]
    all_goals exact exists_okg _
  case case43 =>
    intro t st hbl hcls hint sym hsy hcf st1 hss hg
    rw [hsy] at hbl
    simp at hbl
    rw [translateObject.eq_def]
    simp [hbl, hcls, hint, hsy, hcf, hss]
    all_goals exact exists_okg _
  case case44 =>
    intro t st hbl hcls hint sym hsy hcf nm st1 hss hg
    rw [hsy] at hbl
    simp at hbl
    rw [translateObject.eq_def]
    simp [hbl, hcls, hint, hsy, hcf, hss]
    all_goals exact exists_okg _
  case case45 =>
    intro t st hbl hcls hint href htg hg
    exfalso
    have hrc := goodTy_refCond hg
    simp [refCond, htg, href] at hrc
  case case46 =>
    intro t st hbl hcls hint href tgt htg htup hg
    rw [translateObject.eq_def]
    simp [hbl, hcls, hint, href]
    split
    next heq => rw [htg] at heq; cases heq
    next tgt2 heq =>
      rw [htg] at heq
      injection heq with e2
      subst e2
      simp [htup]
      all_goals exact exists_okg _
  case case47 =>
    intro t st hbl hcls hint href tgt htg htup htid hg
    exfalso
    have hrc := goodTy_refCond hg
    simp [refCond, htg, href, htup, htid] at hrc
  case case48 =>
    intro t st hbl hcls hint href tgt htg htup htid e herr ih hg
    exact ((err_absurd herr (ih (goodTy_target hg htg))).elim)
  case case49 =>
    intro t st hbl hcls hint href tgt htg htup htid st1 hok ih hg
    rw [translateObject.eq_def]
    simp [hbl, hcls, hint, href]
    split
    next heq => rw [htg] at heq; cases heq
    next tgt2 heq =>
      rw [htg] at heq
      injection heq with e2
      subst e2
      have htup0 := nne htup
      simp [htup, htup0, htid, hok]
      all_goals exact exists_okg _
  case case50 =>
    intro t st hbl hcls hint href tgt htg htup htid s st1 hok hne hargs ih hg
    rw [translateObject.eq_def]
    simp [hbl, hcls, hint, href]
    split
    next heq => rw [htg] at heq; cases heq
    next tgt2 heq =>
      rw [htg] at heq
      injection heq with e2
      subst e2
      have htup0 := nne htup
      simp [htup, htup0, htid, hok, hne]
      split
      next heq2 => exact exists_okg _
      next args heq2 => rw [hargs] at heq2; cases heq2
  case case51 =>
    intro t st hbl hcls hint href tgt htg htup htid s st1 hok hne args hargs e herr ih ihl hg
    exact ((err_absurd herr (ihl (goodTy_typeArgs hg hargs))).elim)
  case case52 =>
    intro t st hbl hcls hint href tgt htg htup htid s st1 hok hne args hargs parts st2 hok2 ih ihl hg
    rw [translateObject.eq_def]
    simp [hbl, hcls, hint, href]
    split
    next heq => rw [htg] at heq; cases heq
    next tgt2 heq =>
      rw [htg] at heq
      injection heq with e2
      subst e2
      have htup0 := nne htup
      simp [htup, htup0, htid, hok, hne]
      split
      next heq2 => rw [hargs] at heq2; cases heq2
      next args2 heq2 =>
        rw [hargs] at heq2
        injection heq2 with e3
        subst e3
        simp [hok2]
        all_goals exact exists_okg _
  case case53 =>
    intro t st hbl hcls hint href hanon hsy hg
    rw [translateObject.eq_def]
    simp [hbl, hcls, hint, href, hanon, hsy]
    all_goals exact exists_okg _
  case case54 =>
    intro t st hbl hcls hint href hanon sym hsy hfm sg hcs ih hg
    rw [hsy] at hbl
    simp at hbl
    have hcls0 := nne hcls
    have hint0 := nne hint
    have href0 := nne href
    rw [translateObject.eq_def]
    simp [hbl, hcls, hcls0, hint, hint0, href, href0, hanon, hsy, hfm]
    split
    next sg2 heq =>
      rw [hcs] at heq
      injection heq with e2 e3
      subst e2
      exact ih (goodSigList_of_eq (goodTy_callSigs hg) hcs)
    next heq => exact exists_okg _
  case case55 =>
    intro t st hbl hcls hint href hanon sym hsy hfm hnone hg
    rw [hsy] at hbl
    simp at hbl
    have hcls0 := nne hcls
    have hint0 := nne hint
    have href0 := nne href
    rw [translateObject.eq_def]
    simp [hbl, hcls, hcls0, hint, hint0, href, href0, hanon, hsy, hfm]
    all_goals first
      | (split
         next sg2 heq => exact ((hnone sg2 heq).elim)
         next heq => exact exists_okg _)
      | exact exists_okg _
  case case56 =>
    intro t st hbl hcls hint href hanon sym hsy hfm ih hg
    rw [hsy] at hbl
    simp at hbl
    have hcls0 := nne hcls
    have hint0 := nne hint
    have href0 := nne href
    rw [translateObject.eq_def]
    simp [hbl, hcls, hcls0, hint, hint0, href, href0, hanon, hsy, hfm]
    exact ih hg
  case case57 =>
    intro t st hbl hcls hint href hanon hg
    have hcls0 := nne hcls
    have hint0 := nne hint
    have href0 := nne href
    have hanon0 := nne hanon
    rw [translateObject.eq_def]
    simp [hbl, hcls, hcls0, hint, hint0, href, href0, hanon, hanon0]
    all_goals exact exists_okg _
  case case58 =>
    intro t st hsy hg
    rw [translateAnonymousType.eq_def]
    split
    next heq => exact exists_okg _
    next s heq => rw [hsy] at heq; cases heq
  case case59 =>
    intro t st s hsy hmem hg
    rw [translateAnonymousType.eq_def]
    split
    next heq => exact exists_okg _
    next s2 heq =>
      rw [hsy] at heq
      injection heq with e2
      subst e2
      split
      next heq2 => exact exists_okg _
      next mems heq2 => rw [hmem] at heq2; cases heq2
  case case60 =>
    intro t st s hsy mems hmem ctor tail hcs hd hg
    rw [translateAnonymousType.eq_def]
    split
    next heq => rw [hsy] at heq; cases heq
    next s2 heq =>
      rw [hsy] at heq
      injection heq with e2
      subst e2
      split
      next heq2 => rw [hmem] at heq2; cases heq2
      next mems2 heq2 =>
        rw [hmem] at heq2
        injection heq2 with e3
        subst e3
        split
        next ctor2 tail2 heq3 =>
          rw [hcs] at heq3
          injection heq3 with e4 e5
          subst e4
          split
          next heq4 => exact exists_okg _
          next d2 heq4 => rw [hd] at heq4; cases heq4
        next heq3 => rw [hcs] at heq3; cases heq3
  case case61 =>
    intro t st s hsy mems hmem ctor tail hcs d hd hj hg
    rw [translateAnonymousType.eq_def]
    split
    next heq => rw [hsy] at heq; cases heq
    next s2 heq =>
      rw [hsy] at heq
      injection heq with e2
      subst e2
      split
      next heq2 => rw [hmem] at heq2; cases heq2
      next mems2 heq2 =>
        rw [hmem] at heq2
        injection heq2 with e3
        subst e3
        split
        next ctor2 tail2 heq3 =>
          rw [hcs] at heq3
          injection heq3 with e4 e5
          subst e4
          split
          next heq4 => rw [hd] at heq4; cases heq4
          next d2 heq4 =>
            rw [hd] at heq4
            injection heq4 with e6
            subst e6
            simp [hj]
            all_goals exact exists_okg _
        next heq3 => rw [hcs] at heq3; cases heq3
  case case62 =>
    intro t st st0l s hsy mems hmem ctor tail hcs d hd hj st1l e herr ih hg
    have hsgl := goodTy_ctorSigs hg
    have hsg := goodSigList_of_eq hsgl hcs
    have hjf : d.isJSDoc = false := by
      cases hb : d.isJSDoc
      · rfl
      · exact absurd hb hj
    have hdf := goodSig_declFacts hsg hd hjf
    exact ((err_absurd herr (ih (goodSig_params hsg) (goodSig_noEmpty hsg) hdf.1)).elim)
  case case63 =>
    intro t st st0l s hsy mems hmem ctor tail hcs d hd hj st1l parts st2 hconv e herr ih ihr hg
    have hsgl := goodTy_ctorSigs hg
    have hsg := goodSigList_of_eq hsgl hcs
    have hjf : d.isJSDoc = false := by
      cases hb : d.isJSDoc
      · rfl
      · exact absurd hb hj
    have hdf := goodSig_declFacts hsg hd hjf
    exact ((err_absurd herr (ihr (goodSig_ret hsg))).elim)
  case case64 =>
    intro t st st0l s hsy mems hmem ctor tail hcs d hd hj st1l parts st2 hconv rs st3 htr ih ihr hg
    unfold st1l at hconv
    unfold st0l at hconv
    rw [translateAnonymousType.eq_def]
    split
    next heq => rw [hsy] at heq; cases heq
    next s2 heq =>
      rw [hsy] at heq
      injection heq with e2
      subst e2
      split
      next heq2 => rw [hmem] at heq2; cases heq2
      next mems2 heq2 =>
        rw [hmem] at heq2
        injection heq2 with e3
        subst e3
        split
        next ctor2 tail2 heq3 =>
          rw [hcs] at heq3
          injection heq3 with e4 e5
          subst e4
          split
          next heq4 => rw [hd] at heq4; cases heq4
          next d2 heq4 =>
            rw [hd] at heq4
            injection heq4 with e6
            subst e6
            simp [hj, hconv, htr]
            all_goals exact exists_okg _
        next heq3 => rw [hcs] at heq3; cases heq3
  case case65 =>
    intro t st st0l s hsy mems hmem hcs e herr ih hg
    exact ((err_absurd herr (ih (goodTy_members hg hsy hmem))).elim)
  case case66 =>
    intro t st st0l s hsy mems hmem hcs callable indexable fields st1 hanon hfe hci sg hcsig ih ihs hg
    unfold st0l at hanon
    rw [translateAnonymousType.eq_def]
    split
    next heq => rw [hsy] at heq; cases heq
    next s2 heq =>
      rw [hsy] at heq
      injection heq with e2
      subst e2
      split
      next heq2 => rw [hmem] at heq2; cases heq2
      next mems2 heq2 =>
        rw [hmem] at heq2
        injection heq2 with e3
        subst e3
        split
        next ctor2 tail2 heq3 => rw [hcs] at heq3; cases heq3
        next heq3 =>
          simp [hanon, hfe, hci]
          split
          next sg2 heq4 =>
            rw [hcsig] at heq4
            injection heq4 with e4 e5
            subst e4
            exact ihs (goodSigList_of_eq (goodTy_callSigs hg) hcsig)
          next heq4 => exact exists_okg _
  case case67 =>
    intro t st st0l s hsy mems hmem hcs callable indexable fields st1 hanon hfe hci hnone ih hg
    unfold st0l at hanon
    rw [translateAnonymousType.eq_def]
    split
    next heq => rw [hsy] at heq; cases heq
    next s2 heq =>
      rw [hsy] at heq
      injection heq with e2
      subst e2
      split
      next heq2 => rw [hmem] at heq2; cases heq2
      next mems2 heq2 =>
        rw [hmem] at heq2
        injection heq2 with e3
        subst e3
        split
        next ctor2 tail2 heq3 => rw [hcs] at heq3; cases heq3
        next heq3 =>
          simp [hanon, hfe, hci]
          all_goals first
            | (split
               next sg2 heq4 => exact ((hnone sg2 heq4).elim)
               next heq4 => exact exists_okg _)
            | exact exists_okg _
  case case68 =>
    intro t st st0l s hsy mems hmem hcs callable indexable fields st1 hanon hfe hci hic valTy hsi e herr ih ihv hg
    exact ((err_absurd herr (ihv (goodTy_strIndex hg hsi))).elim)
  case case69 =>
    intro t st st0l s hsy mems hmem hcs callable indexable fields st1 hanon hfe hci hic valTy hsi v st2 htr ih ihv hg
    unfold st0l at hanon
    rw [translateAnonymousType.eq_def]
    split
    next heq => rw [hsy] at heq; cases heq
    next s2 heq =>
      rw [hsy] at heq
      injection heq with e2
      subst e2
      split
      next heq2 => rw [hmem] at heq2; cases heq2
      next mems2 heq2 =>
        rw [hmem] at heq2
        injection heq2 with e3
        subst e3
        split
        next ctor2 tail2 heq3 => rw [hcs] at heq3; cases heq3
        next heq3 =>
          simp [hanon, hfe, hci, hic]
          split
          next valTy2 heq4 =>
            rw [hsi] at heq4
            injection heq4 with e4
            subst e4
            simp [htr]
            all_goals exact exists_okg _
          next heq4 => rw [hsi] at heq4; cases heq4
  case case70 =>
    intro t st st0l s hsy mems hmem hcs callable indexable fields st1 hanon hfe hci hic hsi valTy hni e herr ih ihv hg
    exact ((err_absurd herr (ihv (goodTy_numIndex hg hni))).elim)
  case case71 =>
    intro t st st0l s hsy mems hmem hcs callable indexable fields st1 hanon hfe hci hic hsi valTy hni v st2 htr ih ihv hg
    unfold st0l at hanon
    rw [translateAnonymousType.eq_def]
    split
    next heq => rw [hsy] at heq; cases heq
    next s2 heq =>
      rw [hsy] at heq
      injection heq with e2
      subst e2
      split
      next heq2 => rw [hmem] at heq2; cases heq2
      next mems2 heq2 =>
        rw [hmem] at heq2
        injection heq2 with e3
        subst e3
        split
        next ctor2 tail2 heq3 => rw [hcs] at heq3; cases heq3
        next heq3 =>
          simp [hanon, hfe, hci, hic]
          split
          next valTy2 heq4 => rw [hsi] at heq4; cases heq4
          next heq4 =>
            split
            next valTy2 heq5 =>
              rw [hni] at heq5
              injection heq5 with e4
              subst e4
              simp [htr]
              all_goals exact exists_okg _
            next heq5 => rw [hni] at heq5; cases heq5
  case case72 =>
    intro t st st0l s hsy mems hmem hcs callable indexable fields st1 hanon hfe hci hic hsi hni ih hg
    unfold st0l at hanon
    rw [translateAnonymousType.eq_def]
    split
    next heq => rw [hsy] at heq; cases heq
    next s2 heq =>
      rw [hsy] at heq
      injection heq with e2
      subst e2
      split
      next heq2 => rw [hmem] at heq2; cases heq2
      next mems2 heq2 =>
        rw [hmem] at heq2
        injection heq2 with e3
        subst e3
        split
        next ctor2 tail2 heq3 => rw [hcs] at heq3; cases heq3
        next heq3 =>
          simp [hanon, hfe, hci, hic]
          split
          next valTy2 heq4 => rw [hsi] at heq4; cases heq4
          next heq4 =>
            split
            next valTy2 heq5 => rw [hni] at heq5; cases heq5
            next heq5 => exact exists_okg _
  case case73 =>
    intro t st st0l s hsy mems hmem hcs callable indexable fields st1 hanon hfe hci hic hni ih hg
    unfold st0l at hanon
    rw [translateAnonymousType.eq_def]
    split
    next heq => rw [hsy] at heq; cases heq
    next s2 heq =>
      rw [hsy] at heq
      injection heq with e2
      subst e2
      split
      next heq2 => rw [hmem] at heq2; cases heq2
      next mems2 heq2 =>
        rw [hmem] at heq2
        injection heq2 with e3
        subst e3
        split
        next ctor2 tail2 heq3 => rw [hcs] at heq3; cases heq3
        next heq3 =>
          simp [hanon, hfe, hci, hic, hni]
          all_goals exact exists_okg _
  case case74 =>
    intro t st st0l s hsy mems hmem hcs callable indexable fields st1 hanon hfe hci hic hni ih hg
    unfold st0l at hanon
    rw [translateAnonymousType.eq_def]
    split
    next heq => rw [hsy] at heq; cases heq
    next s2 heq =>
      rw [hsy] at heq
      injection heq with e2
      subst e2
      split
      next heq2 => rw [hmem] at heq2; cases heq2
      next mems2 heq2 =>
        rw [hmem] at heq2
        injection heq2 with e3
        subst e3
        split
        next ctor2 tail2 heq3 => rw [hcs] at heq3; cases heq3
        next heq3 =>
          simp [hanon, hfe, hci, hic, hni]
          all_goals exact exists_okg _
  case case75 =>
    intro t st st0l s hsy mems hmem hcs callable indexable fields st1 hanon hfe hci ih hg
    unfold st0l at hanon
    rw [translateAnonymousType.eq_def]
    split
    next heq => rw [hsy] at heq; cases heq
    next s2 heq =>
      rw [hsy] at heq
      injection heq with e2
      subst e2
      split
      next heq2 => rw [hmem] at heq2; cases heq2
      next mems2 heq2 =>
        rw [hmem] at heq2
        injection heq2 with e3
        subst e3
        split
        next ctor2 tail2 heq3 => rw [hcs] at heq3; cases heq3
        next heq3 =>
          simp [hanon, hfe, hci]
          all_goals exact exists_okg _
  case case76 =>
    intro t st st0l s hsy mems hmem hcs callable indexable fields st1 hanon hfe hci ih hg
    unfold st0l at hanon
    rw [translateAnonymousType.eq_def]
    split
    next heq => rw [hsy] at heq; cases heq
    next s2 heq =>
      rw [hsy] at heq
      injection heq with e2
      subst e2
      split
      next heq2 => rw [hmem] at heq2; cases heq2
      next mems2 heq2 =>
        rw [hmem] at heq2
        injection heq2 with e3
        subst e3
        split
        next ctor2 tail2 heq3 => rw [hcs] at heq3; cases heq3
        next heq3 =>
          simp [hanon, hfe, hci]
          all_goals exact exists_okg _
  case case77 =>
    intro sg st hd hg
    rw [signatureToClosure.eq_def]
    split
    next heq => exact exists_okg _
    next d heq => rw [hd] at heq; cases heq
  case case78 =>
    intro sg st d hd hj hg
    rw [signatureToClosure.eq_def]
    split
    next heq => rw [hd] at heq; cases heq
    next d2 heq =>
      rw [hd] at heq
      injection heq with e2
      subst e2
      simp [hj]
      all_goals exact exists_okg _
  case case79 =>
    intro sg st d hd hj st0l p rest hp hthis valTy ht e herr ih hg
    have hjf : d.isJSDoc = false := by
      cases hb : d.isJSDoc
      · rfl
      · exact absurd hb hj
    have hdf := goodSig_declFacts hg hd hjf
    have hpd : goodPDecls (p :: rest) = true := by rw [← hp]; exact hdf.2.2
    exact ((err_absurd herr (ih (goodPDecls_cons_thisTy hpd ht))).elim)
  case case80 =>
    intro sg st d hd hj st0l p rest hp hthis valTy ht v st1 htr ih ihf hg
    have hjf : d.isJSDoc = false := by
      cases hb : d.isJSDoc
      · rfl
      · exact absurd hb hj
    have hdf := goodSig_declFacts hg hd hjf
    have hlen : sg.params.length ≤ rest.length := by
      have := hdf.2.1
      rw [effParamDecls_of_this hp hthis] at this
      exact this
    rw [signatureToClosure.eq_def]
    split
    next heq => rw [hd] at heq; cases heq
    next d2 heq =>
      rw [hd] at heq
      injection heq with e2
      subst e2
      simp [hj]
      split
      next p2 rest2 heq2 =>
        rw [hp] at heq2
        injection heq2 with e3 e4
        subst e3
        subst e4
        simp [hthis]
        split
        next valTy2 heq3 =>
          rw [ht] at heq3
          injection heq3 with e5
          subst e5
          simp [htr]
          exact ihf (goodSig_params hg) (goodSig_ret hg) (goodSig_noEmpty hg) hlen
        next heq3 => rw [ht] at heq3; cases heq3
      next heq2 => rw [hp] at heq2; cases heq2
  case case81 =>
    intro sg st d hd hj st0l p rest hp hthis ht ihf hg
    have hjf : d.isJSDoc = false := by
      cases hb : d.isJSDoc
      · rfl
      · exact absurd hb hj
    have hdf := goodSig_declFacts hg hd hjf
    have hlen : sg.params.length ≤ rest.length := by
      have := hdf.2.1
      rw [effParamDecls_of_this hp hthis] at this
      exact this
    rw [signatureToClosure.eq_def]
    split
    next heq => rw [hd] at heq; cases heq
    next d2 heq =>
      rw [hd] at heq
      injection heq with e2
      subst e2
      simp [hj]
      split
      next p2 rest2 heq2 =>
        rw [hp] at heq2
        injection heq2 with e3 e4
        subst e3
        subst e4
        simp [hthis]
        split
        next valTy2 heq3 => rw [ht] at heq3; cases heq3
        next heq3 =>
          exact ihf (goodSig_params hg) (goodSig_ret hg) (goodSig_noEmpty hg) hlen
      next heq2 => rw [hp] at heq2; cases heq2
  case case82 =>
    intro sg st d hd hj st0l p rest hp hthis ihf hg
    have hjf : d.isJSDoc = false := by
      cases hb : d.isJSDoc
      · rfl
      · exact absurd hb hj
    have hdf := goodSig_declFacts hg hd hjf
    have hlen : sg.params.length ≤ (p :: rest).length := by
      have := hdf.2.1
      rw [effParamDecls_of_not_this hp (by cases hb : p.nameIsThis; rfl; exact absurd hb hthis)] at this
      exact this
    rw [signatureToClosure.eq_def]
    split
    next heq => rw [hd] at heq; cases heq
    next d2 heq =>
      rw [hd] at heq
      injection heq with e2
      subst e2
      simp [hj]
      split
      next p2 rest2 heq2 =>
        rw [hp] at heq2
        injection heq2 with e3 e4
        subst e3
        subst e4
        simp [hthis]
        exact ihf (goodSig_params hg) (goodSig_ret hg) (goodSig_noEmpty hg) hlen
      next heq2 => rw [hp] at heq2; cases heq2
  case case83 =>
    intro sg st d hd hj st0l hp ihf hg
    have hjf : d.isJSDoc = false := by
      cases hb : d.isJSDoc
      · rfl
      · exact absurd hb hj
    have hdf := goodSig_declFacts hg hd hjf
    have hlen : sg.params.length ≤ ([] : List PDecl).length := by
      have := hdf.1
      rw [hp] at this
      exact this
    rw [signatureToClosure.eq_def]
    split
    next heq => rw [hd] at heq; cases heq
    next d2 heq =>
      rw [hd] at heq
      injection heq with e2
      subst e2
      simp [hj]
      split
      next p2 rest2 heq2 => rw [hp] at heq2; cases heq2
      next heq2 =>
        exact ihf (goodSig_params hg) (goodSig_ret hg) (goodSig_noEmpty hg) hlen
  case case84 =>
    intro sg pds ts st e herr ih hgp hgr hne hlen
    exact ((err_absurd herr (ih hgp hne hlen)).elim)
  case case85 =>
    intro sg pds ts st parts st1 hconv e herr ih ihr hgp hgr hne hlen
    exact ((err_absurd herr (ihr hgr)).elim)
  case case86 =>
    intro sg pds ts st parts st1 hconv rv st2 htr ih ihr hgp hgr hne hlen
    rw [finishSignature.eq_def]
    simp [hconv, htr]
    all_goals exact exists_okg _
  case case87 =>
    intro pds st hg hne hlen
    rw [convertParamsGo.eq_def]
    simp
  case case88 =>
    intro st u rest hg hne hlen
    exact absurd hlen (by simp)
  case case89 =>
    intro st u rest d ds varArgs hv hobj e herr ih hg hne hlen
    have hvd : varArgs = d.dotsTok := rfl
    clear_value varArgs
    subst hvd
    have hgt := goodTyList_tail hg
    have hnet : rest.all noEmptyRefArgs = true := by
      rw [List.all_cons] at hne
      exact (band_true hne).2
    have hlent : rest.length ≤ ds.length := by
      simp only [List.length_cons] at hlen
      omega
    exact ((err_absurd herr (ih hgt hnet hlent)).elim)
  case case90 =>
    intro st u rest d ds varArgs hv hobj parts st1 hconv ih hg hne hlen
    have hvd : varArgs = d.dotsTok := rfl
    clear_value varArgs
    subst hvd
    rw [convertParamsGo.eq_def]
    simp [hv, hobj, hconv]
    all_goals exact exists_okg _
  case case91 =>
    intro st u rest d ds varArgs hv hobj href e herr ih hg hne hlen
    have hvd : varArgs = d.dotsTok := rfl
    clear_value varArgs
    subst hvd
    have hgt := goodTyList_tail hg
    have hnet : rest.all noEmptyRefArgs = true := by
      rw [List.all_cons] at hne
      exact (band_true hne).2
    have hlent : rest.length ≤ ds.length := by
      simp only [List.length_cons] at hlen
      omega
    exact ((err_absurd herr (ih hgt hnet hlent)).elim)
  case case92 =>
    intro st u rest d ds varArgs hv hobj href parts st1 hconv ih hg hne hlen
    have hvd : varArgs = d.dotsTok := rfl
    clear_value varArgs
    subst hvd
    rw [convertParamsGo.eq_def]
    simp [hv, hobj, href, hconv]
    all_goals exact exists_okg _
  case case93 =>
    intro st u rest d ds varArgs hv hobj href hargs ih hg hne hlen
    have hvd : varArgs = d.dotsTok := rfl
    clear_value varArgs
    subst hvd
    have hgt := goodTyList_tail hg
    have hnet : rest.all noEmptyRefArgs = true := by
      rw [List.all_cons] at hne
      exact (band_true hne).2
    have hlent : rest.length ≤ ds.length := by
      simp only [List.length_cons] at hlen
      omega
    rw [convertParamsGo.eq_def]
    simp [hv, hobj, href]
    split
    next heq => exact ih hgt hnet hlent
    next heq => rw [hargs] at heq; cases heq
    next a tl heq => rw [hargs] at heq; cases heq
  case case94 =>
    intro st u rest d ds varArgs hv hobj href hargs hg hne hlen
    exfalso
    have hh : noEmptyRefArgs u = true := by
      rw [List.all_cons] at hne
      exact (band_true hne).1
    simp [noEmptyRefArgs, hargs] at hh
    exact href hh
  case case95 =>
    intro st u rest d ds varArgs hv hobj href a tl hargs e herr ih hg hne hlen
    have hga : goodTy a = true :=
      goodTyList_head (goodTy_typeArgs (goodTyList_head hg) hargs)
    exact ((err_absurd herr (ih hga)).elim)
  case case96 =>
    intro st u rest d ds varArgs hv hobj href a tl hargs s st1 htr e herr ih ihr hg hne hlen
    have hvd : varArgs = d.dotsTok := rfl
    clear_value varArgs
    subst hvd
    have hgt := goodTyList_tail hg
    have hnet : rest.all noEmptyRefArgs = true := by
      rw [List.all_cons] at hne
      exact (band_true hne).2
    have hlent : rest.length ≤ ds.length := by
      simp only [List.length_cons] at hlen
      omega
    exact ((err_absurd herr (ihr hgt hnet hlent)).elim)
  case case97 =>
    intro st u rest d ds varArgs hv hobj href a tl hargs s st1 htr parts st2 hconv ih ihr hg hne hlen
    have hvd : varArgs = d.dotsTok := rfl
    clear_value varArgs
    subst hvd
    rw [convertParamsGo.eq_def]
    simp [hv, hobj, href]
    split
    next heq => rw [hargs] at heq; cases heq
    next heq => rw [hargs] at heq; cases heq
    next a2 tl2 heq =>
      rw [hargs] at heq
      injection heq with e2
      injection e2 with e3 e4
      subst e3
      simp [htr, hconv]
      all_goals exact exists_okg _
  case case98 =>
    intro st u rest d ds varArgs hv e herr ih hg hne hlen
    exact ((err_absurd herr (ih (goodTyList_head hg))).elim)
  case case99 =>
    intro st u rest d ds varArgs hv s st1 htr e herr ih ihr hg hne hlen
    have hvd : varArgs = d.dotsTok := rfl
    clear_value varArgs
    subst hvd
    have hgt := goodTyList_tail hg
    have hnet : rest.all noEmptyRefArgs = true := by
      rw [List.all_cons] at hne
      exact (band_true hne).2
    have hlent : rest.length ≤ ds.length := by
      simp only [List.length_cons] at hlen
      omega
    exact ((err_absurd herr (ihr hgt hnet hlent)).elim)
  case case100 =>
    intro st u rest d ds varArgs hv s st1 htr parts st2 hconv ih ihr hg hne hlen
    have hvd : varArgs = d.dotsTok := rfl
    clear_value varArgs
    subst hvd
    rw [convertParamsGo.eq_def]
    simp [hv, htr, hconv]
    all_goals exact exists_okg _
  case case101 =>
    intro callable indexable fields st hg
    exact ⟨_, _, by rw [anonMembers.eq_def]⟩
  case case102 =>
    intro callable indexable fields st mty rest ih hg
    obtain ⟨out, st2, hok⟩ := ih (goodMembers_tail hg)
    refine ⟨out, st2, ?_⟩
    rw [anonMembers.eq_def]
    simpa using hok
  case case103 =>
    intro callable indexable fields st mty rest hne ih hg
    obtain ⟨out, st2, hok⟩ := ih (goodMembers_tail hg)
    refine ⟨out, st2, ?_⟩
    rw [anonMembers.eq_def]
    simpa using hok
  case case104 =>
    intro callable indexable fields st field mty rest h1 h2 hinv ih hg
    obtain ⟨out, st2, hok⟩ := ih (goodMembers_tail hg)
    refine ⟨out, st2, ?_⟩
    rw [anonMembers.eq_def]
    simp [h1, h2, hinv]
    exact hok
  case case105 =>
    intro callable indexable fields st field mty rest h1 h2 hval e herr ih hg
    exact ((err_absurd herr (ih (goodMembers_head hg))).elim)
  case case106 =>
    intro callable indexable fields st field mty rest h1 h2 hval s st1 htr ih ihr hg
    obtain ⟨out, st2, hok⟩ := ihr (goodMembers_tail hg)
    refine ⟨out, st2, ?_⟩
    rw [anonMembers.eq_def]
    simp [h1, h2, hval, htr]
    exact hok

/-! ## Claims C3 and C6: symbolToString -/

/-- The symbol carried by the rightmost identifier of an entity name, after
the alias dereference `writeEntityWithSymbols` performs on it. -/
def rightSym (env : Env) : EntityName → Sym
  | .ident s _ => derefAlias env s
  | .qualified _ s _ => derefAlias env s

/-- The symbol carried by the leftmost identifier of an entity name. -/
def leftmostSym : EntityName → Sym
  | .ident s _ => s
  | .qualified l _ _ => leftmostSym l

/-- `writeEntityWithSymbols` with the mangled-prefix branch removed: the
reference rendering in which no prefix is ever prepended.  It never
consults the host's `moduleNameAsIdentifier`. -/
def writeSegmentNP (env : Env) (amap : List (Nat × String)) (str : String)
    (s : Sym) (text : String) : String :=
  let symbol := derefAlias env s
  match aliasGet amap symbol.sid with
  | some al => if al = "" then str ++ text else al
  | none => str ++ text

/-- The prefix-free entity walk (see `writeSegmentNP`). -/
def writeEntityNP (env : Env) (amap : List (Nat × String)) :
    String → EntityName → String
  | str, .ident s text => writeSegmentNP env amap str s text
  | str, .qualified l s text =>
    writeSegmentNP env amap (writeEntityNP env amap str l ++ ".") s text

/-- With text already accumulated, a segment never consults the mangler:
it coincides with the prefix-free segment. -/
theorem writeSegment_eq_NP_of_nonempty (env : Env) (amap : List (Nat × String))
    (str : String) (s : Sym) (t : String) (h : str.length ≠ 0) :
    writeSegment env amap str s t = writeSegmentNP env amap str s t := by
  simp [writeSegment, writeSegmentNP, h]

/-- A leading prefix on the accumulated text either disappears (an alias
discards the text) or floats to the front of the rendered segment. -/
theorem writeSegmentNP_prefix (env : Env) (amap : List (Nat × String))
    (px a : String) (s : Sym) (t : String) :
    writeSegmentNP env amap (px ++ a ++ ".") s t =
        writeSegmentNP env amap (a ++ ".") s t ∨
    writeSegmentNP env amap (px ++ a ++ ".") s t =
        px ++ writeSegmentNP env amap (a ++ ".") s t := by
  simp only [writeSegmentNP]
  cases haG : aliasGet amap (derefAlias env s).sid with
  | none => right; simp [String.append_assoc]
  | some al =>
    by_cases hal : al = ""
    · right; simp [hal, String.append_assoc]
    · left; simp [hal]

theorem writeEntity_prefix_once (env : Env) (amap : List (Nat × String))
    (n : EntityName) :
    writeEntity env amap "" n = writeEntityNP env amap "" n ∨
    writeEntity env amap "" n =
      maybeGetMangledNamePrefix env (derefAlias env (leftmostSym n)) ++
        writeEntityNP env amap "" n := by
  induction n with
  | ident s t =>
    simp only [writeEntity, writeEntityNP, writeSegment, writeSegmentNP, leftmostSym]
    cases haG : aliasGet amap (derefAlias env s).sid with
    | none => right; simp
    | some al =>
      by_cases hal : al = ""
      · right; simp [hal]
      · left; simp [hal]
  | qualified l s t ih =>
    have hlen : (writeEntity env amap "" l ++ ".").length ≠ 0 := by
      rw [String.length_append]
      have h1 : (".").length = 1 := rfl
      omega
    have e1 : writeEntity env amap "" (EntityName.qualified l s t) =
        writeSegment env amap (writeEntity env amap "" l ++ ".") s t := rfl
    have e2 : writeEntityNP env amap "" (EntityName.qualified l s t) =
        writeSegmentNP env amap (writeEntityNP env amap "" l ++ ".") s t := rfl
    have e3 : leftmostSym (EntityName.qualified l s t) = leftmostSym l := rfl
    rw [e1, e2, e3, writeSegment_eq_NP_of_nonempty env amap _ s t hlen]
    rcases ih with h | h
    · left; rw [h]
    · rw [h]
      rcases writeSegmentNP_prefix env amap
          ( maybeGetMangledNamePrefix env (derefAlias env (leftmostSym l)))
          (writeEntityNP env amap "" l) s t with h2 | h2
      · left; exact h2
      · right; exact h2

/-- **C6.** Every name `symbolToString` produces is either unproducible
(`none`), or equals the prefix-free rendering of the resolver's entity name
with the mangled prefix of (at most) the leftmost identifier's
(alias-dereferenced) symbol prepended at the very front — i.e. the mangled
prefix is applied at most once, only to the leftmost identifier, and never
once any text has accumulated (`writeEntityNP` by construction never
consults the mangler). -/
theorem claim_C6 (env : Env) (st : St) (sym : Sym) :
    (symbolToString env st sym).1 = none ∨
    ∃ n, env.symbolToEntityName sym = some n ∧
      ((symbolToString env st sym).1 =
          some (stripClutzNamespace
            (writeEntityNP env (ensureStep env st sym).aliases "" n)) ∨
        (symbolToString env st sym).1 =
          some (stripClutzNamespace
            ( maybeGetMangledNamePrefix env (derefAlias env (leftmostSym n)) ++
              writeEntityNP env (ensureStep env st sym).aliases "" n))) := by
  cases hn : env.symbolToEntityName sym with
  | none => left; simp [symbolToString, hn]
  | some n =>
    right
    refine ⟨n, rfl, ?_⟩
    have h := writeEntity_prefix_once env (ensureStep env st sym).aliases n
    rcases h with h | h
    · left; simp [symbolToString, hn, h]
    · right; simp [symbolToString, hn, h]

/-- **C3 (amended).** When the resolver produces an entity name for `S` and
the Alias Scope (as it stands after the `ensureSymbolDeclared` step) maps
the rightmost identifier's dereferenced symbol — the symbol being named —
to a non-empty alias `A`, `symbolToString(S)` returns `A` with only the
fixed `ಠ_ಠ.clutz.` namespace prefix stripped: no accumulated qualifier text
is kept and no mangled prefix is prepended, and the result is exactly `A`
whenever `A` does not start with that namespace prefix.  (The original
"exactly `A`, no other transformation" fails when `A` itself starts with
the clutz namespace, as the counterexample shows.) -/
theorem claim_C3 (env : Env) (st : St) (sym : Sym) (n : EntityName) (A : String)
    (hn : env.symbolToEntityName sym = some n)
    (hA : aliasGet (ensureStep env st sym).aliases (rightSym env n).sid = some A)
    (hne : A ≠ "") :
    (symbolToString env st sym).1 = some (stripClutzNamespace A) := by
  cases n with
  | ident s t =>
    simp only [rightSym] at hA
    simp [symbolToString, hn, writeEntity, writeSegment, hA, hne]
  | qualified l s t =>
    simp only [rightSym] at hA
    simp [symbolToString, hn, writeEntity, writeSegment, hA, hne]

/-- A symbol given a clutz-namespaced alias. -/
def symCl : Sym := .mk 60 0 "Foo" none none none

/-- An environment resolving every symbol to the identifier `x` carrying
`symCl`. -/
def envCl : Env :=
  ⟨false, none, fun s => s, fun s => s, fun _ => some (.ident symCl "x"),
    fun s => s, fun _ m => m, "f.ts"⟩

/-- A state in which `symCl` has the alias `ಠ_ಠ.clutz.Foo`. -/
def stCl : St := ⟨[], [(60, "ಠ_ಠ.clutz.Foo")], []⟩

theorem claim_C3_counterexample :
    aliasGet stCl.aliases symCl.sid = some "ಠ_ಠ.clutz.Foo" ∧
    (symbolToString envCl stCl symCl).1 = some "Foo" ∧
    some "Foo" ≠ some ("ಠ_ಠ.clutz.Foo" : String) := by
  refine ⟨rfl, ?_, by decide⟩
  decide

theorem claim_C3_witness :
    (symbolToString envCl stCl symCl).1 = some (stripClutzNamespace "ಠ_ಠ.clutz.Foo") :=
  claim_C3 envCl stCl symCl (.ident symCl "x") "ಠ_ಠ.clutz.Foo" rfl (by decide) (by decide)

/-! ## Claim C8 -/

/-- **C8 (amended).** `isBlacklisted(B, S)` returns true iff the blacklist
is present, the symbol's declarations list is present, and every
declaration's source-file path, after normalization, is a member of the
blacklist.  (The original biconditional — quantified over symbols with an
absent declarations list — fails there: the code returns false although
"every declaration" holds vacuously.) -/
theorem claim_C8 (norm : String → String) (B : Option (List String)) (s : Sym) :
    isBlacklisted norm B s = true ↔
      (B.isSome ∧ s.decls.isSome ∧
        ∀ d ∈ s.decls.getD [], norm d.sf.fileName ∈ B.getD []) := by
  cases B with
  | none => simp [isBlacklisted]
  | some bl =>
    cases hd : s.decls with
    | none => simp [isBlacklisted, hd]
    | some ds =>
      simp [isBlacklisted, hd, List.all_eq_true, List.elem_iff]

/-- A symbol whose declarations list is absent (like the builtin `{}`
symbol the code comments mention). -/
def symNoDecls : Sym := .mk 50 0 "x" none none none

theorem claim_C8_counterexample :
    isBlacklisted (fun s => s) (some ["a"]) symNoDecls = false ∧
    (∀ d ∈ symNoDecls.decls.getD [], (fun s => s) d.sf.fileName ∈ ["a"]) := by
  constructor
  · decide
  · simp [symNoDecls, Sym.decls]

/-- A concrete union type: `string | number`. -/
def tyUnionW : Ty :=
  .mk 30 1048576 0 none none none [tyBase 31 4, tyBase 32 8] [] [] none none none

theorem claim_C4_witness :
    tyUnionW.flags &&& TypeFlags.Union ≠ 0 ∧
    translate env0 tyUnionW st0 =
      (translateList env0 tyUnionW.unionTypes st0).map
        (fun r => (renderUnionParts r.1, r.2)) :=
  ⟨by decide, claim_C4 env0 tyUnionW st0 (by decide) rfl (by decide)⟩

theorem claim_C2_witness :
    envExt.isForExterns = true ∧
    tyAnyExt.symbol = some symExt ∧
    isModuleOf tyAnyExt = true ∧
    isAmbientOf tyAnyExt = false ∧
    tyAnyExt.flags ≠ TypeFlags.NonPrimitive ∧
    translate envExt tyAnyExt st0 = .ok ("?", st0) :=
  ⟨rfl, rfl, by decide, by decide, by decide,
    claim_C2 envExt tyAnyExt st0 symExt rfl rfl (by decide) (by decide) (by decide)⟩

/-! ## Claim C7: the situations in which translate throws -/

def sigDeclW : SigDecl := .mk false none []

def sigW : Sig := .mk (some sigDeclW) [tyBase 90 1] (tyBase 90 1)

def symW : Sym := .mk 91 0 "o" none (some []) none

def tyCtorBad : Ty :=
  .mk 92 524288 16 (some symW) none none [] [sigW] [] none none none

/-- **C7 counterexample.** An anonymous object type whose single construct
signature has one parameter but whose declaration lists no parameter
declarations: `translate` throws the `paramDecls[i]` `TypeError`
(`missingParamDecl`), yet the type is neither a self-target reference
(its `Reference` object flag is clear) nor an unmatched-dispatch input
(its masked flags equal the `Object` case). -/
theorem claim_C7_counterexample :
    translate env0 tyCtorBad st0 = .error .missingParamDecl ∧
    tyCtorBad.flags &&& flagsMask = TypeFlags.ObjectF ∧
    tyCtorBad.objFlags &&& ObjectFlags.Reference = 0 := by
  refine ⟨?_, by decide, by decide⟩
  have em : (524288 : Nat) &&& 67108863 = 524288 := by decide
  have e1 : (16 : Nat) &&& 1 = 0 := by decide
  have e2 : (16 : Nat) &&& 2 = 0 := by decide
  have e3 : (16 : Nat) &&& 4 = 0 := by decide
  have e4 : (16 : Nat) &&& 16 = 16 := by decide
  have f1 : (0 : Nat) &&& 16 = 0 := by decide
  have f2 : (0 : Nat) &&& 8192 = 0 := by decide
  rw [translate.eq_def]
  simp [tyCtorBad, symW, sigW, sigDeclW, tyBase, env0, st0, Ty.flags, Ty.tid,
    Ty.symbol, Ty.objFlags, Ty.ctorSigs, Ty.callSigs, Sym.decls, Sym.flags,
    Sym.members, isInNamespaceOf, isAmbientOf, isModuleOf, symbolDecls,
    moduleDeclInChain, ambientInChain, flagsMask, em,
    TypeFlags.NonPrimitive, TypeFlags.Any, TypeFlags.Unknown, TypeFlags.StringF,
    TypeFlags.StringLiteral, TypeFlags.NumberF, TypeFlags.NumberLiteral,
    TypeFlags.BooleanF, TypeFlags.BooleanLiteral, TypeFlags.Enum,
    TypeFlags.ESSymbol, TypeFlags.UniqueESSymbol, TypeFlags.Void,
    TypeFlags.Undefined, TypeFlags.BigIntF, TypeFlags.Null, TypeFlags.Never,
    TypeFlags.TypeParameter, TypeFlags.ObjectF]
  rw [translateObject.eq_def]
  simp [tyCtorBad, symW, Ty.symbol, Ty.objFlags, Sym.flags, Sym.decls,
    isBlackListedInst, isBlacklisted, normalizedBlackList, env0,
    Env.pathBlackList, e1, e2, e3, e4, f1, f2,
    ObjectFlags.Class, ObjectFlags.Interface,
    ObjectFlags.Reference, ObjectFlags.Anonymous, SymbolFlags.FunctionF,
    SymbolFlags.Method]
  rw [translateAnonymousType.eq_def]
  simp [tyCtorBad, symW, sigW, sigDeclW, Ty.symbol, Sym.members, Ty.ctorSigs,
    Ty.tid, Sig.sigDecl, Sig.params, SigDecl.isJSDoc, SigDecl.typeParams,
    SigDecl.paramDecls, blacklistTypeParameters]
  rw [convertParamsGo.eq_def]

/-- kind (b) of the claim: nothing matched in the masked dispatch and
neither default recovery bit set. -/
theorem translate_uncovered (env : Env) (t : Ty) (st : St)
    (hc : coveredFlags t = false) (h2 : t.tid ∉ st.seen)
    (hns : isInNamespaceOf t = false) (hex : env.isForExterns = false) :
    translate env t st = .error (.unknownTypeFlags t.flags) := by
  simp only [coveredFlags, Bool.or_eq_false_iff, beq_eq_false_iff_ne,
    bne_eq_false_iff_eq, ne_eq, flagsMask, TypeFlags.NonPrimitive,
    TypeFlags.Union, TypeFlags.EnumLiteral] at hc
  obtain ⟨⟨⟨⟨⟨⟨⟨⟨⟨⟨⟨⟨⟨⟨⟨⟨⟨⟨⟨⟨⟨⟨⟨⟨⟨⟨c1, c2⟩, c3⟩, c4⟩, c5⟩, c6⟩, c7⟩, c8⟩,
    c9⟩, c10⟩, c11⟩, c12⟩, c13⟩, c14⟩, c15⟩, c16⟩, c17⟩, c18⟩, c19⟩, c20⟩,
    c21⟩, c22⟩, c23⟩, c24⟩, c25⟩, c26⟩, c27⟩ := hc
  rw [translate.eq_def]
  simp [c1, c2, c3, c4, c5, c6, c7, c8, c9, c10, c11, c12, c13, c14, c15, c16,
    c17, c18, c19, c20, c21, c22, c23, c24, c25, c26, c27, h2, hns, hex,
    flagsMask, TypeFlags.NonPrimitive, TypeFlags.Any, TypeFlags.Unknown, TypeFlags.StringF,
    TypeFlags.StringLiteral, TypeFlags.NumberF, TypeFlags.NumberLiteral,
    TypeFlags.BooleanF, TypeFlags.BooleanLiteral, TypeFlags.Enum,
    TypeFlags.ESSymbol, TypeFlags.UniqueESSymbol, TypeFlags.Void,
    TypeFlags.Undefined, TypeFlags.BigIntF, TypeFlags.Null, TypeFlags.Never,
    TypeFlags.TypeParameter, TypeFlags.ObjectF, TypeFlags.Union,
    TypeFlags.Conditional, TypeFlags.Substitution, TypeFlags.Intersection,
    TypeFlags.Index, TypeFlags.IndexedAccess, TypeFlags.EnumLiteral]

/-- kind (a): object-kind reference whose target is the type itself. -/
theorem translate_refLoop (env : Env) (t : Ty) (st : St) (tgt : Ty)
    (hf : t.flags = TypeFlags.ObjectF) (h2 : t.tid ∉ st.seen)
    (hns : isInNamespaceOf t = false) (hex : env.isForExterns = false)
    (hsy : t.symbol = none) (hob : t.objFlags = ObjectFlags.Reference)
    (htg : t.target = some tgt) (htup : tgt.objFlags &&& ObjectFlags.Tuple = 0)
    (htid : tgt.tid = t.tid) :
    translate env t st = .error .referenceLoop := by
  have em : (524288 : Nat) &&& 67108863 = 524288 := by decide
  rw [translate.eq_def]
  rw [hf]
  simp [h2, hns, hex, flagsMask, em,
    TypeFlags.NonPrimitive, TypeFlags.Any, TypeFlags.Unknown, TypeFlags.StringF,
    TypeFlags.StringLiteral, TypeFlags.NumberF, TypeFlags.NumberLiteral,
    TypeFlags.BooleanF, TypeFlags.BooleanLiteral, TypeFlags.Enum,
    TypeFlags.ESSymbol, TypeFlags.UniqueESSymbol, TypeFlags.Void,
    TypeFlags.Undefined, TypeFlags.BigIntF, TypeFlags.Null, TypeFlags.Never,
    TypeFlags.TypeParameter, TypeFlags.ObjectF]
  have g1 : (4 : Nat) &&& 1 = 0 := by decide
  have g2 : (4 : Nat) &&& 2 = 0 := by decide
  have g3 : (4 : Nat) &&& 4 = 4 := by decide
  rw [translateObject.eq_def]
  rw [hob]
  simp [hsy, g1, g2, g3, ObjectFlags.Class, ObjectFlags.Interface,
    ObjectFlags.Reference]
  split
  next heq => rw [htg] at heq
  next tgt2 heq =>
    rw [htg] at heq
    injection heq with e2
    subst e2
    simp [htup, htid]

/-- **C7 (amended).** `translate` throws in the two claimed situations —
(a) an object-kind reference whose target is the type itself
(`referenceLoop`) and (b) a masked kind matched by no dispatch case with
neither the union nor the enum-literal recovery bit set
(`unknownTypeFlags`) — but not *only* in those: on inputs satisfying the
upstream data contract `goodTy` (which adds, beyond ¬(a) and ¬(b), that
every signature declaration lists at least as many parameter declarations
as the signature has parameters and that reference-flagged rest-parameter
types never carry an empty-but-present type-argument list) `translate`
always returns normally, and the counterexample shows a contract-violating
input outside (a) and (b) that still throws. -/
theorem claim_C7 :
    (∀ (env : Env) (t : Ty) (st : St), goodTy t = true →
        ∃ r st', translate env t st = .ok (r, st')) ∧
    (∀ (env : Env) (t : Ty) (st : St) (tgt : Ty),
        t.flags = TypeFlags.ObjectF → t.tid ∉ st.seen →
        isInNamespaceOf t = false → env.isForExterns = false →
        t.symbol = none → t.objFlags = ObjectFlags.Reference →
        t.target = some tgt → tgt.objFlags &&& ObjectFlags.Tuple = 0 →
        tgt.tid = t.tid →
        translate env t st = .error .referenceLoop) ∧
    (∀ (env : Env) (t : Ty) (st : St),
        coveredFlags t = false → t.tid ∉ st.seen →
        isInNamespaceOf t = false → env.isForExterns = false →
        translate env t st = .error (.unknownTypeFlags t.flags)) :=
  ⟨fun env => (ok_pack env).1,
   fun env t st tgt h1 h2 h3 h4 h5 h6 h7 h8 h9 =>
     translate_refLoop env t st tgt h1 h2 h3 h4 h5 h6 h7 h8 h9,
   fun env t st h1 h2 h3 h4 => translate_uncovered env t st h1 h2 h3 h4⟩

def tyRefTgt : Ty := .mk 93 524288 4 none none none [] [] [] none none none

def tyRefLoop : Ty :=
  .mk 93 524288 4 none (some tyRefTgt) none [] [] [] none none none

/-- Witness: a concrete good input translates normally; a concrete
self-target reference and a concrete uncovered-flags type hit the two
throw situations. -/
theorem claim_C7_witness :
    (goodTy (tyBase 90 1) = true ∧
      ∃ r st', translate env0 (tyBase 90 1) st0 = .ok (r, st')) ∧
    translate env0 tyRefLoop st0 = .error .referenceLoop ∧
    (coveredFlags (tyBase 94 0) = false ∧
      translate env0 (tyBase 94 0) st0 = .error (.unknownTypeFlags 0)) := by
  have hg : goodTy (tyBase 90 1) = true := by
    rw [goodTy.eq_def]
    simp [goodTyList, goodSigList, tyBase, coveredFlags, refCond, Ty.flags, Ty.objFlags, Ty.target,
      Ty.typeArgs, Ty.unionTypes, Ty.ctorSigs, Ty.callSigs, Ty.strIndexTy,
      Ty.numIndexTy, Ty.symbol, flagsMask, TypeFlags.NonPrimitive,
      TypeFlags.Union, TypeFlags.EnumLiteral, ObjectFlags.Reference]
  refine ⟨⟨hg, claim_C7.1 env0 (tyBase 90 1) st0 hg⟩, ?_, by decide, ?_⟩
  · exact claim_C7.2.1 env0 tyRefLoop st0 tyRefTgt rfl (by decide)
      (by decide) rfl rfl rfl rfl (by decide) rfl
  · exact claim_C7.2.2 env0 (tyBase 94 0) st0 (by decide) (by decide)
      (by decide) rfl
/-- The spec's description of the skipped rest parameter: `dotDotDotToken`
present, the parameter type an object reference, and its `typeArguments`
absent (then the loop `continue`s without pushing an entry). -/
def skippedParam (p : Ty) (d : PDecl) : Bool :=
  d.dotsTok && (p.flags &&& TypeFlags.ObjectF != 0) &&
  (p.objFlags &&& ObjectFlags.Reference != 0) &&
  (match p.typeArgs with | none => true | some _ => false)

/-- Number of parameters the loop keeps (pushes an entry for), walking the
two lists in parallel. -/
def countKept : List Ty → List PDecl → Nat
  | [], _ => 0
  | _ :: _, [] => 0
  | p :: ps, d :: ds => (if skippedParam p d then 0 else 1) + countKept ps ds

/-! ## Claim C10: convertParams reads paramDecls[i] unchecked -/

/-- The behaviour of the `convertParams` loop on contract-satisfying
parameter types: with too few parameter declarations the undefined
element access throws; with enough, the loop returns normally with one
entry per non-skipped parameter. -/
theorem convertParamsGo_spec (env : Env) (params : List Ty) :
    ∀ (pds : List PDecl) (st : St),
      goodTyList params = true → params.all noEmptyRefArgs = true →
      (pds.length < params.length →
        convertParamsGo env params pds st = .error .missingParamDecl) ∧
      (params.length ≤ pds.length →
        ∃ rs st', convertParamsGo env params pds st = .ok (rs, st') ∧
          rs.length = countKept params pds) := by
  induction params with
  | nil =>
    intro pds st hg hne
    constructor
    · intro h
      simp at h
    · intro h
      rw [convertParamsGo.eq_def]
      exact ⟨[], st, rfl, rfl⟩
  | cons p ps ih =>
    intro pds st hg hne
    have hgp := goodTyList_head hg
    have hgt := goodTyList_tail hg
    have hnep : noEmptyRefArgs p = true := by
      rw [List.all_cons] at hne
      exact (band_true hne).1
    have hnet : ps.all noEmptyRefArgs = true := by
      rw [List.all_cons] at hne
      exact (band_true hne).2
    cases pds with
    | nil =>
      constructor
      · intro h
        rw [convertParamsGo.eq_def]
      · intro h
        simp at h
    | cons d ds =>
      by_cases hv : d.dotsTok = true
      · by_cases hobj : p.flags &&& TypeFlags.ObjectF = 0
        · constructor
          · intro h
            have hrec := ((ih ds (warnSt st "var args type is not an object type")
                hgt hnet).1 (by simp at h ⊢; omega))
            rw [convertParamsGo.eq_def]
            simp [hv, hobj, hrec]
          · intro h
            obtain ⟨rs, st2, hok, hlen⟩ := ((ih ds
                (warnSt st "var args type is not an object type") hgt hnet).2
                (by simp at h ⊢; omega))
            refine ⟨"!Array<?>" :: rs, st2, ?_, ?_⟩
            · rw [convertParamsGo.eq_def]
              simp [hv, hobj, hok]
            · simp [countKept, skippedParam, hobj, hlen]
              omega
        · by_cases href : p.objFlags &&& ObjectFlags.Reference = 0
          · constructor
            · intro h
              have hrec := ((ih ds
                  (warnSt st "unsupported var args type (not an array reference)")
                  hgt hnet).1 (by simp at h ⊢; omega))
              rw [convertParamsGo.eq_def]
              simp [hv, hobj, href, hrec]
            · intro h
              obtain ⟨rs, st2, hok, hlen⟩ := ((ih ds
                  (warnSt st "unsupported var args type (not an array reference)")
                  hgt hnet).2 (by simp at h ⊢; omega))
              refine ⟨"!Array<?>" :: rs, st2, ?_, ?_⟩
              · rw [convertParamsGo.eq_def]
                simp [hv, hobj, href, hok]
              · simp [countKept, skippedParam, href, hlen]
                omega
          · cases hta : p.typeArgs with
            | none =>
              constructor
              · intro h
                have hrec := ((ih ds st hgt hnet).1 (by simp at h ⊢; omega))
                rw [convertParamsGo.eq_def]
                simp [hv, hobj, href]
                split
                next heq => exact hrec
                next heq => rw [hta] at heq; cases heq
                next a tl heq => rw [hta] at heq; cases heq
              · intro h
                obtain ⟨rs, st2, hok, hlen⟩ := ((ih ds st hgt hnet).2
                    (by simp at h ⊢; omega))
                refine ⟨rs, st2, ?_, ?_⟩
                · rw [convertParamsGo.eq_def]
                  simp [hv, hobj, href]
                  split
                  next heq => exact hok
                  next heq => rw [hta] at heq; cases heq
                  next a tl heq => rw [hta] at heq; cases heq
                · simp [countKept, skippedParam, hv, hobj, href, hta, hlen]
            | some args =>
              cases args with
              | nil =>
                exfalso
                simp [noEmptyRefArgs, hta] at hnep
                exact href hnep
              | cons a tl =>
                have hga : goodTy a = true :=
                  goodTyList_head (goodTy_typeArgs hgp hta)
                obtain ⟨sa, sta, htr⟩ := (ok_pack env).1 a st hga
                constructor
                · intro h
                  have hrec := ((ih ds sta hgt hnet).1 (by simp at h ⊢; omega))
                  rw [convertParamsGo.eq_def]
                  simp [hv, hobj, href]
                  split
                  next heq => rw [hta] at heq; cases heq
                  next heq => rw [hta] at heq; cases heq
                  next a2 tl2 heq =>
                    rw [hta] at heq
                    injection heq with e2
                    injection e2 with e3 e4
                    subst e3
                    simp [htr, hrec]
                · intro h
                  obtain ⟨rs, st2, hok, hlen⟩ := ((ih ds sta hgt hnet).2
                      (by simp at h ⊢; omega))
                  refine ⟨(if d.questionTok then "..." ++ sa ++ "=" else "..." ++ sa) :: rs,
                    st2, ?_, ?_⟩
                  · rw [convertParamsGo.eq_def]
                    simp [hv, hobj, href]
                    split
                    next heq => rw [hta] at heq; cases heq
                    next heq => rw [hta] at heq; cases heq
                    next a2 tl2 heq =>
                      rw [hta] at heq
                      injection heq with e2
                      injection e2 with e3 e4
                      subst e3
                      simp [htr, hok]
                  · simp [countKept, skippedParam, hta, hlen]
                    omega
      · obtain ⟨sp, stp, htr⟩ := (ok_pack env).1 p st hgp
        constructor
        · intro h
          have hrec := ((ih ds stp hgt hnet).1 (by simp at h ⊢; omega))
          rw [convertParamsGo.eq_def]
          simp [hv, htr, hrec]
        · intro h
          obtain ⟨rs, st2, hok, hlen⟩ := ((ih ds stp hgt hnet).2
              (by simp at h ⊢; omega))
          refine ⟨(if d.questionTok then sp ++ "=" else sp) :: rs, st2, ?_, ?_⟩
          · rw [convertParamsGo.eq_def]
            simp [hv, htr, hok]
          · simp [countKept, skippedParam, hv, hlen]
            omega
/-- **C10.** `convertParams` walks `sig.parameters` reading `paramDecls[i]`
without a length check: on contract-satisfying parameter types, whenever
`paramDecls` is shorter than the parameter list the undefined element
access throws (`missingParamDecl`), and whenever it is at least as long
the loop returns normally with exactly one entry per non-skipped
parameter, in index order. -/
theorem claim_C10 :
    ∀ (env : Env) (params : List Ty) (pds : List PDecl) (st : St),
      goodTyList params = true → params.all noEmptyRefArgs = true →
      (pds.length < params.length →
        convertParamsGo env params pds st = .error .missingParamDecl) ∧
      (params.length ≤ pds.length →
        ∃ rs st', convertParamsGo env params pds st = .ok (rs, st') ∧
          rs.length = countKept params pds) :=
  fun env params pds st hg hne => convertParamsGo_spec env params pds st hg hne

/-- A parameter declaration with no tokens. -/
def pdPlain : PDecl := .mk false false false none

theorem claim_C10_witness :
    convertParamsGo env0 [tyBase 95 1] [] st0 = .error .missingParamDecl ∧
    (∃ rs st', convertParamsGo env0 [tyBase 95 1] [pdPlain] st0 = .ok (rs, st') ∧
        rs.length = countKept [tyBase 95 1] [pdPlain]) := by
  have hg : goodTyList [tyBase 95 1] = true := by
    simp [goodTy, goodTyList, goodSigList, tyBase, coveredFlags, refCond, Ty.flags,
      Ty.objFlags, Ty.target, Ty.typeArgs, Ty.unionTypes, Ty.ctorSigs,
      Ty.callSigs, Ty.strIndexTy, Ty.numIndexTy, Ty.symbol, flagsMask,
      TypeFlags.NonPrimitive, TypeFlags.Union, TypeFlags.EnumLiteral,
      ObjectFlags.Reference]
  have hne : [tyBase 95 1].all noEmptyRefArgs = true := by
    simp [noEmptyRefArgs, tyBase, Ty.typeArgs]
  exact ⟨(claim_C10 env0 [tyBase 95 1] [] st0 hg hne).1 (by decide),
    (claim_C10 env0 [tyBase 95 1] [pdPlain] st0 hg hne).2 (by decide)⟩

end TsickleTT

namespace TsickleTT

/-! ## Claim C5: no "?<" in translate's output -/

/-- No `?` immediately followed by `<` anywhere in the list. -/
def qfc : List Char → Bool
  | [] => true
  | [_] => true
  | c :: d :: rest => !(c = '?' && d = '<') && qfc (d :: rest)

/-- The claim's property: the two-character substring `?<` does not occur. -/
def qltFree (s : String) : Bool := qfc s.data

theorem qfc_append {xs ys : List Char} (hx : qfc xs = true) (hy : qfc ys = true)
    (hb : xs.getLast? ≠ some '?' ∨ ys.head? ≠ some '<') :
    qfc (xs ++ ys) = true := by
  induction xs with
  | nil => simpa using hy
  | cons c cs ih =>
    cases cs with
    | nil =>
      cases ys with
      | nil => simpa using hx
      | cons d ds =>
        simp only [List.cons_append, List.nil_append, qfc, Bool.and_eq_true,
          Bool.not_eq_true']
        refine ⟨?_, hy⟩
        simp only [List.getLast?_singleton, List.head?_cons, ne_eq,
          Option.some.injEq] at hb
        simp only [Bool.and_eq_false_iff, decide_eq_false_iff_not]
        rcases hb with h | h
        · left; exact h
        · right; exact h
    | cons c2 cs2 =>
      simp only [List.cons_append, qfc, Bool.and_eq_true] at hx ⊢
      refine ⟨hx.1, ?_⟩
      have hb2 : (c2 :: cs2).getLast? ≠ some '?' ∨ ys.head? ≠ some '<' := by
        rcases hb with h | h
        · left
          simpa [List.getLast?_cons_cons] using h
        · right; exact h
      exact ih hx.2 hb2

theorem qfc_append_r {xs ys : List Char} (hx : qfc xs = true)
    (hy : qfc ys = true) (hh : ys.head? ≠ some '<') :
    qfc (xs ++ ys) = true :=
  qfc_append hx hy (Or.inr hh)

end TsickleTT

namespace TsickleTT

theorem qfc_of_no_q {l : List Char} (h : ∀ c ∈ l, c ≠ '?') : qfc l = true := by
  induction l with
  | nil => rfl
  | cons c cs ih =>
    cases cs with
    | nil => rfl
    | cons d ds =>
      simp only [qfc, Bool.and_eq_true, Bool.not_eq_true', Bool.and_eq_false_iff,
        decide_eq_false_iff_not]
      exact ⟨Or.inl (h c (by simp)), ih (fun e he => h e (by simp [he]))⟩

theorem qfc_of_no_lt {l : List Char} (h : ∀ c ∈ l, c ≠ '<') : qfc l = true := by
  induction l with
  | nil => rfl
  | cons c cs ih =>
    cases cs with
    | nil => rfl
    | cons d ds =>
      simp only [qfc, Bool.and_eq_true, Bool.not_eq_true', Bool.and_eq_false_iff,
        decide_eq_false_iff_not]
      exact ⟨Or.inr (h d (by simp)), ih (fun e he => h e (by simp [he]))⟩

theorem getLast?_no_q {l : List Char} (h : ∀ c ∈ l, c ≠ '?') :
    l.getLast? ≠ some '?' := by
  cases hl : l.getLast? with
  | none => simp
  | some c =>
    have hm : c ∈ l := List.mem_of_mem_getLast? hl
    simp only [ne_eq, Option.some.injEq]
    intro he
    exact h c hm (he ▸ rfl)

theorem qltFree_append {a b : String} (ha : qltFree a = true)
    (hb : qltFree b = true)
    (h : a.data.getLast? ≠ some '?' ∨ b.data.head? ≠ some '<') :
    qltFree (a ++ b) = true := by
  simp only [qltFree, String.data_append]
  exact qfc_append ha hb h

theorem qltFree_append_r {a b : String} (ha : qltFree a = true)
    (hb : qltFree b = true) (hh : b.data.head? ≠ some '<') :
    qltFree (a ++ b) = true :=
  qltFree_append ha hb (Or.inr hh)

/-- `joinSep` with a separator that is nonempty, `?<`-free, does not begin
with `<` and does not end with `?` preserves `?<`-freedom. -/
theorem joinSep_qltFree (sep : String) (hq : qltFree sep = true)
    (hh : sep.data.head? ≠ some '<') (hl : sep.data.getLast? ≠ some '?')
    (hne : sep.data ≠ []) :
    ∀ parts : List String, (∀ p ∈ parts, qltFree p = true) →
      qltFree (joinSep sep parts) = true := by
  intro parts
  induction parts with
  | nil => intro _; rfl
  | cons x xs ih =>
    intro hp
    cases xs with
    | nil => exact hp x (by simp)
    | cons y ys =>
      show qltFree (x ++ sep ++ joinSep sep (y :: ys)) = true
      have h1 : qltFree (x ++ sep) = true :=
        qltFree_append_r (hp x (by simp)) hq hh
      have h2 : qltFree (joinSep sep (y :: ys)) = true :=
        ih (fun p hm => hp p (by simp [hm]))
      refine qltFree_append h1 h2 (Or.inl ?_)
      simp only [String.data_append, List.getLast?_append]
      cases hsl : sep.data.getLast? with
      | none =>
        exact absurd (List.getLast?_eq_none_iff.mp hsl) hne
      | some c =>
        simp only [Option.or_some]
        rw [hsl] at hl
        exact hl

theorem dedupFirst_mem {parts : List String} {x : String}
    (h : x ∈ dedupFirst parts) : x ∈ parts := by
  simp only [dedupFirst, List.mem_map, List.mem_filter] at h
  obtain ⟨⟨i, y⟩, ⟨hmem, _⟩, rfl⟩ := h
  have : (i, y).2 ∈ List.map Prod.snd parts.enum := List.mem_map_of_mem _ hmem
  rwa [List.enum_map_snd] at this

theorem strLast_append {a b : String} (h : b.data ≠ []) :
    (a ++ b).data.getLast? = b.data.getLast? := by
  rw [String.data_append, List.getLast?_append]
  cases hb : b.data.getLast? with
  | none => exact absurd (List.getLast?_eq_none_iff.mp hb) h
  | some c => simp

theorem strHead_append {a b : String} (h : a.data ≠ []) :
    (a ++ b).data.head? = a.data.head? := by
  rw [String.data_append]
  cases ha : a.data with
  | nil => exact absurd ha h
  | cons c cs => simp

theorem append_getLast_ne {a b : String} (ha : a.data.getLast? ≠ some '?')
    (hb : b.data.getLast? ≠ some '?') :
    (a ++ b).data.getLast? ≠ some '?' := by
  rw [String.data_append, List.getLast?_append]
  cases hbl : b.data.getLast? with
  | none => simpa using ha
  | some c => rw [hbl] at hb; simpa using hb

/-- A valid Closure property name contains neither `?` nor `<`. -/
theorem validName_qltFree {f : String} (h : isValidClosurePropertyName f = true) :
    qltFree f = true := by
  refine qfc_of_no_q ?_
  intro c hc
  rw [isValidClosurePropertyName] at h
  cases hf : f.data with
  | nil => rw [hf] at h; cases h
  | cons a as =>
    rw [hf] at h hc
    simp only [Bool.and_eq_true] at h
    rcases List.mem_cons.mp hc with he | hm
    · subst he
      intro he2
      rw [he2] at h
      exact absurd h.1 (by decide)
    · have hall := List.all_eq_true.mp h.2 _ hm
      intro he2
      rw [he2] at hall
      exact absurd hall (by decide)

theorem head_ne_lt_of_no_lt {l : List Char} (h : ∀ c ∈ l, c ≠ '<') :
    l.head? ≠ some '<' := by
  cases hl : l.head? with
  | none => simp
  | some c =>
    have hm : c ∈ l := List.mem_of_mem_head? hl
    simp only [ne_eq, Option.some.injEq]
    intro he
    exact h c hm (he ▸ rfl)

/-- A `!`-prefixed symbol name with no `<` is `?<`-free. -/
theorem bangLt {nm : String} (h1 : ∀ c ∈ nm.data, c ≠ '<') :
    qltFree ("!" ++ nm) = true :=
  qltFree_append_r (by decide) (qfc_of_no_lt h1) (head_ne_lt_of_no_lt h1)

/-- A `!`-prefixed symbol name keeps a non-`?` last character. -/
theorem bangLast {nm : String} (h2 : nm.data.getLast? ≠ some '?') :
    ("!" ++ nm).data.getLast? ≠ some '?' :=
  append_getLast_ne (by decide) h2

/-! ## The alias-scope and environment conditions for claim C5

The program itself writes the alias `?` for blacklisted type parameters
(`blacklistTypeParameters`), and `symbolToString` returns such an alias
verbatim; so rendered names can be exactly `?`.  The conditions below say
just what is true of checker-produced data: aliases and identifier texts
contain no `<`, an alias ending in `?` is exactly the sentinel `?` and
keys a type-parameter symbol (`tpS` classifies their ids), and entity
names of non-type-parameter symbols end in a non-type-parameter symbol. -/

/-- The rightmost identifier text of an entity name. -/
def rightText : EntityName → String
  | .ident _ tx => tx
  | .qualified _ _ tx => tx

/-- Every identifier text of the entity name is free of `<`. -/
def entityTextsLt : EntityName → Bool
  | .ident _ tx => tx.data.all (fun c => !(c = '<'))
  | .qualified l _ tx => entityTextsLt l && tx.data.all (fun c => !(c = '<'))

/-- The alias-scope invariant: aliases contain no `<`, and an alias ending
in `?` is exactly the blacklist sentinel `?`, keyed by a type-parameter
symbol id (`tpS`). -/
def tpAliasOk (tpS : Nat → Bool) (al : List (Nat × String)) : Prop :=
  ∀ e ∈ al, (∀ c ∈ (e.2 : String).data, c ≠ '<') ∧
    ((e.2 : String).data.getLast? = some '?' → e.2 = "?" ∧ tpS e.1 = true)

/-- The environment side of the name conditions: module identifiers are
`<`-free, `ensureSymbolDeclared` preserves the alias invariant, and
resolved entity names have `<`-free texts, a rightmost text not ending in
`?`, and (for non-type-parameter symbols) a rightmost symbol that is not a
type parameter. -/
def envNameOk (env : Env) (tpS : Nat → Bool) : Prop :=
  (∀ f : String, ∀ c ∈ (env.moduleNameAsIdentifier f).data, c ≠ '<') ∧
  (∀ (sym : Sym) (al : List (Nat × String)), tpAliasOk tpS al →
    tpAliasOk tpS (env.ensureSymbolDeclared sym al)) ∧
  (∀ (sym : Sym) (name : EntityName), env.symbolToEntityName sym = some name →
    entityTextsLt name = true ∧
    (rightText name).data.getLast? ≠ some '?' ∧
    (sym.flags &&& SymbolFlags.TypeParameter = 0 →
      tpS (rightSym env name).sid = false))

theorem tpAliasOk_get {tpS : Nat → Bool} {al : List (Nat × String)}
    {k : Nat} {a : String} (hal : tpAliasOk tpS al)
    (h : aliasGet al k = some a) :
    (∀ c ∈ a.data, c ≠ '<') ∧
    (a.data.getLast? = some '?' → a = "?" ∧ tpS k = true) := by
  rw [aliasGet] at h
  cases hf : al.find? (fun e => e.1 = k) with
  | none => rw [hf] at h; cases h
  | some e =>
    rw [hf] at h
    injection h with h2
    subst h2
    have hm : e ∈ al := List.mem_of_find?_eq_some hf
    have hk : e.1 = k := by
      have h3 := List.find?_some hf
      exact of_decide_eq_true h3
    subst hk
    exact hal e hm

theorem tpAliasOk_warn {tpS : Nat → Bool} {st : St}
    (hal : tpAliasOk tpS st.aliases) (m : String) :
    tpAliasOk tpS (warnSt st m).aliases := hal

/-- The mangled prefix never contains `<` when module identifiers do not. -/
theorem maybePrefix_lt {env : Env}
    (hmn : ∀ f : String, ∀ c ∈ (env.moduleNameAsIdentifier f).data, c ≠ '<')
    (s : Sym) : ∀ c ∈ (maybeGetMangledNamePrefix env s).data, c ≠ '<' := by
  intro c hc
  rw [maybeGetMangledNamePrefix] at hc
  simp at hc
  repeat' split at hc
  all_goals try simp at hc
  all_goals
    rcases hc with h1 | h2
    · exact hmn _ c h1
    · subst h2
      decide

/-- The mangled prefix is empty or ends in a dot. -/
theorem maybePrefix_last (env : Env) (s : Sym) :
    (maybeGetMangledNamePrefix env s).data.getLast? ≠ some '?' := by
  intro hq
  rw [maybeGetMangledNamePrefix] at hq
  simp at hq
  repeat' split at hq
  all_goals simp at hq

/-- Each `writeEntityWithSymbols` segment either appends to the
accumulated text or returns a non-empty alias verbatim. -/
theorem writeSegment_cases (env : Env) (amap : List (Nat × String))
    (str : String) (s : Sym) (text : String) :
    writeSegment env amap str s text =
      str ++ (if str.length = 0 then
        maybeGetMangledNamePrefix env (derefAlias env s) ++ text else text) ∨
    (∃ al, aliasGet amap (derefAlias env s).sid = some al ∧ al ≠ "" ∧
      writeSegment env amap str s text = al) := by
  rw [writeSegment]
  cases hga : aliasGet amap (derefAlias env s).sid with
  | none =>
    left
    simp [hga]
  | some al =>
    by_cases hemp : al = ""
    · left
      simp [hga, hemp]
    · right
      exact ⟨al, rfl, hemp, by simp [hga, hemp]⟩

/-- Segments keep the rendering free of `<`. -/
theorem writeSegment_lt {env : Env} {tpS : Nat → Bool}
    {amap : List (Nat × String)}
    (hmn : ∀ f : String, ∀ c ∈ (env.moduleNameAsIdentifier f).data, c ≠ '<')
    (hal : tpAliasOk tpS amap) {str : String} {s : Sym} {text : String}
    (hstr : ∀ c ∈ str.data, c ≠ '<') (htx : ∀ c ∈ text.data, c ≠ '<') :
    ∀ c ∈ (writeSegment env amap str s text).data, c ≠ '<' := by
  intro c hc
  rcases writeSegment_cases env amap str s text with hA | ⟨al, hga, _, hEq⟩
  · rw [hA] at hc
    rw [String.data_append] at hc
    rcases List.mem_append.mp hc with h1 | h2
    · exact hstr c h1
    · split at h2
      · rw [String.data_append] at h2
        rcases List.mem_append.mp h2 with h3 | h4
        · exact maybePrefix_lt hmn _ c h3
        · exact htx c h4
      · exact htx c h2
  · rw [hEq] at hc
    exact (tpAliasOk_get hal hga).1 c hc

/-- The whole entity rendering is free of `<`. -/
theorem writeEntity_lt {env : Env} {tpS : Nat → Bool}
    {amap : List (Nat × String)}
    (hmn : ∀ f : String, ∀ c ∈ (env.moduleNameAsIdentifier f).data, c ≠ '<')
    (hal : tpAliasOk tpS amap) :
    ∀ (name : EntityName) (str : String), (∀ c ∈ str.data, c ≠ '<') →
      entityTextsLt name = true →
      ∀ c ∈ (writeEntity env amap str name).data, c ≠ '<' := by
  intro name
  induction name with
  | ident s tx =>
    intro str hstr htx
    rw [entityTextsLt] at htx
    exact writeSegment_lt hmn hal hstr
      (fun c hc => by simpa using List.all_eq_true.mp htx c hc)
  | qualified l s tx ihl =>
    intro str hstr htx
    rw [entityTextsLt] at htx
    obtain ⟨h1, h2⟩ := band_true htx
    apply writeSegment_lt hmn hal
    · intro c hc
      rw [String.data_append] at hc
      rcases List.mem_append.mp hc with h3 | h4
      · exact ihl str hstr h1 c h3
      · simp at h4
        subst h4
        decide
    · intro c hc
      simpa using List.all_eq_true.mp h2 c hc

/-- If the rendering of an entity name from an empty accumulator ends in
`?`, it is the verbatim blacklist alias `?` of its rightmost symbol. -/
theorem writeEntity_last {env : Env} {tpS : Nat → Bool}
    {amap : List (Nat × String)} (hal : tpAliasOk tpS amap)
    (name : EntityName)
    (hrt : (rightText name).data.getLast? ≠ some '?')
    (hq : (writeEntity env amap "" name).data.getLast? = some '?') :
    writeEntity env amap "" name = "?" ∧ tpS (rightSym env name).sid = true := by
  cases name with
  | ident s tx =>
    have he : writeEntity env amap "" (.ident s tx) = writeSegment env amap "" s tx := rfl
    rcases writeSegment_cases env amap "" s tx with hA | ⟨al, hga, hne, hEq⟩
    · rw [he, hA] at hq
      refine absurd hq (append_getLast_ne (by decide) ?_)
      split
      · exact append_getLast_ne (maybePrefix_last env _) hrt
      · exact hrt
    · rw [he, hEq] at hq
      obtain ⟨_, himp⟩ := tpAliasOk_get hal hga
      obtain ⟨hq1, hq2⟩ := himp hq
      rw [he, hEq]
      exact ⟨hq1, by rw [rightSym]; exact hq2⟩
  | qualified l s tx =>
    have he : writeEntity env amap "" (.qualified l s tx) =
        writeSegment env amap (writeEntity env amap "" l ++ ".") s tx := rfl
    have hdot : (writeEntity env amap "" l ++ ".").data.getLast? ≠ some '?' := by
      rw [strLast_append (by decide)]
      decide
    rcases writeSegment_cases env amap (writeEntity env amap "" l ++ ".") s tx with
      hA | ⟨al, hga, hne, hEq⟩
    · rw [he, hA] at hq
      refine absurd hq (append_getLast_ne hdot ?_)
      split
      · exact append_getLast_ne (maybePrefix_last env _) hrt
      · exact hrt
    · rw [he, hEq] at hq
      obtain ⟨_, himp⟩ := tpAliasOk_get hal hga
      obtain ⟨hq1, hq2⟩ := himp hq
      rw [he, hEq]
      exact ⟨hq1, by rw [rightSym]; exact hq2⟩

/-- `stripClutzNamespace` removes a prefix, so it keeps `<`-freedom. -/
theorem stripClutz_lt {s : String} (h : ∀ c ∈ s.data, c ≠ '<') :
    ∀ c ∈ (stripClutzNamespace s).data, c ≠ '<' := by
  intro c hc
  rw [stripClutzNamespace] at hc
  split at hc
  · exact h c (List.drop_subset _ _ hc)
  · exact h c hc

theorem getLast?_drop_ne {l : List Char} {n : Nat} (h : l.drop n ≠ []) :
    (l.drop n).getLast? = l.getLast? := by
  conv_rhs => rw [← List.take_append_drop n l]
  rw [List.getLast?_append]
  cases hd : (l.drop n).getLast? with
  | none => exact absurd (List.getLast?_eq_none_iff.mp hd) h
  | some c => simp

/-- `stripClutzNamespace` keeps the last character (when anything is
left), so a stripped name ending in `?` came from one. -/
theorem stripClutz_last {s : String}
    (hq : (stripClutzNamespace s).data.getLast? = some '?') :
    s.data.getLast? = some '?' := by
  rw [stripClutzNamespace] at hq
  split at hq
  · have hne : s.data.drop ("ಠ_ಠ.clutz.".data.length) ≠ [] := by
      intro h0
      rw [show (String.mk (s.data.drop ("ಠ_ಠ.clutz.".data.length))).data =
        s.data.drop ("ಠ_ಠ.clutz.".data.length) from rfl, h0] at hq
      cases hq
    rw [show (String.mk (s.data.drop ("ಠ_ಠ.clutz.".data.length))).data =
      s.data.drop ("ಠ_ಠ.clutz.".data.length) from rfl,
      getLast?_drop_ne hne] at hq
    exact hq
  · exact hq

/-- What `symbolToString` can hand back under the name conditions: the
state keeps the alias invariant, any rendered name is `<`-free, and a
rendered name of a non-type-parameter symbol does not end in `?`. -/
theorem symbolToString_out {env : Env} {tpS : Nat → Bool}
    (henv : envNameOk env tpS) {st : St} {sym : Sym} {out : Option String}
    {st1 : St} (hal : tpAliasOk tpS st.aliases)
    (h : symbolToString env st sym = (out, st1)) :
    tpAliasOk tpS st1.aliases ∧
    ∀ nm, out = some nm →
      (∀ c ∈ nm.data, c ≠ '<') ∧
      (sym.flags &&& SymbolFlags.TypeParameter = 0 →
        nm.data.getLast? ≠ some '?') := by
  have halE : tpAliasOk tpS (ensureStep env st sym).aliases := by
    rw [ensureStep]
    split
    · exact henv.2.1 sym st.aliases hal
    · exact hal
  rw [symbolToString] at h
  split at h
  next heq =>
    injection h with h1 h2
    subst h2
    refine ⟨halE, ?_⟩
    intro nm hnm
    rw [← h1] at hnm
    cases hnm
  next name heq =>
    injection h with h1 h2
    subst h2
    refine ⟨halE, ?_⟩
    intro nm hnm
    rw [← h1] at hnm
    injection hnm with e
    subst e
    obtain ⟨htx, hrt, htp⟩ := henv.2.2 sym name heq
    constructor
    · exact stripClutz_lt
        (writeEntity_lt henv.1 halE name "" (by intro c hc; simp at hc) htx)
    · intro hflag0 hq
      have hpre := stripClutz_last hq
      obtain ⟨_, htps⟩ := writeEntity_last halE name hrt hpre
      rw [htp hflag0] at htps
      cases htps

/-- Every (optional) symbol in the list is a classified type parameter. -/
def tpListOk (tpS : Nat → Bool) (tps : Option (List (Option Sym))) : Bool :=
  match tps with
  | none => true
  | some l => l.all (fun o => match o with | none => true | some s => tpS s.sid)

theorem blacklist_fold_pres {tpS : Nat → Bool} :
    ∀ (l : List (Option Sym)) (st : St), tpAliasOk tpS st.aliases →
      l.all (fun o => match o with | none => true | some s => tpS s.sid) = true →
      tpAliasOk tpS ((l.foldl
        (fun st tpdSym =>
          match tpdSym with
          | none => warnSt st "type parameter with no symbol"
          | some sym => { st with aliases := aliasSet st.aliases sym.sid "?" })
        st).aliases) := by
  intro l
  induction l with
  | nil =>
    intro st hal _
    exact hal
  | cons o rest ih =>
    intro st hal hall
    rw [List.all_cons] at hall
    obtain ⟨h1, h2⟩ := band_true hall
    rw [List.foldl_cons]
    cases o with
    | none => exact ih _ (tpAliasOk_warn hal _) h2
    | some sym =>
      apply ih _ _ h2
      intro e he
      rcases List.mem_cons.mp he with rfl | hm
      · refine ⟨?_, fun _ => ⟨rfl, h1⟩⟩
        show ∀ c ∈ ("?" : String).data, c ≠ '<'
        decide
      · exact hal e hm

/-- `blacklistTypeParameters` writes only the sentinel alias `?`, keyed by
type-parameter symbols, so it preserves the alias invariant. -/
theorem blacklist_pres {tpS : Nat → Bool} {st : St}
    {tps : Option (List (Option Sym))} (hal : tpAliasOk tpS st.aliases)
    (htl : tpListOk tpS tps = true) :
    tpAliasOk tpS (blacklistTypeParameters st tps).aliases := by
  cases tps with
  | none =>
    rw [blacklistTypeParameters]
    exact hal
  | some l =>
    rw [blacklistTypeParameters]
    split
    · exact hal
    · exact blacklist_fold_pres l st hal (by simpa [tpListOk] using htl)

/-- The reference-target shape contract for claim C5: a reference's target
is a tuple, or a class/interface object type whose symbol (the class or
interface symbol) is not a type parameter. -/
def refTargetOk (t : Ty) : Bool :=
  if t.objFlags &&& ObjectFlags.Reference != 0 then
    match t.target with
    | none => true
    | some g =>
      (g.objFlags &&& ObjectFlags.Tuple != 0) ||
      ((g.flags &&& flagsMask == TypeFlags.ObjectF) &&
        ((g.objFlags &&& ObjectFlags.Class != 0) ||
         (g.objFlags &&& ObjectFlags.Interface != 0)) &&
        (match g.symbol with
         | some s => s.flags &&& SymbolFlags.TypeParameter == 0
         | none => true))
  else true

mutual

/-- The reference-target shape contract, required at every node of the
type tree for claim C5. -/
def c5Ty (tpS : Nat → Bool) (t : Ty) : Bool :=
  refTargetOk t &&
  (match htg : t.target with | some g => c5Ty tpS g | none => true) &&
  (match hta : t.typeArgs with | some l => c5TyList tpS l | none => true) &&
  c5TyList tpS t.unionTypes &&
  c5SigList tpS t.ctorSigs && c5SigList tpS t.callSigs &&
  (match hsi : t.strIndexTy with | some u => c5Ty tpS u | none => true) &&
  (match hni : t.numIndexTy with | some u => c5Ty tpS u | none => true) &&
  (match hs : t.symbol with
   | some s =>
     (match hm : s.members with
      | some mems => c5Members tpS mems
      | none => true)
   | none => true)
termination_by sizeOf t * 2 + 1
decreasing_by
  all_goals simp_wf
  all_goals first
    | (have hsz := sizeOf_target_lt htg; omega)
    | (have hsz := sizeOf_typeArgs_lt hta; omega)
    | (have hsz := sizeOf_unionTypes_lt t; omega)
    | (have hsz := sizeOf_ctorSigsList_lt t; omega)
    | (have hsz := sizeOf_callSigsList_lt t; omega)
    | (have hsz := sizeOf_strIndexTy_lt hsi; omega)
    | (have hsz := sizeOf_numIndexTy_lt hni; omega)
    | (have hsz := sizeOf_members_lt hs hm; omega)
    | omega

def c5TyList (tpS : Nat → Bool) (l : List Ty) : Bool :=
  match l with
  | [] => true
  | u :: rest => c5Ty tpS u && c5TyList tpS rest
termination_by sizeOf l * 2 + 1
decreasing_by all_goals simp_wf <;> omega

def c5Members (tpS : Nat → Bool) (l : List (String × Ty)) : Bool :=
  match l with
  | [] => true
  | (_, u) :: rest => c5Ty tpS u && c5Members tpS rest
termination_by sizeOf l * 2 + 1
decreasing_by all_goals simp_wf <;> omega

def c5SigList (tpS : Nat → Bool) (l : List Sig) : Bool :=
  match l with
  | [] => true
  | sg :: rest => c5Sig tpS sg && c5SigList tpS rest
termination_by sizeOf l * 2 + 1
decreasing_by all_goals simp_wf <;> omega

def c5Sig (tpS : Nat → Bool) (sg : Sig) : Bool :=
  c5TyList tpS sg.params && c5Ty tpS sg.ret &&
  (match hd : sg.sigDecl with
   | none => true
   | some d => c5PDecls tpS d.paramDecls && tpListOk tpS d.typeParams)
termination_by sizeOf sg * 2 + 1
decreasing_by
  all_goals simp_wf
  all_goals first
    | (have hsz := sizeOf_sig_params_lt sg; omega)
    | (have hsz := sizeOf_sig_ret_lt sg; omega)
    | (have h1 := sizeOf_sigDecl_lt hd
       cases d with
       | mk a b c =>
         simp only [SigDecl.paramDecls]
         simp at h1 ⊢
         omega)

def c5PDecls (tpS : Nat → Bool) (l : List PDecl) : Bool :=
  match l with
  | [] => true
  | p :: rest =>
    (match hth : p.thisTy with | some tt => c5Ty tpS tt | none => true) && c5PDecls tpS rest
termination_by sizeOf l * 2 + 1
decreasing_by
  all_goals simp_wf
  all_goals first
    | (have h1 := sizeOf_thisTy_lt hth; omega)
    | omega

end

theorem c5_band {a b : Bool} (h : (a && b) = true) : a = true ∧ b = true := by
  simp only [Bool.and_eq_true] at h
  exact h

theorem c5TyList_cons {tpS : Nat → Bool} (u : Ty) (rest : List Ty) :
    c5TyList tpS (u :: rest) = (c5Ty tpS u && c5TyList tpS rest) := by
  rw [c5TyList.eq_def]

theorem c5TyList_head {tpS : Nat → Bool} {u : Ty} {rest : List Ty}
    (h : c5TyList tpS (u :: rest) = true) : c5Ty tpS u = true :=
  (c5_band (c5TyList_cons u rest ▸ h)).1

theorem c5TyList_tail {tpS : Nat → Bool} {u : Ty} {rest : List Ty}
    (h : c5TyList tpS (u :: rest) = true) : c5TyList tpS rest = true :=
  (c5_band (c5TyList_cons u rest ▸ h)).2

theorem c5Members_cons {tpS : Nat → Bool} (f : String) (u : Ty) (rest : List (String × Ty)) :
    c5Members tpS ((f, u) :: rest) = (c5Ty tpS u && c5Members tpS rest) := by
  rw [c5Members.eq_def]

theorem c5Members_head {tpS : Nat → Bool} {f : String} {u : Ty} {rest : List (String × Ty)}
    (h : c5Members tpS ((f, u) :: rest) = true) : c5Ty tpS u = true :=
  (c5_band (c5Members_cons f u rest ▸ h)).1

theorem c5Members_tail {tpS : Nat → Bool} {f : String} {u : Ty} {rest : List (String × Ty)}
    (h : c5Members tpS ((f, u) :: rest) = true) : c5Members tpS rest = true :=
  (c5_band (c5Members_cons f u rest ▸ h)).2

theorem c5SigList_cons {tpS : Nat → Bool} (sg : Sig) (rest : List Sig) :
    c5SigList tpS (sg :: rest) = (c5Sig tpS sg && c5SigList tpS rest) := by
  rw [c5SigList.eq_def]

theorem c5SigList_of_eq {tpS : Nat → Bool} {l : List Sig} {sg : Sig} {rest : List Sig}
    (h : c5SigList tpS l = true) (he : l = sg :: rest) : c5Sig tpS sg = true := by
  subst he
  exact (c5_band (c5SigList_cons sg rest ▸ h)).1

theorem c5Ty_refTarget {tpS : Nat → Bool} {t : Ty} (h : c5Ty tpS t = true) : refTargetOk t = true := by
  rw [c5Ty.eq_def] at h
  simp only [Bool.and_eq_true] at h
  obtain ⟨⟨⟨⟨⟨⟨⟨⟨k1, k2⟩, k3⟩, k4⟩, k5⟩, k6⟩, k7⟩, k8⟩, k9⟩ := h
  exact k1

theorem c5Ty_target {tpS : Nat → Bool} {t g : Ty} (h : c5Ty tpS t = true) (hg : t.target = some g) :
    c5Ty tpS g = true := by
  rw [c5Ty.eq_def] at h
  simp only [Bool.and_eq_true] at h
  obtain ⟨⟨⟨⟨⟨⟨⟨⟨k1, k2⟩, k3⟩, k4⟩, k5⟩, k6⟩, k7⟩, k8⟩, k9⟩ := h
  split at k2
  next g2 heq => rw [hg] at heq; injection heq with e; subst e; exact k2
  next heq => rw [hg] at heq; cases heq

theorem c5Ty_typeArgs {tpS : Nat → Bool} {t : Ty} {l : List Ty} (h : c5Ty tpS t = true)
    (hg : t.typeArgs = some l) : c5TyList tpS l = true := by
  rw [c5Ty.eq_def] at h
  simp only [Bool.and_eq_true] at h
  obtain ⟨⟨⟨⟨⟨⟨⟨⟨k1, k2⟩, k3⟩, k4⟩, k5⟩, k6⟩, k7⟩, k8⟩, k9⟩ := h
  split at k3
  next l2 heq => rw [hg] at heq; injection heq with e; subst e; exact k3
  next heq => rw [hg] at heq; cases heq

theorem c5Ty_unionTypes {tpS : Nat → Bool} {t : Ty} (h : c5Ty tpS t = true) :
    c5TyList tpS t.unionTypes = true := by
  rw [c5Ty.eq_def] at h
  simp only [Bool.and_eq_true] at h
  obtain ⟨⟨⟨⟨⟨⟨⟨⟨k1, k2⟩, k3⟩, k4⟩, k5⟩, k6⟩, k7⟩, k8⟩, k9⟩ := h
  exact k4

theorem c5Ty_ctorSigs {tpS : Nat → Bool} {t : Ty} (h : c5Ty tpS t = true) :
    c5SigList tpS t.ctorSigs = true := by
  rw [c5Ty.eq_def] at h
  simp only [Bool.and_eq_true] at h
  obtain ⟨⟨⟨⟨⟨⟨⟨⟨k1, k2⟩, k3⟩, k4⟩, k5⟩, k6⟩, k7⟩, k8⟩, k9⟩ := h
  exact k5

theorem c5Ty_callSigs {tpS : Nat → Bool} {t : Ty} (h : c5Ty tpS t = true) :
    c5SigList tpS t.callSigs = true := by
  rw [c5Ty.eq_def] at h
  simp only [Bool.and_eq_true] at h
  obtain ⟨⟨⟨⟨⟨⟨⟨⟨k1, k2⟩, k3⟩, k4⟩, k5⟩, k6⟩, k7⟩, k8⟩, k9⟩ := h
  exact k6

theorem c5Ty_strIndex {tpS : Nat → Bool} {t u : Ty} (h : c5Ty tpS t = true)
    (hg : t.strIndexTy = some u) : c5Ty tpS u = true := by
  rw [c5Ty.eq_def] at h
  simp only [Bool.and_eq_true] at h
  obtain ⟨⟨⟨⟨⟨⟨⟨⟨k1, k2⟩, k3⟩, k4⟩, k5⟩, k6⟩, k7⟩, k8⟩, k9⟩ := h
  split at k7
  next u2 heq => rw [hg] at heq; injection heq with e; subst e; exact k7
  next heq => rw [hg] at heq; cases heq

theorem c5Ty_numIndex {tpS : Nat → Bool} {t u : Ty} (h : c5Ty tpS t = true)
    (hg : t.numIndexTy = some u) : c5Ty tpS u = true := by
  rw [c5Ty.eq_def] at h
  simp only [Bool.and_eq_true] at h
  obtain ⟨⟨⟨⟨⟨⟨⟨⟨k1, k2⟩, k3⟩, k4⟩, k5⟩, k6⟩, k7⟩, k8⟩, k9⟩ := h
  split at k8
  next u2 heq => rw [hg] at heq; injection heq with e; subst e; exact k8
  next heq => rw [hg] at heq; cases heq

theorem c5Ty_members {tpS : Nat → Bool} {t : Ty} {s : Sym} {mems : List (String × Ty)}
    (h : c5Ty tpS t = true) (hs : t.symbol = some s)
    (hm : s.members = some mems) : c5Members tpS mems = true := by
  rw [c5Ty.eq_def] at h
  simp only [Bool.and_eq_true] at h
  obtain ⟨⟨⟨⟨⟨⟨⟨⟨k1, k2⟩, k3⟩, k4⟩, k5⟩, k6⟩, k7⟩, k8⟩, k9⟩ := h
  split at k9
  next s2 heq =>
    rw [hs] at heq
    injection heq with e
    subst e
    split at k9
    next mems2 heq2 => rw [hm] at heq2; injection heq2 with e2; subst e2; exact k9
    next heq2 => rw [hm] at heq2; cases heq2
  next heq => rw [hs] at heq; cases heq

theorem c5Sig_params {tpS : Nat → Bool} {sg : Sig} (h : c5Sig tpS sg = true) :
    c5TyList tpS sg.params = true := by
  rw [c5Sig.eq_def] at h
  simp only [Bool.and_eq_true] at h
  obtain ⟨⟨k1, k2⟩, k3⟩ := h
  exact k1

theorem c5Sig_ret {tpS : Nat → Bool} {sg : Sig} (h : c5Sig tpS sg = true) : c5Ty tpS sg.ret = true := by
  rw [c5Sig.eq_def] at h
  simp only [Bool.and_eq_true] at h
  obtain ⟨⟨k1, k2⟩, k3⟩ := h
  exact k2

theorem c5Sig_pdecls {tpS : Nat → Bool} {sg : Sig} {d : SigDecl} (h : c5Sig tpS sg = true)
    (hd : sg.sigDecl = some d) : c5PDecls tpS d.paramDecls = true := by
  rw [c5Sig.eq_def] at h
  simp only [Bool.and_eq_true] at h
  obtain ⟨⟨k1, k2⟩, k3⟩ := h
  split at k3
  next heq => rw [hd] at heq; cases heq
  next d2 heq =>
    rw [hd] at heq
    injection heq with e
    subst e
    exact (c5_band k3).1

theorem c5Sig_tps {tpS : Nat → Bool} {sg : Sig} {d : SigDecl}
    (h : c5Sig tpS sg = true) (hd : sg.sigDecl = some d) :
    tpListOk tpS d.typeParams = true := by
  rw [c5Sig.eq_def] at h
  simp only [Bool.and_eq_true] at h
  obtain ⟨⟨k1, k2⟩, k3⟩ := h
  split at k3
  next heq => rw [hd] at heq; cases heq
  next d2 heq =>
    rw [hd] at heq
    injection heq with e
    subst e
    exact (c5_band k3).2

theorem c5PDecls_cons_thisTy {tpS : Nat → Bool} {p : PDecl} {rest : List PDecl} {tt : Ty}
    (h : c5PDecls tpS (p :: rest) = true) (ht : p.thisTy = some tt) :
    c5Ty tpS tt = true := by
  rw [c5PDecls.eq_def] at h
  simp only [Bool.and_eq_true] at h
  obtain ⟨k1, k2⟩ := h
  split at k1
  next tt2 heq => rw [ht] at heq; injection heq with e; subst e; exact k1
  next heq => rw [ht] at heq; cases heq


/-- Unpacking `refTargetOk` at a non-tuple target. -/
theorem refTargetOk_elim {t g : Ty} (h : refTargetOk t = true)
    (href : t.objFlags &&& ObjectFlags.Reference ≠ 0)
    (htg : t.target = some g)
    (htup : ¬g.objFlags &&& ObjectFlags.Tuple ≠ 0) :
    g.flags &&& flagsMask = TypeFlags.ObjectF ∧
      (g.objFlags &&& ObjectFlags.Class ≠ 0 ∨
       g.objFlags &&& ObjectFlags.Interface ≠ 0) ∧
      (∀ s, g.symbol = some s →
        s.flags &&& SymbolFlags.TypeParameter = 0) := by
  rw [refTargetOk] at h
  rw [if_pos (by simpa using href)] at h
  split at h
  next heq => rw [htg] at heq; cases heq
  next g2 heq =>
    rw [htg] at heq
    injection heq with e
    subst e
    simp only [Bool.or_eq_true, Bool.and_eq_true, bne_iff_ne, ne_eq,
      beq_iff_eq] at h
    rcases h with h | ⟨⟨hm, hcl⟩, hsymc⟩
    · exact absurd h htup
    · refine ⟨hm, hcl, ?_⟩
      intro s hs
      rw [hs] at hsymc
      simpa using hsymc

/-- The answer `translate` gives for a checker-shaped reference target (a
class or interface object type whose symbol is not a type parameter):
always `?<`-free, and never ending in `?` unless it is exactly `?`. -/
theorem refTargetOut (env : Env) (tpS : Nat → Bool)
    (henv : envNameOk env tpS) (g : Ty) (st : St)
    (hmask : g.flags &&& flagsMask = TypeFlags.ObjectF)
    (hci : g.objFlags &&& ObjectFlags.Class ≠ 0 ∨
      g.objFlags &&& ObjectFlags.Interface ≠ 0)
    (hsymtp : ∀ s, g.symbol = some s →
      s.flags &&& SymbolFlags.TypeParameter = 0)
    (hal : tpAliasOk tpS st.aliases)
    (r : String) (st' : St) (hok : translate env g st = .ok (r, st')) :
    qltFree r = true ∧ (r = "?" ∨ r.data.getLast? ≠ some '?') := by
  have hq : ∀ st2 : St, (Except.ok ("?", st2) : Except TErr (String × St)) = .ok (r, st') →
      qltFree r = true ∧ (r = "?" ∨ r.data.getLast? ≠ some '?') := by
    intro st2 h
    injection h with h1
    injection h1 with h2 h3
    subst h2
    exact ⟨by decide, Or.inl rfl⟩
  have hnp : g.flags ≠ TypeFlags.NonPrimitive := by
    intro h
    rw [h] at hmask
    exact absurd hmask (by decide)
  rw [translate.eq_def] at hok
  rw [if_neg hnp] at hok
  by_cases h2 : g.tid ∈ st.seen
  · rw [if_pos h2] at hok
    exact hq st hok
  rw [if_neg h2] at hok
  by_cases h3 : (isInNamespaceOf g && !isAmbientOf g) = true
  · rw [if_pos h3] at hok
    exact hq st hok
  rw [if_neg h3] at hok
  by_cases h4 : (env.isForExterns && isModuleOf g && !isAmbientOf g) = true
  · rw [if_pos h4] at hok
    exact hq st hok
  rw [if_neg h4] at hok
  simp only [hmask, TypeFlags.Any, TypeFlags.Unknown, TypeFlags.StringF,
    TypeFlags.StringLiteral, TypeFlags.NumberF, TypeFlags.NumberLiteral,
    TypeFlags.BooleanF, TypeFlags.BooleanLiteral, TypeFlags.Enum,
    TypeFlags.ESSymbol, TypeFlags.UniqueESSymbol, TypeFlags.Void,
    TypeFlags.Undefined, TypeFlags.BigIntF, TypeFlags.Null, TypeFlags.Never,
    TypeFlags.TypeParameter, TypeFlags.ObjectF] at hok
  norm_num at hok
  rw [translateObject.eq_def] at hok
  split at hok
  next hbl => exact hq st hok
  next hbl =>
  by_cases hcl : g.objFlags &&& ObjectFlags.Class ≠ 0
  · rw [if_pos hcl] at hok
    cases hsy : g.symbol with
    | none => simp only [hsy] at hok; exact hq _ hok
    | some s =>
      simp only [hsy] at hok
      cases hss : symbolToString env st s with
      | mk onm st1 =>
        cases onm with
        | none => simp only [hss] at hok; exact hq _ hok
        | some nm =>
          simp only [hss] at hok
          by_cases hne : nm = ""
          · rw [if_pos hne] at hok
            exact hq _ hok
          · rw [if_neg hne] at hok
            injection hok with hp
            injection hp with hr hst
            subst hr
            obtain ⟨hal1, hnm⟩ := symbolToString_out henv hal hss
            obtain ⟨hl1, hl2⟩ := hnm nm rfl
            exact ⟨bangLt hl1, Or.inr (bangLast (hl2 (hsymtp s hsy)))⟩
  · rw [if_neg hcl] at hok
    have hint : g.objFlags &&& ObjectFlags.Interface ≠ 0 := hci.resolve_left hcl
    rw [if_pos hint] at hok
    cases hsy : g.symbol with
    | none => simp only [hsy] at hok; exact hq _ hok
    | some s =>
      simp only [hsy] at hok
      by_cases hcf : s.flags &&& SymbolFlags.Value ≠ 0 ∧ isClosureProvidedType s = false
      · rw [if_pos hcf] at hok
        exact hq _ hok
      · rw [if_neg hcf] at hok
        cases hss : symbolToString env st s with
        | mk onm st1 =>
          cases onm with
          | none =>
            simp only [hss] at hok
            injection hok with hp
            injection hp with hr hst
            subst hr
            exact ⟨by decide, Or.inr (by decide)⟩
          | some nm =>
            simp only [hss] at hok
            injection hok with hp
            injection hp with hr hst
            subst hr
            obtain ⟨hal1, hnm⟩ := symbolToString_out henv hal hss
            obtain ⟨hl1, hl2⟩ := hnm nm rfl
            exact ⟨bangLt hl1, Or.inr (bangLast (hl2 (hsymtp s hsy)))⟩

/-- The union-rendering step preserves `?<`-freedom. -/
theorem renderUnionParts_qltFree (parts : List String)
    (hp : ∀ p ∈ parts, qltFree p = true) :
    qltFree (renderUnionParts parts) = true := by
  have hps : ∀ p ∈ dedupFirst parts, qltFree p = true :=
    fun p hm => hp p (dedupFirst_mem hm)
  rw [renderUnionParts]
  cases hd : dedupFirst parts with
  | nil =>
    decide
  | cons p rest =>
    cases rest with
    | nil =>
      show qltFree p = true
      exact hps p (by rw [hd]; simp)
    | cons q rest2 =>
      show qltFree ("(" ++ joinSep "|" (p :: q :: rest2) ++ ")") = true
      have hj : qltFree (joinSep "|" (p :: q :: rest2)) = true :=
        joinSep_qltFree "|" (by decide) (by decide) (by decide) (by decide)
          (p :: q :: rest2) (fun x hm => hps x (hd ▸ hm))
      have h1 : qltFree ("(" ++ joinSep "|" (p :: q :: rest2)) = true :=
        qltFree_append (by decide) hj (Or.inl (by decide))
      exact qltFree_append_r h1 (by decide) (by decide)

/-- The enum-literal rendering is `?<`-free and preserves the alias
invariant. -/
theorem translateEnumLiteral_out (env : Env) (tpS : Nat → Bool)
    (henv : envNameOk env tpS) (t : Ty) (st : St)
    (hal : tpAliasOk tpS st.aliases) :
    qltFree (translateEnumLiteral env t st).1 = true ∧
    tpAliasOk tpS ((translateEnumLiteral env t st).2).aliases := by
  rw [translateEnumLiteral]
  cases hb : (t.enumBase.getD t).symbol with
  | none =>
    simp [hb]
    exact ⟨by decide, tpAliasOk_warn hal _⟩
  | some s0 =>
    simp only [hb]
    cases hq2 : (if (t.enumBase.getD t).tid = t.tid then s0.parent else some s0) with
    | none =>
      simp [hq2]
      exact ⟨by decide, hal⟩
    | some s =>
      simp only [hq2]
      cases hss : symbolToString env st s with
      | mk onm st1 =>
        obtain ⟨hal1, hnm⟩ := symbolToString_out henv hal hss
        cases onm with
        | none =>
          simp [hss]
          exact ⟨by decide, hal1⟩
        | some nm =>
          simp only [hss]
          by_cases hne : nm = ""
          · simp [hne]
            exact ⟨by decide, hal1⟩
          · simp only [if_neg hne]
            refine ⟨?_, hal1⟩
            exact qltFree_append_r (by decide)
              (qfc_of_no_lt (hnm nm rfl).1)
              (head_ne_lt_of_no_lt (hnm nm rfl).1)

end TsickleTT

namespace TsickleTT

set_option maxHeartbeats 1600000 in
/-- The `?<`-freedom induction over the whole translation: under the
checker contract `c5*`, the environment name conditions and the alias
invariant, every rendered string is `?<`-free and the invariant is
preserved. -/
theorem qfc_pack (env : Env) (tpS : Nat → Bool) (henv : envNameOk env tpS) :
    (∀ (t : Ty) (st : St), ∀ r st', translate env t st = .ok (r, st') →
        c5Ty tpS t = true → tpAliasOk tpS st.aliases →
        qltFree r = true ∧ tpAliasOk tpS st'.aliases) ∧
    (∀ (t : Ty) (st : St), ∀ r st', translateUnion env t st = .ok (r, st') →
        c5TyList tpS t.unionTypes = true → tpAliasOk tpS st.aliases →
        qltFree r = true ∧ tpAliasOk tpS st'.aliases) ∧
    (∀ (l : List Ty) (st : St), ∀ rs st', translateList env l st = .ok (rs, st') →
        c5TyList tpS l = true → tpAliasOk tpS st.aliases →
        (∀ s ∈ rs, qltFree s = true) ∧ tpAliasOk tpS st'.aliases) ∧
    (∀ (t : Ty) (st : St), ∀ r st', translateObject env t st = .ok (r, st') →
        c5Ty tpS t = true → tpAliasOk tpS st.aliases →
        qltFree r = true ∧ tpAliasOk tpS st'.aliases) ∧
    (∀ (t : Ty) (st : St), ∀ r st', translateAnonymousType env t st = .ok (r, st') →
        c5Ty tpS t = true → tpAliasOk tpS st.aliases →
        qltFree r = true ∧ tpAliasOk tpS st'.aliases) ∧
    (∀ (sg : Sig) (st : St), ∀ r st', signatureToClosure env sg st = .ok (r, st') →
        c5Sig tpS sg = true → tpAliasOk tpS st.aliases →
        qltFree r = true ∧ tpAliasOk tpS st'.aliases) ∧
    (∀ (sg : Sig) (pds : List PDecl) (ts : String) (st : St),
        ∀ r st', finishSignature env sg pds ts st = .ok (r, st') →
        c5TyList tpS sg.params = true → c5Ty tpS sg.ret = true →
        qltFree ts = true → ts.data.getLast? ≠ some '?' →
        tpAliasOk tpS st.aliases →
        qltFree r = true ∧ tpAliasOk tpS st'.aliases) ∧
    (∀ (params : List Ty) (pds : List PDecl) (st : St),
        ∀ rs st', convertParamsGo env params pds st = .ok (rs, st') →
        c5TyList tpS params = true → tpAliasOk tpS st.aliases →
        (∀ s ∈ rs, qltFree s = true) ∧ tpAliasOk tpS st'.aliases) ∧
    (∀ (mems : List (String × Ty)) (c i : Bool) (fs : List String) (st : St),
        ∀ (c2 i2 : Bool) (fs2 : List String) (st2 : St),
        anonMembers env mems c i fs st = .ok (c2, i2, fs2, st2) →
        c5Members tpS mems = true → (∀ s ∈ fs, qltFree s = true) →
        tpAliasOk tpS st.aliases →
        (∀ s ∈ fs2, qltFree s = true) ∧ tpAliasOk tpS st2.aliases) := by
  apply translate.mutual_induct env
  case case1 =>
    intro t st h1
    intro r st2 hok hc hal
    rw [translate.eq_def] at hok
    simp [h1] at hok
    rcases hok with ⟨hr, hst⟩
    subst hr
    refine ⟨by decide, ?_⟩
    first
    | (subst hst
       exact hal)
    | (rw [← hst]
       exact hal)
  case case2 =>
    intro t st h1 h2
    intro r st2 hok hc hal
    rw [translate.eq_def] at hok
    simp [h1, h2] at hok
    rcases hok with ⟨hr, hst⟩
    subst hr
    refine ⟨by decide, ?_⟩
    first
    | (subst hst
       exact hal)
    | (rw [← hst]
       exact hal)
  case case3 =>
    intro t st h1 h2 h3
    intro r st2 hok hc hal
    rw [translate.eq_def] at hok
    simp [h1, h2, h3] at hok
    rcases hok with ⟨hr, hst⟩
    subst hr
    refine ⟨by decide, ?_⟩
    first
    | (subst hst
       exact hal)
    | (rw [← hst]
       exact hal)
  case case4 =>
    intro t st h1 h2 h3 h4
    intro r st2 hok hc hal
    rw [translate.eq_def] at hok
    simp [h1, h2, h3, h4] at hok
    rcases hok with ⟨hr, hst⟩
    subst hr
    refine ⟨by decide, ?_⟩
    first
    | (subst hst
       exact hal)
    | (rw [← hst]
       exact hal)
  case case5 =>
    intro t st h1 h2 h3 h4 masked hp5
    have hmd : masked = t.flags &&& flagsMask := rfl
    clear_value masked
    subst hmd
    intro r st2 hok hc hal
    rw [translate.eq_def] at hok
    simp [h1, h2, h3, h4] at hok
    rw [if_pos hp5] at hok
    injection hok with hpair
    injection hpair with hr hst
    subst hr
    refine ⟨by decide, ?_⟩
    first
    | (subst hst
       exact hal)
    | (rw [← hst]
       exact hal)
  case case6 =>
    intro t st h1 h2 h3 h4 masked h5 hp6
    have hmd : masked = t.flags &&& flagsMask := rfl
    clear_value masked
    subst hmd
    intro r st2 hok hc hal
    rw [translate.eq_def] at hok
    simp [h1, h2, h3, h4, h5] at hok
    rw [if_pos hp6] at hok
    injection hok with hpair
    injection hpair with hr hst
    subst hr
    refine ⟨by decide, ?_⟩
    first
    | (subst hst
       exact hal)
    | (rw [← hst]
       exact hal)
  case case7 =>
    intro t st h1 h2 h3 h4 masked h5 h6 hp7
    have hmd : masked = t.flags &&& flagsMask := rfl
    clear_value masked
    subst hmd
    intro r st2 hok hc hal
    rw [translate.eq_def] at hok
    simp [h1, h2, h3, h4, h5, h6] at hok
    rw [if_pos hp7] at hok
    injection hok with hpair
    injection hpair with hr hst
    subst hr
    refine ⟨by decide, ?_⟩
    first
    | (subst hst
       exact hal)
    | (rw [← hst]
       exact hal)
  case case8 =>
    intro t st h1 h2 h3 h4 masked h5 h6 h7 hp8
    have hmd : masked = t.flags &&& flagsMask := rfl
    clear_value masked
    subst hmd
    intro r st2 hok hc hal
    rw [translate.eq_def] at hok
    simp [h1, h2, h3, h4, h5, h6, h7] at hok
    rw [if_pos hp8] at hok
    injection hok with hpair
    injection hpair with hr hst
    subst hr
    refine ⟨by decide, ?_⟩
    first
    | (subst hst
       exact hal)
    | (rw [← hst]
       exact hal)
  case case9 =>
    intro t st h1 h2 h3 h4 masked h5 h6 h7 h8 hp9
    have hmd : masked = t.flags &&& flagsMask := rfl
    clear_value masked
    subst hmd
    intro r st2 hok hc hal
    rw [translate.eq_def] at hok
    simp [h1, h2, h3, h4, h5, h6, h7, h8] at hok
    rw [if_pos hp9] at hok
    injection hok with hpair
    injection hpair with hr hst
    subst hr
    refine ⟨by decide, ?_⟩
    first
    | (subst hst
       exact hal)
    | (rw [← hst]
       exact hal)
  case case10 =>
    intro t st h1 h2 h3 h4 masked h5 h6 h7 h8 h9 hp hsy
    have hmd : masked = t.flags &&& flagsMask := rfl
    clear_value masked
    subst hmd
    intro r st2 hok hc hal
    rw [translate.eq_def] at hok
    simp [h1, h2, h3, h4, h5, h6, h7, h8, h9] at hok
    rw [if_pos hp] at hok
    simp [hsy] at hok
    rcases hok with ⟨hr, hst⟩
    subst hr
    refine ⟨by decide, ?_⟩
    first
    | (subst hst
       exact hal)
    | (rw [← hst]
       exact hal)
  case case11 =>
    intro t st h1 h2 h3 h4 masked h5 h6 h7 h8 h9 hp sym hsy st1 hss
    have hmd : masked = t.flags &&& flagsMask := rfl
    clear_value masked
    subst hmd
    intro r st2 hok hc hal
    rw [translate.eq_def] at hok
    simp [h1, h2, h3, h4, h5, h6, h7, h8, h9] at hok
    rw [if_pos hp] at hok
    simp [hsy, hss] at hok
    obtain ⟨hal1, hnm⟩ := symbolToString_out henv hal hss
    rcases hok with ⟨hr, hst⟩
    subst hr
    refine ⟨by decide, ?_⟩
    first
    | (subst hst
       exact hal1)
    | (rw [← hst]
       exact hal1)
  case case12 =>
    intro t st h1 h2 h3 h4 masked h5 h6 h7 h8 h9 hp sym hsy nm st1 hss
    have hmd : masked = t.flags &&& flagsMask := rfl
    clear_value masked
    subst hmd
    intro r st2 hok hc hal
    rw [translate.eq_def] at hok
    simp [h1, h2, h3, h4, h5, h6, h7, h8, h9] at hok
    rw [if_pos hp] at hok
    simp [hsy, hss] at hok
    obtain ⟨hal1, hnm⟩ := symbolToString_out henv hal hss
    rcases hok with ⟨hr, hst⟩
    subst hr
    refine ⟨?_, ?_⟩
    · by_cases hne : nm = ""
      · simp [hne]
        decide
      · simp only [if_neg hne]
        exact qfc_of_no_lt (hnm nm rfl).1
    · first
      | (subst hst
         exact hal1)
      | (rw [← hst]
         exact hal1)
  case case13 =>
    intro t st h1 h2 h3 h4 masked h5 h6 h7 h8 h9 h10 hp13
    have hmd : masked = t.flags &&& flagsMask := rfl
    clear_value masked
    subst hmd
    intro r st2 hok hc hal
    rw [translate.eq_def] at hok
    simp [h1, h2, h3, h4, h5, h6, h7, h8, h9, h10] at hok
    rw [if_pos hp13] at hok
    injection hok with hpair
    injection hpair with hr hst
    subst hr
    refine ⟨by decide, ?_⟩
    first
    | (subst hst
       exact hal)
    | (rw [← hst]
       exact hal)
  case case14 =>
    intro t st h1 h2 h3 h4 masked h5 h6 h7 h8 h9 h10 h11 hp14
    have hmd : masked = t.flags &&& flagsMask := rfl
    clear_value masked
    subst hmd
    intro r st2 hok hc hal
    rw [translate.eq_def] at hok
    simp [h1, h2, h3, h4, h5, h6, h7, h8, h9, h10, h11] at hok
    rw [if_pos hp14] at hok
    injection hok with hpair
    injection hpair with hr hst
    subst hr
    refine ⟨by decide, ?_⟩
    first
    | (subst hst
       exact hal)
    | (rw [← hst]
       exact hal)
  case case15 =>
    intro t st h1 h2 h3 h4 masked h5 h6 h7 h8 h9 h10 h11 h12 hp15
    have hmd : masked = t.flags &&& flagsMask := rfl
    clear_value masked
    subst hmd
    intro r st2 hok hc hal
    rw [translate.eq_def] at hok
    simp [h1, h2, h3, h4, h5, h6, h7, h8, h9, h10, h11, h12] at hok
    rw [if_pos hp15] at hok
    injection hok with hpair
    injection hpair with hr hst
    subst hr
    refine ⟨by decide, ?_⟩
    first
    | (subst hst
       exact hal)
    | (rw [← hst]
       exact hal)
  case case16 =>
    intro t st h1 h2 h3 h4 masked h5 h6 h7 h8 h9 h10 h11 h12 h13 hp16
    have hmd : masked = t.flags &&& flagsMask := rfl
    clear_value masked
    subst hmd
    intro r st2 hok hc hal
    rw [translate.eq_def] at hok
    simp [h1, h2, h3, h4, h5, h6, h7, h8, h9, h10, h11, h12, h13] at hok
    rw [if_pos hp16] at hok
    injection hok with hpair
    injection hpair with hr hst
    subst hr
    refine ⟨by decide, ?_⟩
    first
    | (subst hst
       exact hal)
    | (rw [← hst]
       exact hal)
  case case17 =>
    intro t st h1 h2 h3 h4 masked h5 h6 h7 h8 h9 h10 h11 h12 h13 h14 hp17
    have hmd : masked = t.flags &&& flagsMask := rfl
    clear_value masked
    subst hmd
    intro r st2 hok hc hal
    rw [translate.eq_def] at hok
    simp [h1, h2, h3, h4, h5, h6, h7, h8, h9, h10, h11, h12, h13, h14] at hok
    rw [if_pos hp17] at hok
    injection hok with hpair
    injection hpair with hr hst
    subst hr
    refine ⟨by decide, ?_⟩
    first
    | (subst hst
       exact hal)
    | (rw [← hst]
       exact hal)
  case case18 =>
    intro t st h1 h2 h3 h4 masked h5 h6 h7 h8 h9 h10 h11 h12 h13 h14 h15 hp18
    have hmd : masked = t.flags &&& flagsMask := rfl
    clear_value masked
    subst hmd
    intro r st2 hok hc hal
    rw [translate.eq_def] at hok
    simp [h1, h2, h3, h4, h5, h6, h7, h8, h9, h10, h11, h12, h13, h14, h15] at hok
    rw [if_pos hp18] at hok
    injection hok with hpair
    injection hpair with hr hst
    subst hr
    refine ⟨by decide, ?_⟩
    first
    | (subst hst
       exact hal)
    | (rw [← hst]
       exact hal)
  case case19 =>
    intro t st h1 h2 h3 h4 masked h5 h6 h7 h8 h9 h10 h11 h12 h13 h14 h15 h16 hp hsy
    have hmd : masked = t.flags &&& flagsMask := rfl
    clear_value masked
    subst hmd
    intro r st2 hok hc hal
    rw [translate.eq_def] at hok
    simp [h1, h2, h3, h4, h5, h6, h7, h8, h9, h10, h11, h12, h13, h14, h15, h16] at hok
    rw [if_pos hp] at hok
    simp [hsy] at hok
    rcases hok with ⟨hr, hst⟩
    subst hr
    refine ⟨by decide, ?_⟩
    first
    | (subst hst
       exact hal)
    | (rw [← hst]
       exact hal)
  case case20 =>
    intro t st h1 h2 h3 h4 masked h5 h6 h7 h8 h9 h10 h11 h12 h13 h14 h15 h16 hp sym hsy st1 hss
    have hmd : masked = t.flags &&& flagsMask := rfl
    clear_value masked
    subst hmd
    intro r st2 hok hc hal
    rw [translate.eq_def] at hok
    simp [h1, h2, h3, h4, h5, h6, h7, h8, h9, h10, h11, h12, h13, h14, h15, h16] at hok
    rw [if_pos hp] at hok
    simp [hsy, hss] at hok
    obtain ⟨hal1, hnm⟩ := symbolToString_out henv hal hss
    rcases hok with ⟨hr, hst⟩
    subst hr
    refine ⟨by decide, ?_⟩
    first
    | (subst hst
       exact hal1)
    | (rw [← hst]
       exact hal1)
  case case21 =>
    intro t st h1 h2 h3 h4 masked h5 h6 h7 h8 h9 h10 h11 h12 h13 h14 h15 h16 hp sym hsy st1 hss
    have hmd : masked = t.flags &&& flagsMask := rfl
    clear_value masked
    subst hmd
    intro r st2 hok hc hal
    rw [translate.eq_def] at hok
    simp [h1, h2, h3, h4, h5, h6, h7, h8, h9, h10, h11, h12, h13, h14, h15, h16] at hok
    rw [if_pos hp] at hok
    simp [hsy, hss] at hok
    obtain ⟨hal1, hnm⟩ := symbolToString_out henv hal hss
    rcases hok with ⟨hr, hst⟩
    subst hr
    refine ⟨by decide, ?_⟩
    first
    | (subst hst
       exact hal1)
    | (rw [← hst]
       exact hal1)
  case case22 =>
    intro t st h1 h2 h3 h4 masked h5 h6 h7 h8 h9 h10 h11 h12 h13 h14 h15 h16 hp sym hsy nm st1 hss hne
    have hmd : masked = t.flags &&& flagsMask := rfl
    clear_value masked
    subst hmd
    intro r st2 hok hc hal
    rw [translate.eq_def] at hok
    simp [h1, h2, h3, h4, h5, h6, h7, h8, h9, h10, h11, h12, h13, h14, h15, h16] at hok
    rw [if_pos hp] at hok
    simp [hsy, hss, hne] at hok
    obtain ⟨hal1, hnmo⟩ := symbolToString_out henv hal hss
    rcases hok with ⟨hr, hst⟩
    subst hr
    have hnm := qfc_of_no_lt (hnmo nm rfl).1
    refine ⟨?_, ?_⟩
    · by_cases htp : sym.flags &&& SymbolFlags.TypeParameter = 0
      · simp only [if_pos htp]
        exact qltFree_append_r (by decide) hnm
          (head_ne_lt_of_no_lt (hnmo nm rfl).1)
      · simp only [if_neg htp]
        simpa [qltFree] using hnm
    · first
      | (subst hst
         exact hal1)
      | (rw [← hst]
         exact hal1)
  case case23 =>
    intro t st h1 h2 h3 h4 masked h5 h6 h7 h8 h9 h10 h11 h12 h13 h14 h15 h16 h17 hp ih
    have hmd : masked = t.flags &&& flagsMask := rfl
    clear_value masked
    subst hmd
    intro r st2 hok hc hal
    rw [translate.eq_def] at hok
    simp [h1, h2, h3, h4, h5, h6, h7, h8, h9, h10, h11, h12, h13, h14, h15, h16, h17] at hok
    rw [if_pos hp] at hok
    exact ih r st2 hok hc hal
  case case24 =>
    intro t st h1 h2 h3 h4 masked h5 h6 h7 h8 h9 h10 h11 h12 h13 h14 h15 h16 h17 h18 hp ih
    have hmd : masked = t.flags &&& flagsMask := rfl
    clear_value masked
    subst hmd
    intro r st2 hok hc hal
    rw [translate.eq_def] at hok
    simp [h1, h2, h3, h4, h5, h6, h7, h8, h9, h10, h11, h12, h13, h14, h15, h16, h17, h18] at hok
    rw [if_pos hp] at hok
    exact ih r st2 hok (c5Ty_unionTypes hc) hal
  case case25 =>
    intro t st h1 h2 h3 h4 masked h5 h6 h7 h8 h9 h10 h11 h12 h13 h14 h15 h16 h17 h18 h19 hp
    have hmd : masked = t.flags &&& flagsMask := rfl
    clear_value masked
    subst hmd
    intro r st2 hok hc hal
    rw [translate.eq_def] at hok
    simp [h1, h2, h3, h4, h5, h6, h7, h8, h9, h10, h11, h12, h13, h14, h15, h16, h17, h18, h19] at hok
    rw [if_pos hp] at hok
    injection hok with hpair
    injection hpair with hr hst
    subst hr
    refine ⟨by decide, ?_⟩
    first
    | (subst hst
       exact hal)
    | (rw [← hst]
       exact hal)
  case case26 =>
    intro t st h1 h2 h3 h4 masked h5 h6 h7 h8 h9 h10 h11 h12 h13 h14 h15 h16 h17 h18 h19 h20 hp
    have hmd : masked = t.flags &&& flagsMask := rfl
    clear_value masked
    subst hmd
    intro r st2 hok hc hal
    rw [translate.eq_def] at hok
    simp [h1, h2, h3, h4, h5, h6, h7, h8, h9, h10, h11, h12, h13, h14, h15, h16, h17, h18, h19, h20] at hok
    rw [if_pos hp] at hok
    injection hok with hpair
    injection hpair with hr hst
    subst hr
    refine ⟨by decide, ?_⟩
    first
    | (subst hst
       exact hal)
    | (rw [← hst]
       exact hal)
  case case27 =>
    intro t st h1 h2 h3 h4 masked h5 h6 h7 h8 h9 h10 h11 h12 h13 h14 h15 h16 h17 h18 h19 h20 h21 hp ih
    have hmd : masked = t.flags &&& flagsMask := rfl
    clear_value masked
    subst hmd
    intro r st2 hok hc hal
    rw [translate.eq_def] at hok
    simp [h1, h2, h3, h4, h5, h6, h7, h8, h9, h10, h11, h12, h13, h14, h15, h16, h17, h18, h19, h20, h21] at hok
    first
      | rw [if_pos hp] at hok
      | rw [if_neg hp] at hok
    exact ih r st2 hok (c5Ty_unionTypes hc) hal
  case case28 =>
    intro t st h1 h2 h3 h4 masked h5 h6 h7 h8 h9 h10 h11 h12 h13 h14 h15 h16 h17 h18 h19 h20 h21 h22 hp
    have hmd : masked = t.flags &&& flagsMask := rfl
    clear_value masked
    subst hmd
    intro r st2 hok hc hal
    rw [translate.eq_def] at hok
    simp [h1, h2, h3, h4, h5, h6, h7, h8, h9, h10, h11, h12, h13, h14, h15, h16, h17, h18, h19, h20, h21, h22] at hok
    first
      | rw [if_pos hp] at hok
      | rw [if_neg hp] at hok
    injection hok with hpair
    obtain ⟨hq1, hq2⟩ := translateEnumLiteral_out env tpS henv t st hal
    rw [hpair] at hq1 hq2
    exact ⟨by simpa using hq1, by simpa using hq2⟩

  case case29 =>
    intro t st h1 h2 h3 h4 masked h5 h6 h7 h8 h9 h10 h11 h12 h13 h14 h15 h16 h17 h18 h19 h20 h21 h22 h23
    have hmd : masked = t.flags &&& flagsMask := rfl
    clear_value masked
    subst hmd
    intro r st2 hok hc hal
    rw [translate.eq_def] at hok
    simp [h1, h2, h3, h4, h5, h6, h7, h8, h9, h10, h11, h12, h13, h14, h15, h16, h17, h18, h19, h20, h21, h22, h23] at hok
  case case30 =>
    intro t st e herr ih
    intro r st2 hok hc hal
    rw [translateUnion.eq_def] at hok
    simp [herr] at hok
  case case31 =>
    intro t st parts st1 hlist ih
    intro r st2 hok hc hal
    rw [translateUnion.eq_def] at hok
    simp [hlist] at hok
    rcases hok with ⟨hr, hst⟩
    subst hr
    obtain ⟨hps, hal1⟩ := ih parts st1 hlist hc hal
    refine ⟨renderUnionParts_qltFree parts hps, ?_⟩
    first
    | (subst hst
       exact hal1)
    | (rw [← hst]
       exact hal1)
  case case32 =>
    intro st
    intro rs st2 hok hc hal
    rw [translateList.eq_def] at hok
    simp at hok
    rcases hok with ⟨hr, hst⟩
    subst hr
    refine ⟨by simp, ?_⟩
    first
    | (subst hst
       exact hal)
    | (rw [← hst]
       exact hal)
  case case33 =>
    intro st u rest e herr ih
    intro rs st2 hok hc hal
    rw [translateList.eq_def] at hok
    simp [herr] at hok
  case case34 =>
    intro st u rest s st1 htr e herr ih1 ih2
    intro rs st2 hok hc hal
    rw [translateList.eq_def] at hok
    simp [htr, herr] at hok
  case case35 =>
    intro st u rest s st1 htr parts st3 hlist ih1 ih2
    intro rs st2 hok hc hal
    rw [translateList.eq_def] at hok
    simp [htr, hlist] at hok
    rcases hok with ⟨hr, hst⟩
    subst hr
    obtain ⟨hq1, hal1⟩ := ih1 s st1 htr (c5TyList_head hc) hal
    obtain ⟨hq2, hal2⟩ := ih2 parts st3 hlist (c5TyList_tail hc) hal1
    refine ⟨?_, ?_⟩
    · intro x hx
      rcases List.mem_cons.mp hx with he | hm
      · subst he
        exact hq1
      · exact hq2 x hm
    · first
      | (subst hst
         exact hal2)
      | (rw [← hst]
         exact hal2)
  case case36 =>
    intro t st hbl
    intro r st2 hok hc hal
    rw [translateObject.eq_def] at hok
    rw [if_pos hbl] at hok
    injection hok with hpair
    injection hpair with hr hst
    subst hr
    refine ⟨by decide, ?_⟩
    first
    | (subst hst
       exact hal)
    | (rw [← hst]
       exact hal)
  case case37 =>
    intro t st hbl hcls hsy
    intro r st2 hok hc hal
    rw [translateObject.eq_def] at hok
    rw [if_neg hbl, if_pos hcls] at hok
    simp [hsy] at hok
    rcases hok with ⟨hr, hst⟩
    subst hr
    refine ⟨by decide, ?_⟩
    first
    | (subst hst
       exact hal)
    | (rw [← hst]
       exact hal)
  case case38 =>
    intro t st hbl hcls sym hsy st1 hss
    intro r st2 hok hc hal
    rw [translateObject.eq_def] at hok
    rw [if_neg hbl, if_pos hcls] at hok
    simp [hsy, hss] at hok
    obtain ⟨hal1, hnm⟩ := symbolToString_out henv hal hss
    rcases hok with ⟨hr, hst⟩
    subst hr
    refine ⟨by decide, ?_⟩
    first
    | (subst hst
       exact hal1)
    | (rw [← hst]
       exact hal1)
  case case39 =>
    intro t st hbl hcls sym hsy st1 hss
    intro r st2 hok hc hal
    rw [translateObject.eq_def] at hok
    rw [if_neg hbl, if_pos hcls] at hok
    simp [hsy, hss] at hok
    obtain ⟨hal1, hnm⟩ := symbolToString_out henv hal hss
    rcases hok with ⟨hr, hst⟩
    subst hr
    refine ⟨by decide, ?_⟩
    first
    | (subst hst
       exact hal1)
    | (rw [← hst]
       exact hal1)
  case case40 =>
    intro t st hbl hcls sym hsy nm st1 hss hne
    intro r st2 hok hc hal
    rw [translateObject.eq_def] at hok
    rw [if_neg hbl, if_pos hcls] at hok
    simp [hsy, hss, hne] at hok
    obtain ⟨hal1, hnm⟩ := symbolToString_out henv hal hss
    rcases hok with ⟨hr, hst⟩
    subst hr
    refine ⟨bangLt (hnm nm rfl).1, ?_⟩
    first
    | (subst hst
       exact hal1)
    | (rw [← hst]
       exact hal1)
  case case41 =>
    intro t st hbl hcls hint hsy
    intro r st2 hok hc hal
    rw [translateObject.eq_def] at hok
    rw [if_neg hbl, if_neg hcls, if_pos hint] at hok
    simp [hsy] at hok
    rcases hok with ⟨hr, hst⟩
    subst hr
    refine ⟨by decide, ?_⟩
    first
    | (subst hst
       exact hal)
    | (rw [← hst]
       exact hal)
  case case42 =>
    intro t st hbl hcls hint sym hsy hcf
    intro r st2 hok hc hal
    rw [translateObject.eq_def] at hok
    rw [if_neg hbl, if_neg hcls, if_pos hint] at hok
    simp [hsy] at hok
    rw [if_pos hcf] at hok
    injection hok with hpair
    injection hpair with hr hst
    subst hr
    refine ⟨by decide, ?_⟩
    first
    | (subst hst
       exact hal)
    | (rw [← hst]
       exact hal)
  case case43 =>
    intro t st hbl hcls hint sym hsy hcf st1 hss
    intro r st2 hok hc hal
    rw [translateObject.eq_def] at hok
    rw [if_neg hbl, if_neg hcls, if_pos hint] at hok
    simp [hsy] at hok
    rw [if_neg hcf] at hok
    simp [hss] at hok
    obtain ⟨hal1, hnm⟩ := symbolToString_out henv hal hss
    rcases hok with ⟨hr, hst⟩
    subst hr
    refine ⟨by decide, ?_⟩
    first
    | (subst hst
       exact hal1)
    | (rw [← hst]
       exact hal1)
  case case44 =>
    intro t st hbl hcls hint sym hsy hcf nm st1 hss
    intro r st2 hok hc hal
    rw [translateObject.eq_def] at hok
    rw [if_neg hbl, if_neg hcls, if_pos hint] at hok
    simp [hsy] at hok
    rw [if_neg hcf] at hok
    simp [hss] at hok
    obtain ⟨hal1, hnm⟩ := symbolToString_out henv hal hss
    rcases hok with ⟨hr, hst⟩
    subst hr
    refine ⟨bangLt (hnm nm rfl).1, ?_⟩
    first
    | (subst hst
       exact hal1)
    | (rw [← hst]
       exact hal1)
  case case45 =>
    intro t st hbl hcls hint href htg
    intro r st2 hok hc hal
    rw [translateObject.eq_def] at hok
    rw [if_neg hbl, if_neg hcls, if_neg hint, if_pos href] at hok
    split at hok
    next heq => cases hok
    next tgt2 heq => rw [htg] at heq; cases heq
  case case46 =>
    intro t st hbl hcls hint href tgt htg htup
    intro r st2 hok hc hal
    rw [translateObject.eq_def] at hok
    rw [if_neg hbl, if_neg hcls, if_neg hint, if_pos href] at hok
    split at hok
    next heq => rw [htg] at heq; cases heq
    next tgt2 heq =>
      rw [htg] at heq
      injection heq with e2
      subst e2
      rw [if_pos htup] at hok
      injection hok with hpair
      injection hpair with hr hst
      subst hr
      refine ⟨by decide, ?_⟩
      first
      | (subst hst
         exact hal)
      | (rw [← hst]
         exact hal)
  case case47 =>
    intro t st hbl hcls hint href tgt htg htup htid
    intro r st2 hok hc hal
    rw [translateObject.eq_def] at hok
    rw [if_neg hbl, if_neg hcls, if_neg hint, if_pos href] at hok
    split at hok
    next heq => rw [htg] at heq; cases heq
    next tgt2 heq =>
      rw [htg] at heq
      injection heq with e2
      subst e2
      rw [if_neg htup, if_pos htid] at hok
      cases hok
  case case48 =>
    intro t st hbl hcls hint href tgt htg htup htid e herr ih
    intro r st2 hok hc hal
    rw [translateObject.eq_def] at hok
    rw [if_neg hbl, if_neg hcls, if_neg hint, if_pos href] at hok
    split at hok
    next heq => rw [htg] at heq; cases heq
    next tgt2 heq =>
      rw [htg] at heq
      injection heq with e2
      subst e2
      rw [if_neg htup, if_neg htid] at hok
      simp [herr] at hok
  case case49 =>
    intro t st hbl hcls hint href tgt htg htup htid st1 htr ih
    intro r st2 hok hc hal
    rw [translateObject.eq_def] at hok
    rw [if_neg hbl, if_neg hcls, if_neg hint, if_pos href] at hok
    split at hok
    next heq => rw [htg] at heq; cases heq
    next tgt2 heq =>
      rw [htg] at heq
      injection heq with e2
      subst e2
      rw [if_neg htup, if_neg htid] at hok
      simp [htr] at hok
      obtain ⟨hq1, hal1⟩ := ih "?" st1 htr (c5Ty_target hc htg) hal
      rcases hok with ⟨hr, hst⟩
      subst hr
      refine ⟨by decide, ?_⟩
      first
      | (subst hst
         exact hal1)
      | (rw [← hst]
         exact hal1)
  case case50 =>
    intro t st hbl hcls hint href tgt htg htup htid s st1 htr hne hargs ih
    intro r st2 hok hc hal
    rw [translateObject.eq_def] at hok
    rw [if_neg hbl, if_neg hcls, if_neg hint, if_pos href] at hok
    split at hok
    next heq => rw [htg] at heq; cases heq
    next tgt2 heq =>
      rw [htg] at heq
      injection heq with e2
      subst e2
      rw [if_neg htup, if_neg htid] at hok
      simp [htr, hne] at hok
      split at hok
      next heq2 =>
        injection hok with hpair
        injection hpair with hr hst
        subst hr
        obtain ⟨hq1, hal1⟩ := ih s st1 htr (c5Ty_target hc htg) hal
        refine ⟨hq1, ?_⟩
        first
        | (subst hst
           exact hal1)
        | (rw [← hst]
           exact hal1)
      next args heq2 => rw [hargs] at heq2; cases heq2
  case case51 =>
    intro t st hbl hcls hint href tgt htg htup htid s st1 htr hne args hargs e herr ih ihl
    intro r st2 hok hc hal
    rw [translateObject.eq_def] at hok
    rw [if_neg hbl, if_neg hcls, if_neg hint, if_pos href] at hok
    split at hok
    next heq => rw [htg] at heq; cases heq
    next tgt2 heq =>
      rw [htg] at heq
      injection heq with e2
      subst e2
      rw [if_neg htup, if_neg htid] at hok
      simp [htr, hne] at hok
      split at hok
      next heq2 => rw [hargs] at heq2; cases heq2
      next args2 heq2 =>
        rw [hargs] at heq2
        injection heq2 with e3
        subst e3
        simp [herr] at hok
  case case52 =>
    intro t st hbl hcls hint href tgt htg htup htid s st1 htr hne args hargs parts st3 hok2 ih ihl
    intro r st2 hok hc hal
    rw [translateObject.eq_def] at hok
    rw [if_neg hbl, if_neg hcls, if_neg hint, if_pos href] at hok
    split at hok
    next heq => rw [htg] at heq; cases heq
    next tgt2 heq =>
      rw [htg] at heq
      injection heq with e2
      subst e2
      rw [if_neg htup, if_neg htid] at hok
      simp [htr, hne] at hok
      split at hok
      next heq2 => rw [hargs] at heq2; cases heq2
      next args2 heq2 =>
        rw [hargs] at heq2
        injection heq2 with e3
        subst e3
        simp [hok2] at hok
        first
        | (injection hok with hpair
           injection hpair with hr hst
           subst hr)
        | (rcases hok with ⟨hr, hst⟩
           subst hr)
        obtain ⟨hq1, hal1⟩ := ih s st1 htr (c5Ty_target hc htg) hal
        obtain ⟨hparts2, hal2⟩ := ihl parts st3 hok2 (c5Ty_typeArgs hc hargs) hal1
        have hro := refTargetOk_elim (c5Ty_refTarget hc) href htg htup
        have haux := refTargetOut env tpS henv tgt st hro.1 hro.2.1 hro.2.2 hal s st1 htr
        have hlast : s.data.getLast? ≠ some '?' := haux.2.resolve_left hne
        have hparts : ∀ p ∈ parts, qltFree p = true := hparts2
        have h1 : qltFree (s ++ "<") = true :=
          qltFree_append haux.1 (by decide) (Or.inl hlast)
        have hj : qltFree (joinSep ", " parts) = true :=
          joinSep_qltFree ", " (by decide) (by decide) (by decide) (by decide)
            parts hparts
        have h2 : qltFree (s ++ "<" ++ joinSep ", " parts) = true := by
          refine qltFree_append h1 hj (Or.inl ?_)
          rw [strLast_append (by decide)]
          decide
        refine ⟨qltFree_append_r h2 (by decide) (by decide), ?_⟩
        first
        | (subst hst
           exact hal2)
        | (rw [← hst]
           exact hal2)
  case case53 =>
    intro t st hbl hcls hint href hanon hsy
    intro r st2 hok hc hal
    rw [translateObject.eq_def] at hok
    rw [if_neg hbl, if_neg hcls, if_neg hint, if_neg href, if_pos hanon] at hok
    simp [hsy] at hok
    rcases hok with ⟨hr, hst⟩
    subst hr
    refine ⟨by decide, ?_⟩
    first
    | (subst hst
       exact hal)
    | (rw [← hst]
       exact hal)
  case case54 =>
    intro t st hbl hcls hint href hanon sym hsy hfm sg hcs ihs
    intro r st2 hok hc hal
    rw [translateObject.eq_def] at hok
    rw [if_neg hbl, if_neg hcls, if_neg hint, if_neg href, if_pos hanon] at hok
    simp [hsy] at hok
    rw [if_pos hfm] at hok
    split at hok
    next sg2 heq =>
      rw [hcs] at heq
      injection heq with e2 e3
      subst e2
      exact ihs r st2 hok (c5SigList_of_eq (c5Ty_callSigs hc) hcs) hal
    next heq =>
      injection hok with hpair
      injection hpair with hr hst
      subst hr
      refine ⟨by decide, ?_⟩
      first
      | (subst hst
         exact hal)
      | (rw [← hst]
         exact hal)
  case case55 =>
    intro t st hbl hcls hint href hanon sym hsy hfm hnone
    intro r st2 hok hc hal
    rw [translateObject.eq_def] at hok
    rw [if_neg hbl, if_neg hcls, if_neg hint, if_neg href, if_pos hanon] at hok
    simp [hsy] at hok
    rw [if_pos hfm] at hok
    first
    | (injection hok with hpair
       injection hpair with hr hst
       subst hr
       refine ⟨by decide, ?_⟩
       first
       | (subst hst
          exact hal)
       | (rw [← hst]
          exact hal))
    | (split at hok
       next sg2 heq => exact ((hnone sg2 heq).elim)
       next heq =>
         injection hok with hpair
         injection hpair with hr hst
         subst hr
         refine ⟨by decide, ?_⟩
         first
         | (subst hst
            exact hal)
         | (rw [← hst]
            exact hal))
  case case56 =>
    intro t st hbl hcls hint href hanon sym hsy hfm ih
    intro r st2 hok hc hal
    rw [translateObject.eq_def] at hok
    rw [if_neg hbl, if_neg hcls, if_neg hint, if_neg href, if_pos hanon] at hok
    simp [hsy] at hok
    rw [if_neg hfm] at hok
    exact ih r st2 hok hc hal
  case case57 =>
    intro t st hbl hcls hint href hanon
    intro r st2 hok hc hal
    rw [translateObject.eq_def] at hok
    rw [if_neg hbl, if_neg hcls, if_neg hint, if_neg href, if_neg hanon] at hok
    injection hok with hpair
    injection hpair with hr hst
    subst hr
    refine ⟨by decide, ?_⟩
    first
    | (subst hst
       exact hal)
    | (rw [← hst]
       exact hal)
  case case58 =>
    intro t st hsy
    intro r stm hok hc hal
    rw [translateAnonymousType.eq_def] at hok
    split at hok
    next heq =>
      first
      | (injection hok with hpair
         injection hpair with hr hst
         subst hr
         refine ⟨by decide, ?_⟩
         first
         | (subst hst
            exact hal)
         | (rw [← hst]
            exact hal))
      | (rcases hok with ⟨hr, hst⟩
         subst hr
         refine ⟨by decide, ?_⟩
         first
         | (subst hst
            exact hal)
         | (rw [← hst]
            exact hal))
      | (simp at hok
         rcases hok with ⟨hr, hst⟩
         subst hr
         refine ⟨by decide, ?_⟩
         first
         | (subst hst
            exact hal)
         | (rw [← hst]
            exact hal))
    next s heq => rw [hsy] at heq; cases heq
  case case59 =>
    intro t st s hsy hmem
    intro r stm hok hc hal
    rw [translateAnonymousType.eq_def] at hok
    split at hok
    next heq => rw [hsy] at heq; cases heq
    next s2 heq =>
      rw [hsy] at heq
      injection heq with e2
      subst e2
      split at hok
      next heq2 =>
        first
        | (injection hok with hpair
           injection hpair with hr hst
           subst hr
           refine ⟨by decide, ?_⟩
           first
           | (subst hst
              exact hal)
           | (rw [← hst]
              exact hal))
        | (rcases hok with ⟨hr, hst⟩
           subst hr
           refine ⟨by decide, ?_⟩
           first
           | (subst hst
              exact hal)
           | (rw [← hst]
              exact hal))
        | (simp at hok
           rcases hok with ⟨hr, hst⟩
           subst hr
           refine ⟨by decide, ?_⟩
           first
           | (subst hst
              exact hal)
           | (rw [← hst]
              exact hal))
      next mems2 heq2 => rw [hmem] at heq2; cases heq2
  case case60 =>
    intro t st s hsy mems hmem ctor tail hcs hd
    intro r stm hok hc hal
    rw [translateAnonymousType.eq_def] at hok
    split at hok
    next heq => rw [hsy] at heq; cases heq
    next s2 heq =>
      rw [hsy] at heq
      injection heq with e2
      subst e2
      split at hok
      next heq2 => rw [hmem] at heq2; cases heq2
      next mems2 heq2 =>
        rw [hmem] at heq2
        injection heq2 with e3
        subst e3
        split at hok
        next ctor2 tail2 heq3 =>
          rw [hcs] at heq3
          injection heq3 with e4 e5
          subst e4
          split at hok
          next heq4 =>
            first
            | (injection hok with hpair
               injection hpair with hr hst
               subst hr
               refine ⟨by decide, ?_⟩
               first
               | (subst hst
                  exact hal)
               | (rw [← hst]
                  exact hal))
            | (rcases hok with ⟨hr, hst⟩
               subst hr
               refine ⟨by decide, ?_⟩
               first
               | (subst hst
                  exact hal)
               | (rw [← hst]
                  exact hal))
            | (simp at hok
               rcases hok with ⟨hr, hst⟩
               subst hr
               refine ⟨by decide, ?_⟩
               first
               | (subst hst
                  exact hal)
               | (rw [← hst]
                  exact hal))
          next d2 heq4 => rw [hd] at heq4; cases heq4
        next heq3 => rw [hcs] at heq3; cases heq3
  case case61 =>
    intro t st s hsy mems hmem ctor tail hcs d hd hj
    intro r stm hok hc hal
    rw [translateAnonymousType.eq_def] at hok
    split at hok
    next heq => rw [hsy] at heq; cases heq
    next s2 heq =>
      rw [hsy] at heq
      injection heq with e2
      subst e2
      split at hok
      next heq2 => rw [hmem] at heq2; cases heq2
      next mems2 heq2 =>
        rw [hmem] at heq2
        injection heq2 with e3
        subst e3
        split at hok
        next ctor2 tail2 heq3 =>
          rw [hcs] at heq3
          injection heq3 with e4 e5
          subst e4
          split at hok
          next heq4 => rw [hd] at heq4; cases heq4
          next d2 heq4 =>
            rw [hd] at heq4
            injection heq4 with e6
            subst e6
            simp [hj] at hok
            first
            | (injection hok with hpair
               injection hpair with hr hst
               subst hr
               refine ⟨by decide, ?_⟩
               first
               | (subst hst
                  exact hal)
               | (rw [← hst]
                  exact hal))
            | (rcases hok with ⟨hr, hst⟩
               subst hr
               refine ⟨by decide, ?_⟩
               first
               | (subst hst
                  exact hal)
               | (rw [← hst]
                  exact hal))
            | (simp at hok
               rcases hok with ⟨hr, hst⟩
               subst hr
               refine ⟨by decide, ?_⟩
               first
               | (subst hst
                  exact hal)
               | (rw [← hst]
                  exact hal))
        next heq3 => rw [hcs] at heq3; cases heq3
  case case62 =>
    intro t st st0l s hsy mems hmem ctor tail hcs d hd hj st1l e herr ih
    intro r stm hok hc hal
    unfold st1l at herr
    unfold st0l at herr
    rw [translateAnonymousType.eq_def] at hok
    split at hok
    next heq => rw [hsy] at heq; cases heq
    next s2 heq =>
      rw [hsy] at heq
      injection heq with e2
      subst e2
      split at hok
      next heq2 => rw [hmem] at heq2; cases heq2
      next mems2 heq2 =>
        rw [hmem] at heq2
        injection heq2 with e3
        subst e3
        split at hok
        next ctor2 tail2 heq3 =>
          rw [hcs] at heq3
          injection heq3 with e4 e5
          subst e4
          split at hok
          next heq4 => rw [hd] at heq4; cases heq4
          next d2 heq4 =>
            rw [hd] at heq4
            injection heq4 with e6
            subst e6
            simp [hj, herr] at hok
        next heq3 => rw [hcs] at heq3; cases heq3
  case case63 =>
    intro t st st0l s hsy mems hmem ctor tail hcs d hd hj st1l parts stp hconv e herr ih ihr
    intro r stm hok hc hal
    unfold st1l at hconv
    unfold st0l at hconv
    rw [translateAnonymousType.eq_def] at hok
    split at hok
    next heq => rw [hsy] at heq; cases heq
    next s2 heq =>
      rw [hsy] at heq
      injection heq with e2
      subst e2
      split at hok
      next heq2 => rw [hmem] at heq2; cases heq2
      next mems2 heq2 =>
        rw [hmem] at heq2
        injection heq2 with e3
        subst e3
        split at hok
        next ctor2 tail2 heq3 =>
          rw [hcs] at heq3
          injection heq3 with e4 e5
          subst e4
          split at hok
          next heq4 => rw [hd] at heq4; cases heq4
          next d2 heq4 =>
            rw [hd] at heq4
            injection heq4 with e6
            subst e6
            simp [hj, hconv, herr] at hok
        next heq3 => rw [hcs] at heq3; cases heq3
  case case64 =>
    intro t st st0l s hsy mems hmem ctor tail hcs d hd hj st1l parts stp hconv ct st3 htr ih ihr
    intro r stm hok hc hal
    unfold st1l at hconv
    unfold st0l at hconv
    rw [translateAnonymousType.eq_def] at hok
    split at hok
    next heq => rw [hsy] at heq; cases heq
    next s2 heq =>
      rw [hsy] at heq
      injection heq with e2
      subst e2
      split at hok
      next heq2 => rw [hmem] at heq2; cases heq2
      next mems2 heq2 =>
        rw [hmem] at heq2
        injection heq2 with e3
        subst e3
        split at hok
        next ctor2 tail2 heq3 =>
          rw [hcs] at heq3
          injection heq3 with e4 e5
          subst e4
          split at hok
          next heq4 => rw [hd] at heq4; cases heq4
          next d2 heq4 =>
            rw [hd] at heq4
            injection heq4 with e6
            subst e6
            simp [hj, hconv, htr] at hok
            first
            | (rcases hok with ⟨hr, hst⟩)
            | (injection hok with hpair
               injection hpair with hr hst)
            subst hr
            have hsg := c5SigList_of_eq (c5Ty_ctorSigs hc) hcs
            have halB : tpAliasOk tpS (blacklistTypeParameters
                { st with seen := t.tid :: st.seen } d.typeParams).aliases :=
              blacklist_pres hal (c5Sig_tps hsg hd)
            obtain ⟨hparts, halP⟩ := ih parts stp hconv (c5Sig_params hsg) halB
            obtain ⟨hct, halR⟩ := ihr ct st3 htr (c5Sig_ret hsg) halP
            have hpsq : ∀ q : String, qltFree q = true → q.data.head? ≠ some '<' →
                qltFree ("function(new: (" ++ ct ++ ")" ++ q ++ "): ?") = true := by
              intro q hq hh
              have h1 : qltFree ("function(new: (" ++ ct) = true :=
                qltFree_append (by decide) hct (Or.inl (by decide))
              have h2 : qltFree ("function(new: (" ++ ct ++ ")") = true :=
                qltFree_append_r h1 (by decide) (by decide)
              have h3 : qltFree ("function(new: (" ++ ct ++ ")" ++ q) = true :=
                qltFree_append_r h2 hq hh
              exact qltFree_append h3 (by decide) (Or.inr (by decide))
            refine ⟨?_, ?_⟩
            · apply hpsq
              · split
                all_goals first
                  | decide
                  | exact qltFree_append (by decide)
                      (joinSep_qltFree ", " (by decide) (by decide) (by decide)
                        (by decide) parts hparts) (Or.inl (by decide))
              · split
                all_goals first
                  | decide
                  | (rw [strHead_append (by decide)]
                     decide)
            · first
              | (subst hst
                 exact halR)
              | (rw [← hst]
                 exact halR)
        next heq3 => rw [hcs] at heq3; cases heq3
  case case65 =>
    intro t st st0l s hsy mems hmem hcs e herr ih
    intro r stm hok hc hal
    unfold st0l at herr
    rw [translateAnonymousType.eq_def] at hok
    split at hok
    next heq => rw [hsy] at heq; cases heq
    next s2 heq =>
      rw [hsy] at heq
      injection heq with e2
      subst e2
      split at hok
      next heq2 => rw [hmem] at heq2; cases heq2
      next mems2 heq2 =>
        rw [hmem] at heq2
        injection heq2 with e3
        subst e3
        split at hok
        next ctor2 tail2 heq3 => rw [hcs] at heq3; cases heq3
        next heq3 =>
          simp [herr] at hok
  case case66 =>
    intro t st st0l s hsy mems hmem hcs callable indexable fields st1 hanon hfe hci sg hcsig ih ihs
    intro r stm hok hc hal
    unfold st0l at hanon
    rw [translateAnonymousType.eq_def] at hok
    split at hok
    next heq => rw [hsy] at heq; cases heq
    next s2 heq =>
      rw [hsy] at heq
      injection heq with e2
      subst e2
      split at hok
      next heq2 => rw [hmem] at heq2; cases heq2
      next mems2 heq2 =>
        rw [hmem] at heq2
        injection heq2 with e3
        subst e3
        split at hok
        next ctor2 tail2 heq3 => rw [hcs] at heq3; cases heq3
        next heq3 =>
          obtain ⟨hfl, hal1⟩ := ih callable indexable fields st1 hanon
            (c5Ty_members hc hsy hmem)
            (fun x hx => absurd hx (List.not_mem_nil x)) hal
          simp [hanon, hfe, hci] at hok
          first
          | (exact ihs r stm hok (c5SigList_of_eq (c5Ty_callSigs hc) hcsig) hal1)
          | (split at hok
             next sg2 heq4 =>
               rw [hcsig] at heq4
               injection heq4 with e4 e5
               subst e4
               exact ihs r stm hok (c5SigList_of_eq (c5Ty_callSigs hc) hcsig) hal1
             next heq4 =>
               first
               | (injection hok with hpair
                  injection hpair with hr hst
                  subst hr
                  refine ⟨by decide, ?_⟩
                  first
                  | (subst hst
                     exact hal1)
                  | (rw [← hst]
                     exact hal1))
               | (rcases hok with ⟨hr, hst⟩
                  subst hr
                  refine ⟨by decide, ?_⟩
                  first
                  | (subst hst
                     exact hal1)
                  | (rw [← hst]
                     exact hal1))
               | (simp at hok
                  rcases hok with ⟨hr, hst⟩
                  subst hr
                  refine ⟨by decide, ?_⟩
                  first
                  | (subst hst
                     exact hal1)
                  | (rw [← hst]
                     exact hal1)))
  case case67 =>
    intro t st st0l s hsy mems hmem hcs callable indexable fields st1 hanon hfe hci hnone ih
    intro r stm hok hc hal
    unfold st0l at hanon
    rw [translateAnonymousType.eq_def] at hok
    split at hok
    next heq => rw [hsy] at heq; cases heq
    next s2 heq =>
      rw [hsy] at heq
      injection heq with e2
      subst e2
      split at hok
      next heq2 => rw [hmem] at heq2; cases heq2
      next mems2 heq2 =>
        rw [hmem] at heq2
        injection heq2 with e3
        subst e3
        split at hok
        next ctor2 tail2 heq3 => rw [hcs] at heq3; cases heq3
        next heq3 =>
          obtain ⟨hfl, hal1⟩ := ih callable indexable fields st1 hanon
            (c5Ty_members hc hsy hmem)
            (fun x hx => absurd hx (List.not_mem_nil x)) hal
          simp [hanon, hfe, hci] at hok
          first
          | (rcases hok with ⟨hr, hst⟩
             subst hr
             refine ⟨by decide, ?_⟩
             first
             | (subst hst
                exact hal1)
             | (rw [← hst]
                exact hal1))
          | (injection hok with hpair
             injection hpair with hr hst
             subst hr
             refine ⟨by decide, ?_⟩
             first
             | (subst hst
                exact hal1)
             | (rw [← hst]
                exact hal1))
          | (split at hok
             next sg2 heq4 => exact ((hnone sg2 heq4).elim)
             next heq4 =>
               first
               | (injection hok with hpair
                  injection hpair with hr hst
                  subst hr
                  refine ⟨by decide, ?_⟩
                  first
                  | (subst hst
                     exact hal1)
                  | (rw [← hst]
                     exact hal1))
               | (rcases hok with ⟨hr, hst⟩
                  subst hr
                  refine ⟨by decide, ?_⟩
                  first
                  | (subst hst
                     exact hal1)
                  | (rw [← hst]
                     exact hal1))
               | (simp at hok
                  rcases hok with ⟨hr, hst⟩
                  subst hr
                  refine ⟨by decide, ?_⟩
                  first
                  | (subst hst
                     exact hal1)
                  | (rw [← hst]
                     exact hal1)))
  case case68 =>
    intro t st st0l s hsy mems hmem hcs callable indexable fields st1 hanon hfe hci hic valTy hsi e herr ih ihv
    intro r stm hok hc hal
    unfold st0l at hanon
    rw [translateAnonymousType.eq_def] at hok
    split at hok
    next heq => rw [hsy] at heq; cases heq
    next s2 heq =>
      rw [hsy] at heq
      injection heq with e2
      subst e2
      split at hok
      next heq2 => rw [hmem] at heq2; cases heq2
      next mems2 heq2 =>
        rw [hmem] at heq2
        injection heq2 with e3
        subst e3
        split at hok
        next ctor2 tail2 heq3 => rw [hcs] at heq3; cases heq3
        next heq3 =>
          simp [hanon, hfe, hci, hic] at hok
          split at hok
          next valTy2 heq4 =>
            rw [hsi] at heq4
            injection heq4 with e4
            subst e4
            simp [herr] at hok
          next heq4 => rw [hsi] at heq4; cases heq4
  case case69 =>
    intro t st st0l s hsy mems hmem hcs callable indexable fields st1 hanon hfe hci hic valTy hsi v st2x htr ih ihv
    intro r stm hok hc hal
    unfold st0l at hanon
    rw [translateAnonymousType.eq_def] at hok
    split at hok
    next heq => rw [hsy] at heq; cases heq
    next s2 heq =>
      rw [hsy] at heq
      injection heq with e2
      subst e2
      split at hok
      next heq2 => rw [hmem] at heq2; cases heq2
      next mems2 heq2 =>
        rw [hmem] at heq2
        injection heq2 with e3
        subst e3
        split at hok
        next ctor2 tail2 heq3 => rw [hcs] at heq3; cases heq3
        next heq3 =>
          obtain ⟨hfl, hal1⟩ := ih callable indexable fields st1 hanon
            (c5Ty_members hc hsy hmem)
            (fun x hx => absurd hx (List.not_mem_nil x)) hal
          simp [hanon, hfe, hci, hic] at hok
          split at hok
          next valTy2 heq4 =>
            rw [hsi] at heq4
            injection heq4 with e4
            subst e4
            simp [htr] at hok
            first
            | (rcases hok with ⟨hr, hst⟩)
            | (injection hok with hpair
               injection hpair with hr hst)
            subst hr
            obtain ⟨hv, hal2⟩ := ihv v st2x htr (c5Ty_strIndex hc hsi) hal1
            have h1 : qltFree ("!Object<string," ++ v) = true :=
              qltFree_append (by decide) hv (Or.inl (by decide))
            refine ⟨qltFree_append_r h1 (by decide) (by decide), ?_⟩
            first
            | (subst hst
               exact hal2)
            | (rw [← hst]
               exact hal2)
          next heq4 => rw [hsi] at heq4; cases heq4
  case case70 =>
    intro t st st0l s hsy mems hmem hcs callable indexable fields st1 hanon hfe hci hic hsi valTy hni e herr ih ihv
    intro r stm hok hc hal
    unfold st0l at hanon
    rw [translateAnonymousType.eq_def] at hok
    split at hok
    next heq => rw [hsy] at heq; cases heq
    next s2 heq =>
      rw [hsy] at heq
      injection heq with e2
      subst e2
      split at hok
      next heq2 => rw [hmem] at heq2; cases heq2
      next mems2 heq2 =>
        rw [hmem] at heq2
        injection heq2 with e3
        subst e3
        split at hok
        next ctor2 tail2 heq3 => rw [hcs] at heq3; cases heq3
        next heq3 =>
          simp [hanon, hfe, hci, hic] at hok
          split at hok
          next valTy2 heq4 => rw [hsi] at heq4; cases heq4
          next heq4 =>
            split at hok
            next valTy2 heq5 =>
              rw [hni] at heq5
              injection heq5 with e4
              subst e4
              simp [herr] at hok
            next heq5 => rw [hni] at heq5; cases heq5
  case case71 =>
    intro t st st0l s hsy mems hmem hcs callable indexable fields st1 hanon hfe hci hic hsi valTy hni v st2x htr ih ihv
    intro r stm hok hc hal
    unfold st0l at hanon
    rw [translateAnonymousType.eq_def] at hok
    split at hok
    next heq => rw [hsy] at heq; cases heq
    next s2 heq =>
      rw [hsy] at heq
      injection heq with e2
      subst e2
      split at hok
      next heq2 => rw [hmem] at heq2; cases heq2
      next mems2 heq2 =>
        rw [hmem] at heq2
        injection heq2 with e3
        subst e3
        split at hok
        next ctor2 tail2 heq3 => rw [hcs] at heq3; cases heq3
        next heq3 =>
          obtain ⟨hfl, hal1⟩ := ih callable indexable fields st1 hanon
            (c5Ty_members hc hsy hmem)
            (fun x hx => absurd hx (List.not_mem_nil x)) hal
          simp [hanon, hfe, hci, hic] at hok
          split at hok
          next valTy2 heq4 => rw [hsi] at heq4; cases heq4
          next heq4 =>
            split at hok
            next valTy2 heq5 =>
              rw [hni] at heq5
              injection heq5 with e4
              subst e4
              simp [htr] at hok
              first
              | (rcases hok with ⟨hr, hst⟩)
              | (injection hok with hpair
                 injection hpair with hr hst)
              subst hr
              obtain ⟨hv, hal2⟩ := ihv v st2x htr (c5Ty_numIndex hc hni) hal1
              have h1 : qltFree ("!Object<number," ++ v) = true :=
                qltFree_append (by decide) hv (Or.inl (by decide))
              refine ⟨qltFree_append_r h1 (by decide) (by decide), ?_⟩
              first
              | (subst hst
                 exact hal2)
              | (rw [← hst]
                 exact hal2)
            next heq5 => rw [hni] at heq5; cases heq5
  case case72 =>
    intro t st st0l s hsy mems hmem hcs callable indexable fields st1 hanon hfe hci hic hsi hni ih
    intro r stm hok hc hal
    unfold st0l at hanon
    rw [translateAnonymousType.eq_def] at hok
    split at hok
    next heq => rw [hsy] at heq; cases heq
    next s2 heq =>
      rw [hsy] at heq
      injection heq with e2
      subst e2
      split at hok
      next heq2 => rw [hmem] at heq2; cases heq2
      next mems2 heq2 =>
        rw [hmem] at heq2
        injection heq2 with e3
        subst e3
        split at hok
        next ctor2 tail2 heq3 => rw [hcs] at heq3; cases heq3
        next heq3 =>
          obtain ⟨hfl, hal1⟩ := ih callable indexable fields st1 hanon
            (c5Ty_members hc hsy hmem)
            (fun x hx => absurd hx (List.not_mem_nil x)) hal
          simp [hanon, hfe, hci, hic] at hok
          split at hok
          next valTy2 heq4 => rw [hsi] at heq4; cases heq4
          next heq4 =>
            split at hok
            next valTy2 heq5 => rw [hni] at heq5; cases heq5
            next heq5 =>
              first
              | (injection hok with hpair
                 injection hpair with hr hst
                 subst hr
                 refine ⟨by decide, ?_⟩
                 first
                 | (subst hst
                    exact hal1)
                 | (rw [← hst]
                    exact hal1))
              | (rcases hok with ⟨hr, hst⟩
                 subst hr
                 refine ⟨by decide, ?_⟩
                 first
                 | (subst hst
                    exact hal1)
                 | (rw [← hst]
                    exact hal1))
              | (simp at hok
                 rcases hok with ⟨hr, hst⟩
                 subst hr
                 refine ⟨by decide, ?_⟩
                 first
                 | (subst hst
                    exact hal1)
                 | (rw [← hst]
                    exact hal1))
  case case73 =>
    intro t st st0l s hsy mems hmem hcs callable indexable fields st1 hanon hfe hci hic hni ih
    intro r stm hok hc hal
    unfold st0l at hanon
    rw [translateAnonymousType.eq_def] at hok
    split at hok
    next heq => rw [hsy] at heq; cases heq
    next s2 heq =>
      rw [hsy] at heq
      injection heq with e2
      subst e2
      split at hok
      next heq2 => rw [hmem] at heq2; cases heq2
      next mems2 heq2 =>
        rw [hmem] at heq2
        injection heq2 with e3
        subst e3
        split at hok
        next ctor2 tail2 heq3 => rw [hcs] at heq3; cases heq3
        next heq3 =>
          obtain ⟨hfl, hal1⟩ := ih callable indexable fields st1 hanon
            (c5Ty_members hc hsy hmem)
            (fun x hx => absurd hx (List.not_mem_nil x)) hal
          simp [hanon, hfe, hci, hic, hni] at hok
          first
          | (injection hok with hpair
             injection hpair with hr hst
             subst hr
             refine ⟨by decide, ?_⟩
             first
             | (subst hst
                exact hal1)
             | (rw [← hst]
                exact hal1))
          | (rcases hok with ⟨hr, hst⟩
             subst hr
             refine ⟨by decide, ?_⟩
             first
             | (subst hst
                exact hal1)
             | (rw [← hst]
                exact hal1))
          | (simp at hok
             rcases hok with ⟨hr, hst⟩
             subst hr
             refine ⟨by decide, ?_⟩
             first
             | (subst hst
                exact hal1)
             | (rw [← hst]
                exact hal1))
  case case74 =>
    intro t st st0l s hsy mems hmem hcs callable indexable fields st1 hanon hfe hci hic hni ih
    intro r stm hok hc hal
    unfold st0l at hanon
    rw [translateAnonymousType.eq_def] at hok
    split at hok
    next heq => rw [hsy] at heq; cases heq
    next s2 heq =>
      rw [hsy] at heq
      injection heq with e2
      subst e2
      split at hok
      next heq2 => rw [hmem] at heq2; cases heq2
      next mems2 heq2 =>
        rw [hmem] at heq2
        injection heq2 with e3
        subst e3
        split at hok
        next ctor2 tail2 heq3 => rw [hcs] at heq3; cases heq3
        next heq3 =>
          obtain ⟨hfl, hal1⟩ := ih callable indexable fields st1 hanon
            (c5Ty_members hc hsy hmem)
            (fun x hx => absurd hx (List.not_mem_nil x)) hal
          simp [hanon, hfe, hci, hic, hni] at hok
          first
          | (injection hok with hpair
             injection hpair with hr hst
             subst hr
             refine ⟨by decide, ?_⟩
             first
             | (subst hst
                exact hal1)
             | (rw [← hst]
                exact hal1))
          | (rcases hok with ⟨hr, hst⟩
             subst hr
             refine ⟨by decide, ?_⟩
             first
             | (subst hst
                exact hal1)
             | (rw [← hst]
                exact hal1))
          | (simp at hok
             rcases hok with ⟨hr, hst⟩
             subst hr
             refine ⟨by decide, ?_⟩
             first
             | (subst hst
                exact hal1)
             | (rw [← hst]
                exact hal1))
  case case75 =>
    intro t st st0l s hsy mems hmem hcs callable indexable fields st1 hanon hfe hci ih
    intro r stm hok hc hal
    unfold st0l at hanon
    rw [translateAnonymousType.eq_def] at hok
    split at hok
    next heq => rw [hsy] at heq; cases heq
    next s2 heq =>
      rw [hsy] at heq
      injection heq with e2
      subst e2
      split at hok
      next heq2 => rw [hmem] at heq2; cases heq2
      next mems2 heq2 =>
        rw [hmem] at heq2
        injection heq2 with e3
        subst e3
        split at hok
        next ctor2 tail2 heq3 => rw [hcs] at heq3; cases heq3
        next heq3 =>
          obtain ⟨hfields, hal1⟩ := ih callable indexable fields st1 hanon
            (c5Ty_members hc hsy hmem)
            (fun x hx => absurd hx (List.not_mem_nil x)) hal
          simp [hanon, hfe, hci] at hok
          first
          | (rcases hok with ⟨hr, hst⟩)
          | (injection hok with hpair
             injection hpair with hr hst)
          subst hr
          have h1 : qltFree ("\x7b" ++ joinSep ", " fields) = true :=
            qltFree_append (by decide)
              (joinSep_qltFree ", " (by decide) (by decide) (by decide)
                (by decide) fields hfields) (Or.inl (by decide))
          refine ⟨qltFree_append_r h1 (by decide) (by decide), ?_⟩
          first
          | (subst hst
             exact hal1)
          | (rw [← hst]
             exact hal1)
  case case76 =>
    intro t st st0l s hsy mems hmem hcs callable indexable fields st1 hanon hfe hci ih
    intro r stm hok hc hal
    unfold st0l at hanon
    rw [translateAnonymousType.eq_def] at hok
    split at hok
    next heq => rw [hsy] at heq; cases heq
    next s2 heq =>
      rw [hsy] at heq
      injection heq with e2
      subst e2
      split at hok
      next heq2 => rw [hmem] at heq2; cases heq2
      next mems2 heq2 =>
        rw [hmem] at heq2
        injection heq2 with e3
        subst e3
        split at hok
        next ctor2 tail2 heq3 => rw [hcs] at heq3; cases heq3
        next heq3 =>
          obtain ⟨hfl, hal1⟩ := ih callable indexable fields st1 hanon
            (c5Ty_members hc hsy hmem)
            (fun x hx => absurd hx (List.not_mem_nil x)) hal
          simp [hanon, hfe, hci] at hok
          first
          | (injection hok with hpair
             injection hpair with hr hst
             subst hr
             refine ⟨by decide, ?_⟩
             first
             | (subst hst
                exact hal1)
             | (rw [← hst]
                exact hal1))
          | (rcases hok with ⟨hr, hst⟩
             subst hr
             refine ⟨by decide, ?_⟩
             first
             | (subst hst
                exact hal1)
             | (rw [← hst]
                exact hal1))
          | (simp at hok
             rcases hok with ⟨hr, hst⟩
             subst hr
             refine ⟨by decide, ?_⟩
             first
             | (subst hst
                exact hal1)
             | (rw [← hst]
                exact hal1))
  case case77 =>
    intro sg st hd
    intro r stm hok hc hal
    rw [signatureToClosure.eq_def] at hok
    split at hok
    next heq =>
      first
      | (injection hok with hpair
         injection hpair with hr hst
         subst hr
         refine ⟨by decide, ?_⟩
         first
         | (subst hst
            exact hal)
         | (rw [← hst]
            exact hal))
      | (rcases hok with ⟨hr, hst⟩
         subst hr
         refine ⟨by decide, ?_⟩
         first
         | (subst hst
            exact hal)
         | (rw [← hst]
            exact hal))
      | (simp at hok
         rcases hok with ⟨hr, hst⟩
         subst hr
         refine ⟨by decide, ?_⟩
         first
         | (subst hst
            exact hal)
         | (rw [← hst]
            exact hal))
    next d heq => rw [hd] at heq; cases heq
  case case78 =>
    intro sg st d hd hj
    intro r stm hok hc hal
    rw [signatureToClosure.eq_def] at hok
    split at hok
    next heq => rw [hd] at heq; cases heq
    next d2 heq =>
      rw [hd] at heq
      injection heq with e2
      subst e2
      simp [hj] at hok
      first
      | (injection hok with hpair
         injection hpair with hr hst
         subst hr
         refine ⟨by decide, ?_⟩
         first
         | (subst hst
            exact hal)
         | (rw [← hst]
            exact hal))
      | (rcases hok with ⟨hr, hst⟩
         subst hr
         refine ⟨by decide, ?_⟩
         first
         | (subst hst
            exact hal)
         | (rw [← hst]
            exact hal))
  case case79 =>
    intro sg st d hd hj st0l p rest hp hthis valTy ht e herr ih
    intro r stm hok hc hal
    unfold st0l at herr
    rw [signatureToClosure.eq_def] at hok
    split at hok
    next heq => rw [hd] at heq; cases heq
    next d2 heq =>
      rw [hd] at heq
      injection heq with e2
      subst e2
      simp [hj] at hok
      split at hok
      next p2 rest2 heq2 =>
        rw [hp] at heq2
        injection heq2 with e3 e4
        subst e3
        subst e4
        simp [hthis] at hok
        split at hok
        next valTy2 heq3 =>
          rw [ht] at heq3
          injection heq3 with e5
          subst e5
          simp [herr] at hok
        next heq3 => rw [ht] at heq3; cases heq3
      next heq2 => rw [hp] at heq2; cases heq2
  case case80 =>
    intro sg st d hd hj st0l p rest hp hthis valTy ht v st1 htr ih ihf
    intro r stm hok hc hal
    unfold st0l at htr
    rw [signatureToClosure.eq_def] at hok
    split at hok
    next heq => rw [hd] at heq; cases heq
    next d2 heq =>
      rw [hd] at heq
      injection heq with e2
      subst e2
      simp [hj] at hok
      split at hok
      next p2 rest2 heq2 =>
        rw [hp] at heq2
        injection heq2 with e3 e4
        subst e3
        subst e4
        simp [hthis] at hok
        split at hok
        next valTy2 heq3 =>
          rw [ht] at heq3
          injection heq3 with e5
          subst e5
          simp [htr] at hok
          have halB : tpAliasOk tpS (blacklistTypeParameters st d.typeParams).aliases :=
            blacklist_pres hal (c5Sig_tps hc hd)
          have hpd : c5PDecls tpS (p :: rest) = true := by
            rw [← hp]
            exact c5Sig_pdecls hc hd
          obtain ⟨hv, hal1⟩ := ih v st1 htr (c5PDecls_cons_thisTy hpd ht) halB
          refine ihf r stm hok (c5Sig_params hc) (c5Sig_ret hc) ?_ ?_ hal1
          · exact qltFree_append
              (qltFree_append_r
                (qltFree_append (by decide) hv (Or.inl (by decide)))
                (by decide) (by decide))
              (by split
                  all_goals decide)
              (Or.inr (by split
                          all_goals decide))
          · exact append_getLast_ne
              (by rw [strLast_append (by decide)]
                  decide)
              (by split
                  all_goals decide)
        next heq3 => rw [ht] at heq3; cases heq3
      next heq2 => rw [hp] at heq2; cases heq2
  case case81 =>
    intro sg st d hd hj st0l p rest hp hthis ht ihf
    intro r stm hok hc hal
    rw [signatureToClosure.eq_def] at hok
    split at hok
    next heq => rw [hd] at heq; cases heq
    next d2 heq =>
      rw [hd] at heq
      injection heq with e2
      subst e2
      simp [hj] at hok
      split at hok
      next p2 rest2 heq2 =>
        rw [hp] at heq2
        injection heq2 with e3 e4
        subst e3
        subst e4
        simp [hthis] at hok
        split at hok
        next valTy2 heq3 => rw [ht] at heq3; cases heq3
        next heq3 =>
          have halB : tpAliasOk tpS (blacklistTypeParameters st d.typeParams).aliases :=
            blacklist_pres hal (c5Sig_tps hc hd)
          exact ihf r stm hok (c5Sig_params hc) (c5Sig_ret hc) (by decide)
            (by decide) halB
      next heq2 => rw [hp] at heq2; cases heq2
  case case82 =>
    intro sg st d hd hj st0l p rest hp hthis ihf
    intro r stm hok hc hal
    rw [signatureToClosure.eq_def] at hok
    split at hok
    next heq => rw [hd] at heq; cases heq
    next d2 heq =>
      rw [hd] at heq
      injection heq with e2
      subst e2
      simp [hj] at hok
      split at hok
      next p2 rest2 heq2 =>
        rw [hp] at heq2
        injection heq2 with e3 e4
        subst e3
        subst e4
        simp [hthis] at hok
        have halB : tpAliasOk tpS (blacklistTypeParameters st d.typeParams).aliases :=
          blacklist_pres hal (c5Sig_tps hc hd)
        exact ihf r stm hok (c5Sig_params hc) (c5Sig_ret hc) (by decide)
          (by decide) halB
      next heq2 => rw [hp] at heq2; cases heq2
  case case83 =>
    intro sg st d hd hj st0l hp ihf
    intro r stm hok hc hal
    rw [signatureToClosure.eq_def] at hok
    split at hok
    next heq => rw [hd] at heq; cases heq
    next d2 heq =>
      rw [hd] at heq
      injection heq with e2
      subst e2
      simp [hj] at hok
      split at hok
      next p2 rest2 heq2 => rw [hp] at heq2; cases heq2
      next heq2 =>
        have halB : tpAliasOk tpS (blacklistTypeParameters st d.typeParams).aliases :=
          blacklist_pres hal (c5Sig_tps hc hd)
        exact ihf r stm hok (c5Sig_params hc) (c5Sig_ret hc) (by decide)
          (by decide) halB
  case case84 =>
    intro sg pds ts st e herr ih
    intro r stm hok hgp hgr hts htl hal
    rw [finishSignature.eq_def] at hok
    simp [herr] at hok
  case case85 =>
    intro sg pds ts st parts st1 hconv e herr ih ihr
    intro r stm hok hgp hgr hts htl hal
    rw [finishSignature.eq_def] at hok
    simp [hconv, herr] at hok
  case case86 =>
    intro sg pds ts st parts st1 hconv rv st2x htr ih ihr
    intro r stm hok hgp hgr hts htl hal
    rw [finishSignature.eq_def] at hok
    simp [hconv, htr] at hok
    first
    | (rcases hok with ⟨hr, hst⟩)
    | (injection hok with hpair
       injection hpair with hr hst)
    subst hr
    obtain ⟨hparts, hal1⟩ := ih parts st1 hconv hgp hal
    obtain ⟨hrv, hal2⟩ := ihr rv st2x htr hgr hal1
    have h1 : qltFree (ts ++ joinSep ", " parts) = true :=
      qltFree_append hts
        (joinSep_qltFree ", " (by decide) (by decide) (by decide) (by decide)
          parts hparts) (Or.inl htl)
    have h2 : qltFree (ts ++ joinSep ", " parts ++ ")") = true :=
      qltFree_append_r h1 (by decide) (by decide)
    refine ⟨?_, ?_⟩
    · split
      next hre => exact h2
      next hre =>
        have h3 : qltFree (ts ++ joinSep ", " parts ++ ")" ++ ": ") = true :=
          qltFree_append_r h2 (by decide) (by decide)
        refine qltFree_append h3 hrv (Or.inl ?_)
        rw [strLast_append (by decide)]
        decide
    · first
      | (subst hst
         exact hal2)
      | (rw [← hst]
         exact hal2)
  case case87 =>
    intro pds st
    intro rs stm hok hcl hal
    rw [convertParamsGo.eq_def] at hok
    simp at hok
    obtain ⟨h1x, h2x⟩ := hok
    subst h1x
    refine ⟨?_, ?_⟩
    · intro x hx
      exact absurd hx (List.not_mem_nil x)
    · first
      | (subst h2x
         exact hal)
      | (rw [← h2x]
         exact hal)
  case case88 =>
    intro st u rest
    intro rs stm hok hcl hal
    rw [convertParamsGo.eq_def] at hok
    simp at hok
  case case89 =>
    intro st u rest d ds varArgs hv hobj e herr ih
    intro rs stm hok hcl hal
    have hvd : varArgs = d.dotsTok := rfl
    clear_value varArgs
    subst hvd
    rw [convertParamsGo.eq_def] at hok
    simp [hv, hobj, herr] at hok
  case case90 =>
    intro st u rest d ds varArgs hv hobj parts st1 hconv ih
    intro rs stm hok hcl hal
    have hvd : varArgs = d.dotsTok := rfl
    clear_value varArgs
    subst hvd
    rw [convertParamsGo.eq_def] at hok
    simp [hv, hobj, hconv] at hok
    first
    | (rcases hok with ⟨hr, hst⟩)
    | (injection hok with hpair
       injection hpair with hr hst)
    subst hr
    obtain ⟨hrest, hal1⟩ := ih parts st1 hconv (c5TyList_tail hcl) hal
    refine ⟨?_, ?_⟩
    · intro x hx
      rcases List.mem_cons.mp hx with rfl | hxm
      · decide
      · exact hrest x hxm
    · first
      | (subst hst
         exact hal1)
      | (rw [← hst]
         exact hal1)
  case case91 =>
    intro st u rest d ds varArgs hv hobj href e herr ih
    intro rs stm hok hcl hal
    have hvd : varArgs = d.dotsTok := rfl
    clear_value varArgs
    subst hvd
    rw [convertParamsGo.eq_def] at hok
    simp [hv, hobj, href, herr] at hok
  case case92 =>
    intro st u rest d ds varArgs hv hobj href parts st1 hconv ih
    intro rs stm hok hcl hal
    have hvd : varArgs = d.dotsTok := rfl
    clear_value varArgs
    subst hvd
    rw [convertParamsGo.eq_def] at hok
    simp [hv, hobj, href, hconv] at hok
    first
    | (rcases hok with ⟨hr, hst⟩)
    | (injection hok with hpair
       injection hpair with hr hst)
    subst hr
    obtain ⟨hrest, hal1⟩ := ih parts st1 hconv (c5TyList_tail hcl) hal
    refine ⟨?_, ?_⟩
    · intro x hx
      rcases List.mem_cons.mp hx with rfl | hxm
      · decide
      · exact hrest x hxm
    · first
      | (subst hst
         exact hal1)
      | (rw [← hst]
         exact hal1)
  case case93 =>
    intro st u rest d ds varArgs hv hobj href hargs ih
    intro rs stm hok hcl hal
    have hvd : varArgs = d.dotsTok := rfl
    clear_value varArgs
    subst hvd
    rw [convertParamsGo.eq_def] at hok
    simp [hv, hobj, href] at hok
    split at hok
    next heq => exact ih rs stm hok (c5TyList_tail hcl) hal
    next heq => rw [hargs] at heq; cases heq
    next a tl heq => rw [hargs] at heq; cases heq
  case case94 =>
    intro st u rest d ds varArgs hv hobj href hargs
    intro rs stm hok hcl hal
    have hvd : varArgs = d.dotsTok := rfl
    clear_value varArgs
    subst hvd
    rw [convertParamsGo.eq_def] at hok
    simp [hv, hobj, href] at hok
    split at hok
    next heq => rw [hargs] at heq; cases heq
    next heq => cases hok
    next a tl heq => rw [hargs] at heq; cases heq
  case case95 =>
    intro st u rest d ds varArgs hv hobj href a tl hargs e herr ih
    intro rs stm hok hcl hal
    have hvd : varArgs = d.dotsTok := rfl
    clear_value varArgs
    subst hvd
    rw [convertParamsGo.eq_def] at hok
    simp [hv, hobj, href] at hok
    split at hok
    next heq => rw [hargs] at heq; cases heq
    next heq => rw [hargs] at heq; cases heq
    next a2 tl2 heq =>
      rw [hargs] at heq
      injection heq with e2
      injection e2 with e3 e4
      subst e3
      simp [herr] at hok
  case case96 =>
    intro st u rest d ds varArgs hv hobj href a tl hargs s st1 htr e herr ih ihr
    intro rs stm hok hcl hal
    have hvd : varArgs = d.dotsTok := rfl
    clear_value varArgs
    subst hvd
    rw [convertParamsGo.eq_def] at hok
    simp [hv, hobj, href] at hok
    split at hok
    next heq => rw [hargs] at heq; cases heq
    next heq => rw [hargs] at heq; cases heq
    next a2 tl2 heq =>
      rw [hargs] at heq
      injection heq with e2
      injection e2 with e3 e4
      subst e3
      simp [htr, herr] at hok
  case case97 =>
    intro st u rest d ds varArgs hv hobj href a tl hargs s st1 htr parts st2x hconv ih ihr
    intro rs stm hok hcl hal
    have hvd : varArgs = d.dotsTok := rfl
    clear_value varArgs
    subst hvd
    rw [convertParamsGo.eq_def] at hok
    simp [hv, hobj, href] at hok
    split at hok
    next heq => rw [hargs] at heq; cases heq
    next heq => rw [hargs] at heq; cases heq
    next a2 tl2 heq =>
      rw [hargs] at heq
      injection heq with e2
      injection e2 with e3 e4
      subst e3
      simp [htr, hconv] at hok
      first
      | (rcases hok with ⟨hr, hst⟩)
      | (injection hok with hpair
         injection hpair with hr hst)
      subst hr
      obtain ⟨hs9, hal1⟩ :=
        ih s st1 htr (c5TyList_head (c5Ty_typeArgs (c5TyList_head hcl) hargs)) hal
      obtain ⟨hrest, hal2⟩ := ihr parts st2x hconv (c5TyList_tail hcl) hal1
      refine ⟨?_, ?_⟩
      · intro x hx
        rcases List.mem_cons.mp hx with rfl | hxm
        · have hdots : qltFree ("..." ++ s) = true :=
            qltFree_append (by decide) hs9 (Or.inl (by decide))
          split
          · exact qltFree_append_r hdots (by decide) (by decide)
          · exact hdots
        · exact hrest x hxm
      · first
        | (subst hst
           exact hal2)
        | (rw [← hst]
           exact hal2)
  case case98 =>
    intro st u rest d ds varArgs hv e herr ih
    intro rs stm hok hcl hal
    have hvd : varArgs = d.dotsTok := rfl
    clear_value varArgs
    subst hvd
    rw [convertParamsGo.eq_def] at hok
    simp [hv, herr] at hok
  case case99 =>
    intro st u rest d ds varArgs hv s st1 htr e herr ih ihr
    intro rs stm hok hcl hal
    have hvd : varArgs = d.dotsTok := rfl
    clear_value varArgs
    subst hvd
    rw [convertParamsGo.eq_def] at hok
    simp [hv, htr, herr] at hok
  case case100 =>
    intro st u rest d ds varArgs hv s st1 htr parts st2x hconv ih ihr
    intro rs stm hok hcl hal
    have hvd : varArgs = d.dotsTok := rfl
    clear_value varArgs
    subst hvd
    rw [convertParamsGo.eq_def] at hok
    simp [hv, htr, hconv] at hok
    first
    | (rcases hok with ⟨hr, hst⟩)
    | (injection hok with hpair
       injection hpair with hr hst)
    subst hr
    obtain ⟨hs9, hal1⟩ := ih s st1 htr (c5TyList_head hcl) hal
    obtain ⟨hrest, hal2⟩ := ihr parts st2x hconv (c5TyList_tail hcl) hal1
    refine ⟨?_, ?_⟩
    · intro x hx
      rcases List.mem_cons.mp hx with rfl | hxm
      · split
        · exact qltFree_append_r hs9 (by decide) (by decide)
        · exact hs9
      · exact hrest x hxm
    · first
      | (subst hst
         exact hal2)
      | (rw [← hst]
         exact hal2)
  case case101 =>
    intro callable indexable fields st
    intro c2 i2 fs2 st2 hok hcm hfs hal
    rw [anonMembers.eq_def] at hok
    simp at hok
    obtain ⟨h1x, h2x, h3x, h4x⟩ := hok
    subst h3x
    refine ⟨hfs, ?_⟩
    first
    | (subst h4x
       exact hal)
    | (rw [← h4x]
       exact hal)
  case case102 =>
    intro callable indexable fields st mty rest ih
    intro c2 i2 fs2 st2 hok hcm hfs hal
    rw [anonMembers.eq_def] at hok
    simp at hok
    exact ih c2 i2 fs2 st2 hok (c5Members_tail hcm) hfs hal
  case case103 =>
    intro callable indexable fields st mty rest hne ih
    intro c2 i2 fs2 st2 hok hcm hfs hal
    rw [anonMembers.eq_def] at hok
    simp at hok
    exact ih c2 i2 fs2 st2 hok (c5Members_tail hcm) hfs hal
  case case104 =>
    intro callable indexable fields st field mty rest h1 h2 hinv ih
    intro c2 i2 fs2 st2 hok hcm hfs hal
    rw [anonMembers.eq_def] at hok
    simp [h1, h2, hinv] at hok
    exact ih c2 i2 fs2 st2 hok (c5Members_tail hcm) hfs hal
  case case105 =>
    intro callable indexable fields st field mty rest h1 h2 hval e herr ih
    intro c2 i2 fs2 st2 hok hcm hfs hal
    rw [anonMembers.eq_def] at hok
    simp [h1, h2, hval, herr] at hok
  case case106 =>
    intro callable indexable fields st field mty rest h1 h2 hval s st1 htr ih ihr
    intro c2 i2 fs2 st2 hok hcm hfs hal
    rw [anonMembers.eq_def] at hok
    simp [h1, h2, hval, htr] at hok
    have hvt : isValidClosurePropertyName field = true := by
      cases hb : isValidClosurePropertyName field
      · exact absurd (by simp [hb]) hval
      · rfl
    obtain ⟨hs9, hal1⟩ := ih s st1 htr (c5Members_head hcm) hal
    have hentry : qltFree (field ++ ": " ++ s) = true := by
      have ha : qltFree (field ++ ": ") = true :=
        qltFree_append (validName_qltFree hvt) (by decide) (Or.inr (by decide))
      refine qltFree_append ha hs9 (Or.inl ?_)
      rw [strLast_append (by decide)]
      decide
    have hfs2 : ∀ x ∈ fields ++ [field ++ ": " ++ s], qltFree x = true := by
      intro x hx
      rcases List.mem_append.mp hx with hx1 | hx2
      · exact hfs x hx1
      · rcases List.mem_singleton.mp hx2 with rfl
        exact hentry
    exact ihr c2 i2 fs2 st2 hok (c5Members_tail hcm) hfs2 hal1

end TsickleTT

namespace TsickleTT

/-! ## Claim C5 -/

/-- An `Any`-flagged type; `translate` renders it as the unknown sentinel
`?`. -/
def tyQ : Ty := tyBase 96 1

/-- A reference type whose target is `tyQ` and which carries a type
argument, exercising the `typeStr === '?'` early return of
`translateObject`. -/
def tyRefQ : Ty :=
  .mk 97 524288 ObjectFlags.Reference none (some tyQ) (some [tyQ]) [] [] []
    none none none

/-- A class symbol whose entity name renders as the identifier `Foo`. -/
def symC : Sym := .mk 5 32 "Foo" none none none

/-- A class object type named by `symC`. -/
def tyC : Ty :=
  .mk 98 524288 ObjectFlags.Class (some symC) none none [] [] [] none none none

/-- A reference to the class `tyC` with one (`Any`) type argument. -/
def tyRefC : Ty :=
  .mk 99 524288 ObjectFlags.Reference none (some tyC) (some [tyQ]) [] [] []
    none none none

/-- An environment that resolves every symbol to an `ident` entity name
with text `Foo` and uses a constant module identifier. -/
def env3 : Env :=
  ⟨false, none, fun s => s, fun _ => "mod", fun sym => some (.ident sym "Foo"),
    fun s => s, fun _ m => m, "f.ts"⟩

/-- No sid is classified as a type parameter. -/
def tpS0 : Nat → Bool := fun _ => false

theorem claim_C5 :
    ∀ (env : Env) (tpS : Nat → Bool),
      (envNameOk env tpS →
        ∀ (t : Ty) (st : St) (r : String) (st' : St),
          tpAliasOk tpS st.aliases →
          translate env t st = .ok (r, st') → c5Ty tpS t = true →
          qltFree r = true) ∧
      (∀ (t tgt : Ty) (st st1 : St),
        (∀ s, t.symbol = some s → isBlackListedInst env s = false) →
        t.objFlags &&& ObjectFlags.Class = 0 →
        t.objFlags &&& ObjectFlags.Interface = 0 →
        t.objFlags &&& ObjectFlags.Reference ≠ 0 →
        t.target = some tgt →
        tgt.objFlags &&& ObjectFlags.Tuple = 0 →
        tgt.tid ≠ t.tid →
        translate env tgt st = .ok ("?", st1) →
        translateObject env t st = .ok ("?", st1)) := by
  intro env tpS
  constructor
  · intro henv t st r st' hal hok hc
    exact ((qfc_pack env tpS henv).1 t st r st' hok hc hal).1
  · intro t tgt st st1 hbl hcls hint href htg htup htid htr
    rw [translateObject.eq_def]
    split
    next hb =>
      exfalso
      split at hb
      next s heq => rw [hbl s heq] at hb; cases hb
      next heq => cases hb
    next hb =>
      split
      next h2 => exact absurd h2 (not_ne_iff.mpr hcls)
      next h2 =>
        split
        next h3 => exact absurd h3 (not_ne_iff.mpr hint)
        next h3 =>
          split
          next heq => rw [htg] at heq; cases heq
          next tgt2 heq =>
            rw [htg] at heq
            injection heq with e2
            subst e2
            split
            next h5 => exact absurd h5 (not_ne_iff.mpr htup)
            next h5 =>
              split
              next e heq2 => rw [htr] at heq2; cases heq2
              next s2 st2v heq2 =>
                rw [htr] at heq2
                injection heq2 with e3
                injection e3 with e4 e5
                subst e4
                subst e5
                simp

theorem claim_C5_witness :
    (translate env3 tyRefC st0 = .ok ("!Foo<?>", st0) ∧
      c5Ty tpS0 tyRefC = true ∧ qltFree "!Foo<?>" = true) ∧
    translateObject env3 tyRefQ st0 = .ok ("?", st0) := by
  have henv3 : envNameOk env3 tpS0 := by
    refine ⟨?_, ?_, ?_⟩
    · intro f c hc
      exact (by decide : ∀ x ∈ ("mod" : String).data, x ≠ '<') c hc
    · intro sym al h
      exact h
    · intro sym name h
      injection h with e
      subst e
      refine ⟨?_, ?_, fun _ => rfl⟩
      · show ("Foo" : String).data.all (fun c => !(c = '<')) = true
        decide
      · show ("Foo" : String).data.getLast? ≠ some '?'
        decide
  have hal0 : tpAliasOk tpS0 st0.aliases :=
    fun e he => absurd he (List.not_mem_nil e)
  have h1 : translate env3 tyQ st0 = .ok ("?", st0) := by
    rw [translate.eq_def]
    rfl
  have hC : translate env3 tyC st0 = .ok ("!Foo", st0) := by
    rw [translate.eq_def, translateObject.eq_def]
    rfl
  have hnil : translateList env3 [] st0 = .ok ([], st0) := by
    rw [translateList.eq_def]
  have hlist : translateList env3 [tyQ] st0 = .ok (["?"], st0) := by
    rw [translateList.eq_def]
    simp only [h1, hnil]
  have hRefC : translate env3 tyRefC st0 = .ok ("!Foo<?>", st0) := by
    rw [translate.eq_def, translateObject.eq_def]
    simp only [tyRefC, Ty.flags, Ty.tid, Ty.objFlags, Ty.target, Ty.typeArgs,
      Ty.symbol, hC, hlist]
    rfl
  have hcC : c5Ty tpS0 tyRefC = true := by
    rw [c5Ty.eq_def]
    simp [refTargetOk, c5TyList, c5SigList, c5Members, c5Ty, tyRefC, tyC, tyQ,
      tyBase, symC, Ty.flags, Ty.objFlags, Ty.target, Ty.typeArgs,
      Ty.unionTypes, Ty.ctorSigs, Ty.callSigs, Ty.strIndexTy, Ty.numIndexTy,
      Ty.symbol, Sym.flags, Sym.members, ObjectFlags.Reference,
      ObjectFlags.Class, ObjectFlags.Tuple, flagsMask, TypeFlags.ObjectF,
      SymbolFlags.TypeParameter]
    decide
  refine ⟨⟨hRefC, hcC, ?_⟩, ?_⟩
  · exact (claim_C5 env3 tpS0).1 henv3 tyRefC st0 "!Foo<?>" st0 hal0 hRefC hcC
  · exact (claim_C5 env3 tpS0).2 tyRefQ tyQ st0 st0
      (fun s hs => absurd hs (by simp [tyRefQ, Ty.symbol]))
      (by decide) (by decide) (by decide) rfl (by decide) (by decide) h1

end TsickleTT
